import Mathlib

/-!
# Hyrise (opossum): sort-merge join, MVCC visibility, table builder, new order

A shallow embedding of `src/lib/operators/sort_merge_join.cpp`, of the visibility rule
exercised by `src/test/operators/validate_visibility_test.cpp`, of the `TableBuilder`,
the money conversion and the column tuples of
`src/benchmarklib/tpch/tpch_db_generator.cpp`, of the task construction and the
transaction of `src/benchmark-libs/tpcc/new_order.cpp`, and of the description of
`src/lib/logical_query_plan/predicate_node.cpp`.

Conventions of the embedding

* `std::vector<X>` is `List X`; `v.at(i)` is a fallible read that raises
  `Failure.out_of_range` exactly when `i ≥ v.size()`; `v[i]` outside the vector is
  undefined behaviour in C++ and is reported as `Failure.undefined`.
* `size_t` / `int` counters are `Nat`; partitions are assumed to hold fewer than
  `2^31` rows, so no counter wraps.
* Member functions of `SortMergeJoinImpl<T>` take the object as `self` and return the
  updated object (`Except Failure`), exceptions being the `error` case.
* `for` and `while` loops are the combinators `for_loop`, `for_each` and `while_loop`.
* A shared pointer to a table is the table; an operator or task object of `new_order.cpp`
  is named by the local variable that holds it.
* A floating point value is the rational number it denotes; no rounding is modelled.
-/

namespace opossum

/-! ## Failures, row identifiers, position lists -/

/-- Ways in which the embedded C++ code can stop without a result. -/
inductive Failure where
  /-- The exception `std::out_of_range`, thrown by `std::vector::at`. -/
  | out_of_range
  /-- A `DebugAssert` whose condition is false; carries the message. -/
  | assertion (message : String)
  /-- An `operator[]` outside of a vector. -/
  | undefined
  /-- A table has no column of the requested name. -/
  | column_not_found
  /-- The iteration bound of `while_loop` was used up with the condition still true. -/
  | loop_bound
  /-- The exception `boost::bad_get`, thrown by `boost::get` on a variant of another type. -/
  | bad_get
  deriving DecidableEq, Repr

/-- Modelled from the spec: the declaration of `INVALID_CHUNK_OFFSET` (types.hpp) is not
part of the sources; the spec only says that it "denotes a null row reference".  The
largest 32-bit offset is used. -/
def INVALID_CHUNK_OFFSET : Nat := 4294967295

/-- A `RowID` is the pair `(ChunkID, ChunkOffset)`. -/
structure RowID where
  chunk_id : Nat
  chunk_offset : Nat
  deriving DecidableEq, Repr

/-- The value `RowID{ChunkID{0}, INVALID_CHUNK_OFFSET}` built by the null emitters. -/
def null_row : RowID := ⟨0, INVALID_CHUNK_OFFSET⟩

/-- The type `PosList`: a vector of row ids. -/
abbrev PosList := List RowID

/-- Join modes.  Modelled from the spec: the enum declaration is not part of the
sources; the spec lists the names `Inner, Left, Right, Outer, Cross`. -/
inductive JoinMode where
  | Inner | Left | Right | Outer | Cross
  deriving DecidableEq, Repr

/-! ## Assertions, loops and vector access -/

/-- Modelled from the spec: the macro `DebugAssert` is not part of the sources.  A false
condition stops the operation with a failure ("fail ... at construction"), a true one
does nothing. -/
def DebugAssert (condition : Bool) (message : String) : Except Failure Unit :=
  if condition then .ok () else .error (.assertion message)

/-- The bounds-checked read `v.at(i)` of a `std::vector`. -/
def vector_at {α : Type} (v : List α) (i : Nat) : Except Failure α :=
  match v[i]? with
  | some x => .ok x
  | none => .error .out_of_range

/-- The unchecked read `v[i]` of a `std::vector`. -/
def vector_index {α : Type} (v : List α) (i : Nat) : Except Failure α :=
  match v[i]? with
  | some x => .ok x
  | none => .error .undefined

/-- The loop `for (i = index; i < index + count; i++) body(i)` on an explicit state. -/
def for_loop {σ : Type} (body : Nat → σ → Except Failure σ) : Nat → Nat → σ → Except Failure σ
  | 0, _, s => .ok s
  | count + 1, index, s =>
    match body index s with
    | .ok s1 => for_loop body count (index + 1) s1
    | .error e => .error e

/-- The loop `while (cond) body` on an explicit state, with an iteration bound. -/
def while_loop {σ : Type} (cond : σ → Bool) (body : σ → Except Failure σ) :
    Nat → σ → Except Failure σ
  | 0, s => if cond s then .error .loop_bound else .ok s
  | bound + 1, s =>
    if cond s then
      match body s with
      | .ok s1 => while_loop cond body bound s1
      | .error e => .error e
    else .ok s

/-! ## Sorted tables, positions and ranges -/

/-- The `values` vector of one partition: `(RowID, key)` pairs. -/
abbrev Partition (T : Type) := List (RowID × T)

/-- Modelled from the spec: the declaration of `SortedTable<T>` (radix_partition_sort.hpp)
is not part of the sources.  The join reads `partitions[i].values` only, a vector of
`(RowID, key)` pairs per partition, each partition "sorted by key". -/
structure SortedTable (T : Type) where
  partitions : List (Partition T)

/-- Embedding of `TablePosition`: a partition and an index in it. -/
structure TablePosition where
  partition : Nat
  index : Nat
  deriving DecidableEq, Repr

/-- Embedding of `TableRange`: from a start position to an end position (`end` in the source). -/
structure TableRange where
  start : TablePosition
  stop : TablePosition
  deriving DecidableEq, Repr

/-- Embedding of `TablePosition::to`. -/
def TablePosition.to (self position : TablePosition) : TableRange := ⟨self, position⟩

/-- The constructor `TableRange(partition, start_index, end_index)`. -/
def TableRange.of_partition (partition start_index end_index : Nat) : TableRange :=
  ⟨⟨partition, start_index⟩, ⟨partition, end_index⟩⟩

/-- Embedding of `TableRange::for_every_row_id`: runs `action` on every row id of the range, partition
by partition and index by index. -/
def TableRange.for_every_row_id {T σ : Type} (self : TableRange) (table : SortedTable T)
    (action : RowID → σ → Except Failure σ) (s : σ) : Except Failure σ :=
  for_loop (fun partition s1 => do
      let values ← vector_index table.partitions partition
      let start_index := if partition = self.start.partition then self.start.index else 0
      let end_index := if partition = self.stop.partition then self.stop.index else values.length
      for_loop (fun index s2 => do
          let entry ← vector_at values index
          action entry.1 s2)
        (end_index - start_index) start_index s1)
    (self.stop.partition + 1 - self.start.partition) self.start.partition s

/-! ## SortMergeJoinImpl -/

/-- The members of `SortMergeJoinImpl<T>` that the join uses. -/
structure SortMergeJoinImpl (T : Type) where
  _sorted_left_table : SortedTable T
  _sorted_right_table : SortedTable T
  _op : String
  _mode : JoinMode
  _partition_count : Nat
  _output_pos_lists_left : List PosList
  _output_pos_lists_right : List PosList

namespace SortMergeJoinImpl

variable {T : Type} [LinearOrder T]

/-- The constructor: one partition, one empty output list per partition and side. -/
def create (sorted_left sorted_right : SortedTable T) (op : String) (mode : JoinMode) :
    SortMergeJoinImpl T :=
  { _sorted_left_table := sorted_left
    _sorted_right_table := sorted_right
    _op := op
    _mode := mode
    _partition_count := 1
    _output_pos_lists_left := List.replicate 1 []
    _output_pos_lists_right := List.replicate 1 [] }

/-- Embedding of `_end_of_table`: the position behind the last entry of the last partition. -/
def _end_of_table (table : SortedTable T) : Except Failure TablePosition := do
  let last_partition := table.partitions.length - 1
  let values ← vector_index table.partitions last_partition
  return ⟨last_partition, values.length⟩

/-- Embedding of `_emit_combination`: appends one row id to the left and one to the right output. -/
def _emit_combination (self : SortMergeJoinImpl T) (output_partition : Nat)
    (left right : RowID) : Except Failure (SortMergeJoinImpl T) := do
  let out_left ← vector_index self._output_pos_lists_left output_partition
  let out_right ← vector_index self._output_pos_lists_right output_partition
  return { self with
    _output_pos_lists_left := self._output_pos_lists_left.set output_partition (out_left ++ [left])
    _output_pos_lists_right :=
      self._output_pos_lists_right.set output_partition (out_right ++ [right]) }

/-- Embedding of `_emit_combinations`: the cross product of two ranges. -/
def _emit_combinations (self : SortMergeJoinImpl T) (output_partition : Nat)
    (left_range right_range : TableRange) : Except Failure (SortMergeJoinImpl T) :=
  left_range.for_every_row_id self._sorted_left_table (fun left_row_id s1 =>
    right_range.for_every_row_id self._sorted_right_table (fun right_row_id s2 =>
      _emit_combination s2 output_partition left_row_id right_row_id) s1) self

/-- Embedding of `_emit_right_null_combinations`: every left row of the range with a null right side. -/
def _emit_right_null_combinations (self : SortMergeJoinImpl T) (output_partition : Nat)
    (left_range : TableRange) : Except Failure (SortMergeJoinImpl T) :=
  left_range.for_every_row_id self._sorted_left_table (fun left_row_id s1 =>
    _emit_combination s1 output_partition left_row_id null_row) self

/-- Embedding of `_emit_left_null_combinations`: every right row of the range with a null left side. -/
def _emit_left_null_combinations (self : SortMergeJoinImpl T) (output_partition : Nat)
    (right_range : TableRange) : Except Failure (SortMergeJoinImpl T) :=
  right_range.for_every_row_id self._sorted_right_table (fun right_row_id s1 =>
    _emit_combination s1 output_partition null_row right_row_id) self

/-- Embedding of `_join_runs`: joins one left run with one right run. -/
def _join_runs (self : SortMergeJoinImpl T) (partition_number : Nat)
    (left_run right_run : TableRange) : Except Failure (SortMergeJoinImpl T) := do
  let left_partition ← vector_index self._sorted_left_table.partitions partition_number
  let right_partition ← vector_index self._sorted_right_table.partitions partition_number
  let _ ← vector_index self._output_pos_lists_left partition_number
  let _ ← vector_index self._output_pos_lists_right partition_number
  let left_value := (← vector_at left_partition left_run.start.index).2
  let right_value := (← vector_at right_partition right_run.start.index).2
  let end_of_left_table ← _end_of_table self._sorted_left_table
  let end_of_right_table ← _end_of_table self._sorted_right_table
  if self._op = "=" then
    if left_value = right_value then
      _emit_combinations self partition_number left_run right_run
    else if left_value < right_value then
      if self._mode = .Left ∨ self._mode = .Outer then
        _emit_right_null_combinations self partition_number left_run
      else return self
    else
      if self._mode = .Right ∨ self._mode = .Outer then
        _emit_left_null_combinations self partition_number right_run
      else return self
  else if self._op = ">" then
    let s1 ← if left_value > right_value then
        _emit_combinations self partition_number (left_run.start.to end_of_left_table) right_run
      else pure self
    if left_value = right_value then
      _emit_combinations s1 partition_number (left_run.stop.to end_of_left_table) right_run
    else return s1
  else if self._op = ">=" ∧ left_value ≥ right_value then
    _emit_combinations self partition_number (left_run.start.to end_of_left_table) right_run
  else if self._op = "<" then
    let s1 ← if left_value < right_value then
        _emit_combinations self partition_number left_run (right_run.start.to end_of_right_table)
      else pure self
    if left_value = right_value then
      _emit_combinations s1 partition_number left_run (right_run.stop.to end_of_right_table)
    else return s1
  else if self._op = "<=" ∧ left_value ≤ right_value then
    _emit_combinations self partition_number left_run (right_run.start.to end_of_right_table)
  else return self

/-- Embedding of `_run_length`: the length of the run of equal keys that starts at `start_index`. -/
def _run_length (start_index : Nat) (values : Partition T) : Except Failure Nat := do
  let value := (← vector_at values start_index).2
  while_loop
    (fun offset =>
      decide (start_index + offset < values.length) &&
        (match values[start_index + offset]? with
          | some entry => decide (value = entry.2)
          | none => false))
    (fun offset => .ok (offset + 1))
    values.length 1

/-- The local variables of `_join_partition` that change in its merge loop, together with
the object (whose output lists the loop extends). -/
structure MergeState (T : Type) where
  self : SortMergeJoinImpl T
  left_run_start : Nat
  right_run_start : Nat
  left_run_end : Nat
  right_run_end : Nat

/-- One iteration of the `while` loop of `_join_partition`. -/
def _join_partition_body (partition_number : Nat) (left_partition right_partition : Partition T)
    (st : MergeState T) : Except Failure (MergeState T) := do
  let left_value := (← vector_at left_partition st.left_run_start).2
  let right_value := (← vector_at right_partition st.right_run_start).2
  let left_run := TableRange.of_partition partition_number st.left_run_start st.left_run_end
  let right_run := TableRange.of_partition partition_number st.right_run_start st.right_run_end
  let self1 ← _join_runs st.self partition_number left_run right_run
  if left_value = right_value then
    let left_run_start := st.left_run_end
    let right_run_start := st.right_run_end
    let left_run_end := left_run_start + (← _run_length left_run_start left_partition)
    let right_run_end := right_run_start + (← _run_length right_run_start right_partition)
    return ⟨self1, left_run_start, right_run_start, left_run_end, right_run_end⟩
  else if left_value < right_value then
    let left_run_start := st.left_run_end
    let left_run_end := left_run_start + (← _run_length left_run_start left_partition)
    return ⟨self1, left_run_start, st.right_run_start, left_run_end, st.right_run_end⟩
  else
    let right_run_start := st.right_run_end
    let right_run_end := right_run_start + (← _run_length right_run_start right_partition)
    return ⟨self1, st.left_run_start, right_run_start, st.left_run_end, right_run_end⟩

/-- Embedding of `_join_partition`: the merge of one partition, then the tail handling of outer joins. -/
def _join_partition (self : SortMergeJoinImpl T) (partition_number : Nat) :
    Except Failure (SortMergeJoinImpl T) := do
  let left_partition ← vector_index self._sorted_left_table.partitions partition_number
  let right_partition ← vector_index self._sorted_right_table.partitions partition_number
  let left_run_start := 0
  let right_run_start := 0
  let left_run_end := left_run_start + (← _run_length left_run_start left_partition)
  let right_run_end := right_run_start + (← _run_length right_run_start right_partition)
  let left_size := left_partition.length
  let right_size := right_partition.length
  let st ← while_loop
    (fun st => decide (st.left_run_start < left_size) && decide (st.right_run_start < right_size))
    (_join_partition_body partition_number left_partition right_partition)
    (left_size + right_size)
    ⟨self, left_run_start, right_run_start, left_run_end, right_run_end⟩
  let self1 ←
    if st.left_run_start = left_size ∧ (self._mode = .Right ∨ self._mode = .Outer) then
      _emit_left_null_combinations st.self partition_number
        (TableRange.of_partition partition_number st.right_run_start right_size)
    else pure st.self
  if st.right_run_start = right_size ∧ (self._mode = .Left ∨ self._mode = .Outer) then
    _emit_right_null_combinations self1 partition_number
      (TableRange.of_partition partition_number st.left_run_start left_size)
  else return self1

/-- Embedding of `_perform_join`: one job per partition, each running `_join_partition`.  A job only
touches the output lists of its own partition, so the jobs are run one after the other. -/
def _perform_join (self : SortMergeJoinImpl T) : Except Failure (SortMergeJoinImpl T) :=
  for_loop (fun partition_number s => _join_partition s partition_number)
    self._partition_count 0 self

/-- Embedding of `_concatenate_pos_lists`: appends the lists in order to a fresh list. -/
def _concatenate_pos_lists (pos_lists : List PosList) : PosList :=
  pos_lists.foldl (fun output pos_list => output ++ pos_list) []

/-- The part of `on_execute` that computes the two position lists `output_left` and
`output_right`.  The sorted tables set by `RadixPartitionSort` (not part of the sources)
are the members `_sorted_left_table` and `_sorted_right_table` of `self`. -/
def on_execute (self : SortMergeJoinImpl T) : Except Failure (PosList × PosList) := do
  DebugAssert (decide (self._partition_count > 0)) "partition count is <= 0!"
  let self1 ← _perform_join self
  let output_left := _concatenate_pos_lists self1._output_pos_lists_left
  let output_right := _concatenate_pos_lists self1._output_pos_lists_right
  return (output_left, output_right)

end SortMergeJoinImpl

/-! ## Scenarios -/

/-- Left rows `a, b, c` of scenario D. -/
def row_a : RowID := ⟨0, 0⟩
/-- See `row_a`. -/
def row_b : RowID := ⟨0, 1⟩
/-- See `row_a`. -/
def row_c : RowID := ⟨0, 2⟩
/-- The extra left row `d` of scenario E. -/
def row_d : RowID := ⟨0, 3⟩
/-- Right rows `x, y, z` of scenario D. -/
def row_x : RowID := ⟨0, 0⟩
/-- See `row_x`. -/
def row_y : RowID := ⟨0, 1⟩
/-- See `row_x`. -/
def row_z : RowID := ⟨0, 2⟩

/-- Scenario D, left input `[(a,1),(b,1),(c,2)]`, sorted by key in one partition. -/
def scenario_D_left : SortedTable Nat := ⟨[[(row_a, 1), (row_b, 1), (row_c, 2)]]⟩
/-- Scenario D, right input `[(x,1),(y,2),(z,2)]`. -/
def scenario_D_right : SortedTable Nat := ⟨[[(row_x, 1), (row_y, 2), (row_z, 2)]]⟩
/-- Scenario E, left input: scenario D with the extra row `(d,3)`. -/
def scenario_E_left : SortedTable Nat :=
  ⟨[[(row_a, 1), (row_b, 1), (row_c, 2), (row_d, 3)]]⟩

/-! ## The constructor of SortMergeJoin -/

/-- Modelled from the spec: the class `Table` is not part of the sources.  Of a table the
constructor reads the "ordered schema of `(name, type)` pairs" only. -/
structure Table where
  schema : List (String × String)

/-- Modelled from the spec: `Table::column_id_by_name`, the index of the first column of
that name, `ColumnNotFound` when there is none. -/
def Table.column_id_by_name (self : Table) (column_name : String) : Except Failure Nat :=
  match self.schema.findIdx? (fun c => c.1 == column_name) with
  | some column_id => .ok column_id
  | none => .error .column_not_found

/-- Modelled from the spec: `Table::column_type`, the type name of a column. -/
def Table.column_type (self : Table) (column_id : Nat) : Except Failure String :=
  match self.schema[column_id]? with
  | some c => .ok c.2
  | none => .error .out_of_range

/-- An input operator as the constructor sees it: its output table. -/
structure AbstractOperator where
  get_output : Table

/-- The members of `SortMergeJoin` set by its constructor; `_impl` is the column type for
which `SortMergeJoinImpl` was instantiated by `make_unique_by_column_type`. -/
structure SortMergeJoin where
  _input_left : AbstractOperator
  _input_right : AbstractOperator
  _column_names : String × String
  _op : String
  _mode : JoinMode
  _impl : String

/-- Embedding of `SortMergeJoin::SortMergeJoin`: validates the parameters, checks the column types and
creates the implementation.  A null input operator is `none`. -/
def SortMergeJoin.create (left right : Option AbstractOperator)
    (column_names : Option (String × String)) (op : String) (mode : JoinMode) :
    Except Failure SortMergeJoin := do
  DebugAssert (mode != .Cross && column_names.isSome) "This operator does not support cross joins."
  DebugAssert left.isSome "The left input operator is null."
  DebugAssert right.isSome "The right input operator is null."
  DebugAssert (op == "=" || op == "<" || op == ">" || op == "<=" || op == ">=")
    ("unknown operator " ++ op)
  DebugAssert (op == "=" || mode == .Inner) "Outer joins are only implemented for equi joins."
  DebugAssert column_names.isSome "The column names are not optional for the SortMergeJoin."
  match left, right, column_names with
  | some input_left, some input_right, some (left_column_name, right_column_name) =>
    let left_column_id ← input_left.get_output.column_id_by_name left_column_name
    let right_column_id ← input_right.get_output.column_id_by_name right_column_name
    let left_column_type ← input_left.get_output.column_type left_column_id
    let right_column_type ← input_right.get_output.column_type right_column_id
    DebugAssert (left_column_type == right_column_type)
      "Left and right column types do not match. The SortMergeJoin requires matching column types"
    return ⟨input_left, input_right, (left_column_name, right_column_name), op, mode,
      left_column_type⟩
  | _, _, _ => throw .undefined

/-! ## Validate: MVCC visibility -/

/-- A row with its MVCC triple, as `validate_visibility_test.cpp` sets it
(`tids[0]`, `begin_cids[0]`, `end_cids[0]`), and its column values. -/
structure MvccRow where
  tid : Nat
  begin_cid : Nat
  end_cid : Nat
  values : List Int
  deriving DecidableEq, Repr

/-- The context `TransactionContext(our_tid, our_cid)` as the test constructs it. -/
structure TransactionContext where
  our_tid : Nat
  our_cid : Nat
  deriving DecidableEq, Repr

/-- Modelled from the spec: the operator `Validate` (validate.cpp) is not part of the
sources.  This is the truth table of §4.2.8, line by line, over
`A = (row_tid == our_tid)`, `B = (our_cid ≥ begin_cid)`, `C = (our_cid ≥ end_cid)`. -/
def is_row_visible (context : TransactionContext) (row : MvccRow) : Bool :=
  match decide (row.tid = context.our_tid), decide (context.our_cid ≥ row.begin_cid),
      decide (context.our_cid ≥ row.end_cid) with
  | true, true, true => false
  | false, true, true => false
  | true, false, true => false
  | true, true, false => false
  | false, false, true => false
  | true, false, false => true
  | false, true, false => true
  | false, false, false => false

/-- Modelled from the spec: `Validate` retains "only visible rows according to the truth
table", in the order of its input. -/
def Validate (context : TransactionContext) (input : List MvccRow) : List MvccRow :=
  input.filter (is_row_visible context)

/-- The table of the test fixture: one row `{123, 456}`, with the MVCC triple a test
writes into it. -/
def test_table (tid begin_cid end_cid : Nat) : List MvccRow :=
  [⟨tid, begin_cid, end_cid, [123, 456]⟩]

/-- Modelled from the spec: §4.4 step 6, an aborted insert is tombstoned by
`end_cid := 0`. -/
def tombstoned (row : MvccRow) : Prop := row.end_cid = 0

/-! ## Predicates used in the statements about the join -/

/-- A range ends inside the table: its end partition exists and its end index is at most
the size of that partition. -/
def TableRange.within {T : Type} (self : TableRange) (table : SortedTable T) : Prop :=
  ∃ values, table.partitions[self.stop.partition]? = some values ∧
    self.stop.index ≤ values.length

/-- The state `b` differs from `a` in the contents of the output lists only. -/
def SortMergeJoinImpl.same_frame {T : Type} (a b : SortMergeJoinImpl T) : Prop :=
  b._sorted_left_table = a._sorted_left_table ∧
  b._sorted_right_table = a._sorted_right_table ∧
  b._op = a._op ∧ b._mode = a._mode ∧ b._partition_count = a._partition_count ∧
  b._output_pos_lists_left.length = a._output_pos_lists_left.length ∧
  b._output_pos_lists_right.length = a._output_pos_lists_right.length

/-- The run cursors of the merge loop delimit a non-empty run on each side. -/
def SortMergeJoinImpl.merge_invariant {T : Type} (self0 : SortMergeJoinImpl T)
    (left_partition right_partition : Partition T) (st : SortMergeJoinImpl.MergeState T) : Prop :=
  SortMergeJoinImpl.same_frame self0 st.self ∧
  st.left_run_start < st.left_run_end ∧ st.left_run_end ≤ left_partition.length ∧
  st.right_run_start < st.right_run_end ∧ st.right_run_end ≤ right_partition.length

/-! ## TableBuilder (benchmarklib/tpch/tpch_db_generator.cpp) -/

/-- The table a `TableBuilder` fills.  Modelled from the spec: the class `Table` is not part
of the sources; of `_table` the builder uses `max_chunk_size()` and `emplace_chunk`, which
appends a chunk to the "ordered list of chunks".  A chunk is the tuple of its value
columns, one vector per data type of the builder. -/
structure BuilderTable (V : Type) (k : Nat) where
  max_chunk_size : Nat
  chunks : List (Fin (k + 1) → List V)

/-- Embedding of `Table::emplace_chunk` as the builder uses it. -/
def BuilderTable.emplace_chunk {V : Type} {k : Nat} (self : BuilderTable V k)
    (chunk : Fin (k + 1) → List V) : BuilderTable V k :=
  { self with chunks := self.chunks ++ [chunk] }

/-- The members of `TableBuilder<DataTypes...>` with `k + 1` data types: the table and the
tuple `_column_vectors` of pending column vectors (`_use_mvcc` is only passed on to the
chunks and is left out). -/
structure TableBuilder (V : Type) (k : Nat) where
  _table : BuilderTable V k
  _column_vectors : Fin (k + 1) → List V

namespace TableBuilder

variable {V : Type} {k : Nat}

/-- The constructor: an empty table of the given chunk size, empty column vectors. -/
def create (chunk_size : Nat) : TableBuilder V k :=
  ⟨⟨chunk_size, []⟩, fun _ => []⟩

/-- Embedding of `_current_chunk_row_count`: the size of the first column vector. -/
def _current_chunk_row_count (self : TableBuilder V k) : Nat :=
  (self._column_vectors 0).length

/-- Embedding of `_emit_chunk`: moves every column vector into a value column of a new chunk,
re-initializes the vector and emplaces the chunk. -/
def _emit_chunk (self : TableBuilder V k) : TableBuilder V k :=
  { _table := self._table.emplace_chunk self._column_vectors
    _column_vectors := fun _ => [] }

/-- Embedding of `append_row`: pushes each value to its column vector and emits a chunk when
the chunk size is reached. -/
def append_row (self : TableBuilder V k) (column_values : Fin (k + 1) → V) : TableBuilder V k :=
  let self1 : TableBuilder V k :=
    { self with _column_vectors := fun j => self._column_vectors j ++ [column_values j] }
  if self1._current_chunk_row_count ≥ self1._table.max_chunk_size then
    self1._emit_chunk
  else self1

/-- Embedding of `finish_table`: emits the pending rows, if any, and returns the table. -/
def finish_table (self : TableBuilder V k) : BuilderTable V k :=
  let self1 := if self._current_chunk_row_count > 0 then self._emit_chunk else self
  self1._table

/-- The table after a sequence of `append_row` calls on a new builder, followed by
`finish_table`. -/
def build (chunk_size : Nat) (rows : List (Fin (k + 1) → V)) : BuilderTable V k :=
  (rows.foldl append_row (create chunk_size)).finish_table

end TableBuilder

/-- What holds for a builder after the rows `rows` were appended: the emitted chunks
followed by the pending vectors are the appended values, column by column, and all columns
of a chunk, and all pending vectors, have the same length. -/
def TableBuilder.data_invariant {V : Type} {k : Nat} (b : TableBuilder V k)
    (rows : List (Fin (k + 1) → V)) : Prop :=
  (∀ j, (b._table.chunks.map (fun chunk => chunk j)).flatten ++ b._column_vectors j
      = rows.map (fun row => row j)) ∧
  (∀ i j, (b._column_vectors i).length = (b._column_vectors j).length) ∧
  (∀ chunk ∈ b._table.chunks, ∀ i j, (chunk i).length = (chunk j).length)

/-- What holds for a builder of chunk size `c ≥ 1` after `n` rows were appended: every
emitted chunk is full, fewer than `c` rows are pending, and no row is lost. -/
def TableBuilder.size_invariant {V : Type} {k : Nat} (b : TableBuilder V k) (c n : Nat) :
    Prop :=
  b._table.max_chunk_size = c ∧
  (∀ chunk ∈ b._table.chunks, (chunk 0).length = c) ∧
  (b._column_vectors 0).length < c ∧
  b._table.chunks.length * c + (b._column_vectors 0).length = n

/-! ## Storage: values, columns, chunks, tables -/

/-- Modelled from the spec: `AllTypeVariant` (all_type_variant.hpp) is not part of the
sources.  A value is a "tagged union" over Int32, Int64, Float, Double and String; a
floating point value is represented by the rational number it denotes. -/
inductive AllTypeVariant where
  | int32 (value : Int)
  | int64 (value : Int)
  | float (value : Rat)
  | double (value : Rat)
  | string (value : String)
  deriving DecidableEq, Repr

namespace storage

mutual

/-- Modelled from the spec: the column classes are not part of the sources.  A
`ValueColumn<T>` is a "dense typed vector"; a `ReferenceColumn` is the "referenced table +
referenced column id + position list". -/
inductive BaseColumn where
  | ValueColumn (values : List AllTypeVariant)
  | ReferenceColumn (referenced_table : Table) (referenced_column_id : Nat) (pos_list : PosList)

/-- Modelled from the spec: a `Chunk` is a "parallel array of columns" (the MVCC columns
play no role in the output assembly and are left out). -/
inductive Chunk where
  | mk (columns : List BaseColumn)

/-- Modelled from the spec: a `Table` is an "ordered schema of `(name, type)` pairs" and an
"ordered list of chunks"; the schema is kept as the two vectors of names and types. -/
inductive Table where
  | mk (column_names : List String) (column_types : List String) (chunks : List Chunk)

end

/-- The columns of a chunk. -/
def Chunk.columns : Chunk → List BaseColumn
  | .mk columns => columns

/-- Modelled from the spec: `Chunk::get_column`. -/
def Chunk.get_column (self : Chunk) (column_id : Nat) : Except Failure BaseColumn :=
  vector_index self.columns column_id

/-- Modelled from the spec: `Chunk::add_column` appends a column. -/
def Chunk.add_column (self : Chunk) (column : BaseColumn) : Chunk :=
  .mk (self.columns ++ [column])

/-- The column names of a table. -/
def Table.column_names : Table → List String
  | .mk column_names _ _ => column_names

/-- The column types of a table. -/
def Table.column_types : Table → List String
  | .mk _ column_types _ => column_types

/-- The chunks of a table. -/
def Table.chunks : Table → List Chunk
  | .mk _ _ chunks => chunks

/-- Modelled from the spec: `std::make_shared<Table>()`, a table without columns.  The
output assembly adds columns to `get_chunk(ChunkID{0})` of such a table, so a new table
has one chunk without columns. -/
def Table.create : Table := .mk [] [] [.mk []]

/-- Modelled from the spec: `Table::col_count`, the number of columns of the schema. -/
def Table.col_count (self : Table) : Nat := self.column_types.length

/-- Modelled from the spec: `Table::chunk_count`. -/
def Table.chunk_count (self : Table) : Nat := self.chunks.length

/-- Modelled from the spec: `Table::column_name`. -/
def Table.column_name (self : Table) (column_id : Nat) : Except Failure String :=
  vector_index self.column_names column_id

/-- Modelled from the spec: `Table::column_type`. -/
def Table.column_type (self : Table) (column_id : Nat) : Except Failure String :=
  vector_index self.column_types column_id

/-- Modelled from the spec: `Table::get_chunk`. -/
def Table.get_chunk (self : Table) (chunk_id : Nat) : Except Failure Chunk :=
  vector_index self.chunks chunk_id

/-- Modelled from the spec: `Table::add_column_definition` extends the schema and creates
no column. -/
def Table.add_column_definition (self : Table) (name type : String) : Table :=
  .mk (self.column_names ++ [name]) (self.column_types ++ [type]) self.chunks

/-- The statement `table->get_chunk(chunk_id).add_column(column)`: the chunk is changed in
place. -/
def Table.add_column_to_chunk (self : Table) (chunk_id : Nat) (column : BaseColumn) :
    Except Failure Table := do
  let chunk ← self.get_chunk chunk_id
  return .mk self.column_names self.column_types (self.chunks.set chunk_id (chunk.add_column column))

end storage

/-- The loop `for (x : v) body(x)` over a vector, on an explicit state. -/
def for_each {α σ : Type} (body : α → σ → Except Failure σ) : List α → σ → Except Failure σ
  | [], s => .ok s
  | x :: xs, s =>
    match body x s with
    | .ok s1 => for_each body xs s1
    | .error e => .error e

namespace SortMergeJoinImpl

/-- Embedding of `_dereference_pos_list`: collects the position list of the column in every
chunk of the input table (the cast of a value column gives a null pointer, whose use is
undefined), then replaces every row of `pos_list` by the entry it points to. -/
def _dereference_pos_list (input_table : storage.Table) (column_id : Nat) (pos_list : PosList) :
    Except Failure PosList := do
  let input_pos_lists ← for_loop (fun chunk_id (input_pos_lists : List PosList) => do
      let b_column ← (← input_table.get_chunk chunk_id).get_column column_id
      match b_column with
      | .ReferenceColumn _ _ r_pos_list => return input_pos_lists ++ [r_pos_list]
      | .ValueColumn _ => throw .undefined)
    input_table.chunk_count 0 []
  for_each (fun row (new_pos_list : PosList) => do
      let input_pos_list ← vector_at input_pos_lists row.chunk_id
      let entry ← vector_at input_pos_list row.chunk_offset
      return new_pos_list ++ [entry])
    pos_list []

/-- Embedding of `_add_output_columns`: for every column of the input table, adds the
column definition with the prefixed name and a reference column to chunk 0 of the output
table. -/
def _add_output_columns (output_table input_table : storage.Table) (prefix_ : String)
    (pos_list : PosList) : Except Failure storage.Table :=
  for_loop (fun column_id (output_table : storage.Table) => do
      let column_name := prefix_ ++ (← input_table.column_name column_id)
      let column_type ← input_table.column_type column_id
      let output_table := output_table.add_column_definition column_name column_type
      let base_column ← (← input_table.get_chunk 0).get_column column_id
      match base_column with
      | .ReferenceColumn referenced_table referenced_column_id _ =>
        let new_pos_list ← _dereference_pos_list input_table column_id pos_list
        output_table.add_column_to_chunk 0
          (.ReferenceColumn referenced_table referenced_column_id new_pos_list)
      | .ValueColumn _ =>
        output_table.add_column_to_chunk 0 (.ReferenceColumn input_table column_id pos_list))
    input_table.col_count 0 output_table

end SortMergeJoinImpl

/-- The entry `input_pos_list[chunk_id][chunk_offset]` that a row of a position list over a
reference table points to: the entry at `chunk_offset` of the position list of column
`column_id` in chunk `chunk_id`; `none` when there is no such entry. -/
def referenced_position (input_table : storage.Table) (column_id : Nat) (row : RowID) :
    Option RowID :=
  match input_table.chunks[row.chunk_id]? with
  | some chunk =>
    match chunk.columns[column_id]? with
    | some (.ReferenceColumn _ _ pos_list) => pos_list[row.chunk_offset]?
    | _ => none
  | none => none

/-- A column is a reference column. -/
def storage.BaseColumn.is_reference : storage.BaseColumn → Bool
  | .ReferenceColumn _ _ _ => true
  | .ValueColumn _ => false

/-- A table contains value columns only. -/
def storage.Table.value_only (self : storage.Table) : Prop :=
  ∀ chunk ∈ self.chunks, ∀ column ∈ chunk.columns, column.is_reference = false

/-- Column `column_id` is a reference column in every chunk of the table. -/
def storage.Table.reference_in_every_chunk (self : storage.Table) (column_id : Nat) : Prop :=
  ∀ chunk ∈ self.chunks, ∃ column, chunk.columns[column_id]? = some column ∧
    column.is_reference = true

/-- What C11 says about the output column made for column `column_id` of the input table,
where `chunk0` is chunk 0 of the input table: for a reference column it references the
same table and column and its position list is, entry by entry, what the rows of the
join's position list point to; for a value column it references the input table and the
column, with the join's position list itself. -/
def flattened_column (input_table : storage.Table) (chunk0 : storage.Chunk) (pos_list : PosList)
    (column_id : Nat) (column : storage.BaseColumn) : Prop :=
  (∀ referenced_table referenced_column_id input_pos_list,
    chunk0.columns[column_id]? =
        some (.ReferenceColumn referenced_table referenced_column_id input_pos_list) →
      ∃ new_pos_list,
        column = .ReferenceColumn referenced_table referenced_column_id new_pos_list ∧
        new_pos_list.length = pos_list.length ∧
        new_pos_list.map some = pos_list.map (referenced_position input_table column_id)) ∧
  (∀ values, chunk0.columns[column_id]? = some (.ValueColumn values) →
      column = .ReferenceColumn input_table column_id pos_list)

/-- The data model of the spec for an input table: it holds value columns only, or all
its columns are reference columns and the tables they reference hold value columns
only. -/
def storage.Table.well_formed (self : storage.Table) : Prop :=
  self.value_only ∨
    ∀ chunk ∈ self.chunks, ∀ column ∈ chunk.columns,
      ∃ referenced_table referenced_column_id pos_list,
        column = .ReferenceColumn referenced_table referenced_column_id pos_list ∧
        referenced_table.value_only

/-- A value table with one column `a` and two rows, used in the scenarios of the output
assembly. -/
def scenario_value_table : storage.Table :=
  .mk ["a"] ["int"] [.mk [.ValueColumn [.int32 5, .int32 6]]]

/-- A reference table over `scenario_value_table` whose only column lists the rows 1, 0. -/
def scenario_reference_table : storage.Table :=
  .mk ["a"] ["int"] [.mk [.ReferenceColumn scenario_value_table 0 [⟨0, 1⟩, ⟨0, 0⟩]]]

/-! ## TPC-C new order (benchmark-libs/tpcc/new_order.cpp) -/

namespace tpcc

/-- The operator classes that `new_order.cpp` instantiates, with their constructor
arguments.  Modelled from the spec: the classes are not part of the sources.  An input
operator is given by the local variable that holds it. -/
inductive OperatorKind where
  | GetTable (table_name : String)
  | TableScan (input : String) (column_name : String) (op : String) (value : Int)
  | Product (left right : String)
  | Projection (input : String) (columns : List String)
  | ProjectionDefinitions (input : String) (definitions : List (String × String × String))
  | Update (table_name : String) (original_rows updated_rows : String)
  | CommitRecords
  deriving DecidableEq, Repr

/-- An operator object: the local variable that holds the shared pointer to it, what it
was constructed as, and the transaction context it was given, if any. -/
structure Operator where
  name : String
  kind : OperatorKind
  transaction_context : Option TransactionContext
  deriving DecidableEq, Repr

/-- The call `std::make_shared<...>(...)` for an operator: no transaction context yet. -/
def Operator.create (name : String) (kind : OperatorKind) : Operator :=
  ⟨name, kind, none⟩

/-- Embedding of `AbstractOperator::set_transaction_context`. -/
def Operator.set_transaction_context (self : Operator) (t_context : TransactionContext) :
    Operator :=
  { self with transaction_context := some t_context }

/-- An `OperatorTask`: the local variable that holds it, the variable of the operator it
wraps, and the tasks registered as its predecessors. -/
structure OperatorTask where
  name : String
  operator : String
  predecessors : List String
  deriving DecidableEq, Repr

/-- The call `std::make_shared<OperatorTask>(op)`, held by the variable `name`. -/
def OperatorTask.create (name : String) (op : Operator) : OperatorTask :=
  ⟨name, op.name, []⟩

/-- What a `get_..._tasks` function leaves behind: the operator objects it created, in
their final state, and the returned `TaskVector`. -/
structure TaskVector where
  operators : List Operator
  tasks : List OperatorTask
  deriving DecidableEq, Repr

/-- Modelled from the spec: `set_transaction_context_for_operators` (utils/helper.hpp) is
not part of the sources; it gives the context to every operator of the list.  The objects
are the entries of `objects`; the list names them by their variables. -/
def set_transaction_context_for_operators (t_context : TransactionContext)
    (operators : List Operator) (objects : List Operator) : List Operator :=
  objects.map (fun object =>
    if operators.any (fun op => op.name == object.name) then
      object.set_transaction_context t_context
    else object)

/-- Embedding of `a->set_as_predecessor_of(b)` on the tasks created so far. -/
def set_as_predecessor_of (a b : OperatorTask) (tasks : List OperatorTask) : List OperatorTask :=
  tasks.map (fun task =>
    if task.name = b.name then { task with predecessors := task.predecessors ++ [a.name] }
    else task)

/-- The returned vector `{t1, t2, ...}`: the listed tasks in their final state. -/
def task_vector (returned : List OperatorTask) (tasks : List OperatorTask) : List OperatorTask :=
  returned.filterMap (fun r => tasks.find? (fun task => task.name == r.name))

/-- Embedding of `NewOrderRefImpl::get_get_customer_and_warehouse_tax_rate_tasks`. -/
def get_get_customer_and_warehouse_tax_rate_tasks (t_context : TransactionContext)
    (w_id d_id c_id : Int) : TaskVector :=
  -- Operators
  let c_gt := Operator.create "c_gt" (.GetTable "CUSTOMER")
  let c_ts1 := Operator.create "c_ts1" (.TableScan c_gt.name "C_W_ID" "=" w_id)
  let c_ts2 := Operator.create "c_ts2" (.TableScan c_ts1.name "C_D_ID" "=" d_id)
  let c_ts3 := Operator.create "c_ts3" (.TableScan c_ts2.name "C_ID" "=" c_id)
  let w_gt := Operator.create "w_gt" (.GetTable "WAREHOUSE")
  let w_ts := Operator.create "w_ts" (.TableScan w_gt.name "W_ID" "=" w_id)
  let join := Operator.create "join" (.Product c_ts3.name w_ts.name)
  let columns := ["C_DISCOUNT", "C_LAST", "C_CREDIT", "W_TAX"]
  let proj := Operator.create "proj" (.Projection join.name columns)
  let objects := [c_gt, c_ts1, c_ts2, c_ts3, w_gt, w_ts, join, proj]
  let objects := set_transaction_context_for_operators t_context
    [c_gt, c_ts1, c_ts2, c_ts3, w_gt, w_ts, join, proj] objects
  -- Tasks
  let c_gt_t := OperatorTask.create "c_gt_t" c_gt
  let c_ts1_t := OperatorTask.create "c_ts1_t" c_ts1
  let c_ts2_t := OperatorTask.create "c_ts2_t" c_ts2
  let c_ts3_t := OperatorTask.create "c_ts3_t" c_ts3
  let w_gt_t := OperatorTask.create "w_gt_t" w_gt
  let w_ts_t := OperatorTask.create "w_ts_t" w_ts
  let join_t := OperatorTask.create "join_t" join
  let proj_t := OperatorTask.create "proj_t" proj
  let tasks := [c_gt_t, c_ts1_t, c_ts2_t, c_ts3_t, w_gt_t, w_ts_t, join_t, proj_t]
  -- Dependencies
  let tasks := set_as_predecessor_of c_gt_t c_ts1_t tasks
  let tasks := set_as_predecessor_of c_ts1_t c_ts2_t tasks
  let tasks := set_as_predecessor_of c_ts2_t c_ts3_t tasks
  let tasks := set_as_predecessor_of w_gt_t w_ts_t tasks
  let tasks := set_as_predecessor_of c_ts3_t join_t tasks
  let tasks := set_as_predecessor_of w_ts_t join_t tasks
  let tasks := set_as_predecessor_of join_t proj_t tasks
  ⟨objects, task_vector [c_gt_t, c_ts1_t, c_ts2_t, c_ts3_t, w_gt_t, w_ts_t, join_t, proj_t] tasks⟩

/-- Embedding of `NewOrderRefImpl::get_get_district_tasks`. -/
def get_get_district_tasks (t_context : TransactionContext) (d_id w_id : Int) : TaskVector :=
  -- Operators
  let gt := Operator.create "gt" (.GetTable "DISTRICT")
  let ts1 := Operator.create "ts1" (.TableScan gt.name "D_ID" "=" d_id)
  let ts2 := Operator.create "ts2" (.TableScan ts1.name "D_W_ID" "=" w_id)
  let columns := ["D_TAX", "D_NEXT_O_ID"]
  let proj := Operator.create "proj" (.Projection ts2.name columns)
  let objects := [gt, ts1, ts2, proj]
  let objects := set_transaction_context_for_operators t_context [gt, ts1, ts2, proj] objects
  -- Tasks
  let gt_t := OperatorTask.create "gt_t" gt
  let ts1_t := OperatorTask.create "ts1_t" ts1
  let ts2_t := OperatorTask.create "ts2_t" ts2
  let proj_t := OperatorTask.create "proj_t" proj
  let tasks := [gt_t, ts1_t, ts2_t, proj_t]
  -- Dependencies
  let tasks := set_as_predecessor_of gt_t ts1_t tasks
  let tasks := set_as_predecessor_of ts1_t ts2_t tasks
  let tasks := set_as_predecessor_of ts2_t proj_t tasks
  ⟨objects, task_vector [gt_t, ts1_t, ts2_t, proj_t] tasks⟩

/-- Embedding of `NewOrderRefImpl::get_increment_next_order_id_tasks`. -/
def get_increment_next_order_id_tasks (t_context : TransactionContext)
    (d_id d_w_id d_next_o_id : Int) : TaskVector :=
  -- Operators
  let gt := Operator.create "gt" (.GetTable "DISTRICT")
  let ts1 := Operator.create "ts1" (.TableScan gt.name "D_ID" "=" d_id)
  let ts2 := Operator.create "ts2" (.TableScan ts1.name "D_W_ID" "=" d_w_id)
  let columns := ["D_NEXT_O_ID"]
  let original_rows := Operator.create "original_rows" (.Projection ts2.name columns)
  let definitions := [(toString d_next_o_id ++ "+1", "int", "fix")]
  let updated_rows := Operator.create "updated_rows" (.ProjectionDefinitions ts2.name definitions)
  let update := Operator.create "update"
    (.Update "DISTRICT" original_rows.name updated_rows.name)
  let objects := [gt, ts1, ts2, original_rows, updated_rows, update]
  let objects := set_transaction_context_for_operators t_context
    [gt, ts1, ts2, original_rows, updated_rows, update] objects
  -- Tasks
  let gt_t := OperatorTask.create "gt_t" gt
  let ts1_t := OperatorTask.create "ts1_t" ts1
  let ts2_t := OperatorTask.create "ts2_t" ts2
  let original_rows_t := OperatorTask.create "original_rows_t" original_rows
  let updated_rows_t := OperatorTask.create "updated_rows_t" updated_rows
  let update_t := OperatorTask.create "update_t" update
  let tasks := [gt_t, ts1_t, ts2_t, original_rows_t, updated_rows_t, update_t]
  -- Dependencies
  let tasks := set_as_predecessor_of gt_t ts1_t tasks
  let tasks := set_as_predecessor_of ts1_t ts2_t tasks
  let tasks := set_as_predecessor_of ts2_t original_rows_t tasks
  let tasks := set_as_predecessor_of ts2_t updated_rows_t tasks
  let tasks := set_as_predecessor_of original_rows_t update_t tasks
  let tasks := set_as_predecessor_of updated_rows_t update_t tasks
  ⟨objects, task_vector [gt_t, ts1_t, ts2_t, original_rows_t, updated_rows_t, update_t] tasks⟩

/-- Embedding of `NewOrderRefImpl::get_create_order_tasks`: no task. -/
def get_create_order_tasks (_t_context : TransactionContext)
    (_d_next_o_id _d_id _w_id _c_id _o_entry_d _o_carrier_id _o_ol_cnt _o_all_local : Int) :
    TaskVector :=
  ⟨[], []⟩

/-- Embedding of `NewOrderRefImpl::get_create_new_order_tasks`: no task. -/
def get_create_new_order_tasks (_t_context : TransactionContext) (_o_id _d_id _w_id : Int) :
    TaskVector :=
  ⟨[], []⟩

/-- Embedding of `NewOrderRefImpl::get_get_item_info_tasks`. -/
def get_get_item_info_tasks (t_context : TransactionContext) (ol_i_id : Int) : TaskVector :=
  -- Operators
  let gt := Operator.create "gt" (.GetTable "ITEM")
  let ts := Operator.create "ts" (.TableScan gt.name "I_ID" "=" ol_i_id)
  let columns := ["I_PRICE", "I_NAME", "I_DATA"]
  let proj := Operator.create "proj" (.Projection ts.name columns)
  let objects := [gt, ts, proj]
  let objects := set_transaction_context_for_operators t_context [gt, ts, proj] objects
  -- Tasks
  let gt_t := OperatorTask.create "gt_t" gt
  let ts_t := OperatorTask.create "ts_t" ts
  let proj_t := OperatorTask.create "proj_t" proj
  let tasks := [gt_t, ts_t, proj_t]
  -- Dependencies
  let tasks := set_as_predecessor_of gt_t ts_t tasks
  let tasks := set_as_predecessor_of ts_t proj_t tasks
  ⟨objects, task_vector [gt_t, ts_t, proj_t] tasks⟩

/-- Embedding of `NewOrderRefImpl::get_get_stock_info_tasks`. -/
def get_get_stock_info_tasks (t_context : TransactionContext)
    (ol_i_id ol_supply_w_id _d_id : Int) : TaskVector :=
  -- Operators
  let gt := Operator.create "gt" (.GetTable "STOCK")
  let ts1 := Operator.create "ts1" (.TableScan gt.name "S_I_ID" "=" ol_i_id)
  let ts2 := Operator.create "ts2" (.TableScan ts1.name "S_W_ID" "=" ol_supply_w_id)
  let columns := ["S_DIST_01", "S_DIST_02", "S_DIST_03", "S_DIST_04", "S_DIST_05",
    "S_DIST_06", "S_DIST_07", "S_DIST_08", "S_DIST_09", "S_DIST_10"]
  let proj := Operator.create "proj" (.Projection ts2.name columns)
  let objects := [gt, ts1, ts2, proj]
  let objects := set_transaction_context_for_operators t_context [gt, ts1, ts2, proj] objects
  -- Tasks
  let gt_t := OperatorTask.create "gt_t" gt
  let ts1_t := OperatorTask.create "ts1_t" ts1
  let ts2_t := OperatorTask.create "ts2_t" ts2
  let proj_t := OperatorTask.create "proj_t" proj
  let tasks := [gt_t, ts1_t, ts2_t, proj_t]
  -- Dependencies
  let tasks := set_as_predecessor_of gt_t ts1_t tasks
  let tasks := set_as_predecessor_of ts1_t ts2_t tasks
  let tasks := set_as_predecessor_of ts2_t proj_t tasks
  ⟨objects, task_vector [gt_t, ts1_t, ts2_t, proj_t] tasks⟩

/-- Embedding of `NewOrderRefImpl::get_update_stock_tasks`. -/
def get_update_stock_tasks (t_context : TransactionContext)
    (s_quantity ol_i_id ol_supply_w_id : Int) : TaskVector :=
  -- Operators
  let gt := Operator.create "gt" (.GetTable "STOCK")
  let ts1 := Operator.create "ts1" (.TableScan gt.name "S_I_ID" "=" ol_i_id)
  let ts2 := Operator.create "ts2" (.TableScan ts1.name "S_W_ID" "=" ol_supply_w_id)
  let columns := ["S_QUANTITY"]
  let original_rows := Operator.create "original_rows" (.Projection ts2.name columns)
  let definitions := [(toString s_quantity, "int", "fix")]
  let updated_rows := Operator.create "updated_rows" (.ProjectionDefinitions ts2.name definitions)
  let update := Operator.create "update" (.Update "STOCK" original_rows.name updated_rows.name)
  let objects := [gt, ts1, ts2, original_rows, updated_rows, update]
  let objects := set_transaction_context_for_operators t_context
    [gt, ts1, ts2, original_rows, updated_rows, update] objects
  -- Tasks
  let gt_t := OperatorTask.create "gt_t" gt
  let ts1_t := OperatorTask.create "ts1_t" ts1
  let ts2_t := OperatorTask.create "ts2_t" ts2
  let original_rows_t := OperatorTask.create "original_rows_t" original_rows
  let updated_rows_t := OperatorTask.create "updated_rows_t" updated_rows
  let update_t := OperatorTask.create "update_t" update
  let tasks := [gt_t, ts1_t, ts2_t, original_rows_t, updated_rows_t, update_t]
  -- Dependencies
  let tasks := set_as_predecessor_of gt_t ts1_t tasks
  let tasks := set_as_predecessor_of ts1_t ts2_t tasks
  let tasks := set_as_predecessor_of ts2_t original_rows_t tasks
  let tasks := set_as_predecessor_of ts2_t updated_rows_t tasks
  let tasks := set_as_predecessor_of original_rows_t update_t tasks
  let tasks := set_as_predecessor_of updated_rows_t update_t tasks
  ⟨objects, task_vector [gt_t, ts1_t, ts2_t, original_rows_t, updated_rows_t, update_t] tasks⟩

/-- Embedding of `NewOrderRefImpl::get_create_order_line_tasks`: no task. -/
def get_create_order_line_tasks (_t_context : TransactionContext)
    (_ol_o_id _ol_d_id _ol_w_id _ol_number _ol_i_id _ol_supply_w_id _ol_delivery_d
      _ol_quantity : Int) (_ol_amount : Rat) (_ol_dist_info : String) : TaskVector :=
  ⟨[], []⟩

/-- The commit of `run_transaction`: the `CommitRecords` operator is created, gets the
transaction context, and is then wrapped in the task that is scheduled. -/
def commit_task (t_context : TransactionContext) : TaskVector :=
  let commit := Operator.create "commit" .CommitRecords
  let commit := commit.set_transaction_context t_context
  let commit_task := OperatorTask.create "commit_task" commit
  ⟨[commit], [commit_task]⟩

/-- The operator of a task of a task vector: `task->get_operator()`. -/
def TaskVector.get_operator (self : TaskVector) (task : OperatorTask) : Except Failure Operator :=
  match self.operators.find? (fun op => op.name == task.operator) with
  | some op => .ok op
  | none => .error .undefined

/-- The operator of the last task: `tasks.back()->get_operator()`; `back()` of an empty
vector is undefined. -/
def TaskVector.back_operator (self : TaskVector) : Except Failure Operator :=
  match self.tasks.getLast? with
  | some task => self.get_operator task
  | none => .error .undefined

/-- Modelled from the spec: the scheduler and the operators are not part of the sources.
`schedule_tasks_and_wait` runs a batch and may fail; `fetch_row` is row 0 of the output
table of an executed operator, `get_output()->fetch_row(0)`. -/
structure Scheduler where
  schedule_tasks_and_wait : TaskVector → Except Failure Unit
  fetch_row : Operator → Except Failure (List AllTypeVariant)

/-- The expression `tasks.back()->get_operator()->get_output()->fetch_row(0)`. -/
def Scheduler.fetch_back_row (self : Scheduler) (tasks : TaskVector) :
    Except Failure (List AllTypeVariant) := do
  let op ← tasks.back_operator
  self.fetch_row op

/-- Embedding of `boost::get<float>`: the value of a variant that holds a float, `boost::bad_get`
otherwise. -/
def get_float : AllTypeVariant → Except Failure Rat
  | .float value => .ok value
  | _ => .error .bad_get

/-- Embedding of `boost::get<int32_t>`. -/
def get_int32 : AllTypeVariant → Except Failure Int
  | .int32 value => .ok value
  | _ => .error .bad_get

/-- Embedding of `boost::get<std::string>`. -/
def get_string : AllTypeVariant → Except Failure String
  | .string value => .ok value
  | _ => .error .bad_get

/-- One entry of `NewOrderParams::order_lines` (new_order.hpp is not part of the sources;
the fields are those that `run_transaction` reads). -/
structure NewOrderOrderLineParams where
  i_id : Int
  w_id : Int
  qty : Int
  deriving DecidableEq, Repr

/-- The parameters of a new order transaction. -/
structure NewOrderParams where
  w_id : Int
  d_id : Int
  c_id : Int
  o_entry_d : Int
  order_lines : List NewOrderOrderLineParams
  deriving DecidableEq, Repr

/-- The result of one order line. -/
structure NewOrderOrderLineResult where
  i_price : Rat
  i_name : String
  i_data : String
  s_qty : Int
  s_data : String
  s_ytd : Int
  s_order_cnt : Int
  s_remote_cnt : Int
  s_dist_xx : String
  amount : Rat
  deriving DecidableEq, Repr

/-- The result of a new order transaction. -/
structure NewOrderResult where
  c_discount : Rat
  c_last : String
  c_credit : Rat
  w_tax_rate : Rat
  d_next_o_id : Int
  d_tax_rate : Rat
  order_lines : List NewOrderOrderLineResult
  deriving DecidableEq, Repr

/-- The body of the loop over the order lines in `run_transaction` (lines 68-142), for the
order line `ol_idx`.  The product `qty * i_price` is taken in the rationals. -/
def order_line_body (scheduler : Scheduler) (t_context : TransactionContext)
    (params : NewOrderParams) (get_district_tasks : TaskVector) (ol_idx : Nat)
    (result : NewOrderResult) : Except Failure NewOrderResult := do
  let order_line_params ← vector_index params.order_lines ol_idx
  -- GET ITEM INFO
  let get_item_info_tasks := get_get_item_info_tasks t_context order_line_params.i_id
  scheduler.schedule_tasks_and_wait get_item_info_tasks
  let row ← scheduler.fetch_back_row get_district_tasks
  let i_price ← get_float (← vector_index row 0)
  let i_name ← get_string (← vector_index row 1)
  let i_data ← get_string (← vector_index row 2)
  -- GET STOCK INFO
  let get_stock_info_tasks := get_get_stock_info_tasks t_context order_line_params.i_id
    order_line_params.w_id params.d_id
  scheduler.schedule_tasks_and_wait get_stock_info_tasks
  let row ← scheduler.fetch_back_row get_stock_info_tasks
  let s_qty_read ← get_int32 (← vector_index row 0)
  let s_data ← get_string (← vector_index row 1)
  let s_ytd_read ← get_int32 (← vector_index row 2)
  let s_order_cnt_read ← get_int32 (← vector_index row 3)
  let s_remote_cnt ← get_int32 (← vector_index row 4)
  let s_dist_xx ← get_string (← vector_index row 5)
  -- Calculate new s_ytd, s_qty and s_order_cnt
  let _s_ytd := s_ytd_read + order_line_params.qty
  let s_qty :=
    if s_qty_read ≥ order_line_params.qty + 10 then s_qty_read - order_line_params.qty
    else s_qty_read + (91 - order_line_params.qty)
  let _s_order_cnt := s_order_cnt_read + 1
  let amount := (order_line_params.qty : Rat) * i_price
  -- UPDATE STOCK
  let update_stock_tasks := get_update_stock_tasks t_context s_qty order_line_params.i_id
    order_line_params.w_id
  scheduler.schedule_tasks_and_wait update_stock_tasks
  -- CREATE ORDER LINE
  let create_order_line_tasks := get_create_order_line_tasks t_context result.d_next_o_id
    params.d_id params.w_id (ol_idx + 1) order_line_params.i_id 0 params.o_entry_d
    order_line_params.qty amount s_dist_xx
  scheduler.schedule_tasks_and_wait create_order_line_tasks
  -- Add results
  let order_line : NewOrderOrderLineResult :=
    ⟨i_price, i_name, i_data, s_qty_read, s_data, s_ytd_read, s_order_cnt_read, s_remote_cnt,
      s_dist_xx, amount⟩
  return { result with order_lines := result.order_lines ++ [order_line] }

/-- Embedding of `AbstractNewOrderImpl::run_transaction` with the task functions of
`NewOrderRefImpl`.  The transaction context comes from the transaction manager, which is
not part of the sources.  The source ends without a `return` statement; the embedding
returns `result`. -/
def run_transaction (scheduler : Scheduler) (t_context : TransactionContext)
    (params : NewOrderParams) : Except Failure NewOrderResult := do
  let result : NewOrderResult := ⟨0, "", 0, 0, 0, 0, []⟩
  -- GET CUSTOMER AND WAREHOUSE TAX RATE
  let get_customer_and_warehouse_tax_rate_tasks :=
    get_get_customer_and_warehouse_tax_rate_tasks t_context params.w_id params.d_id params.c_id
  scheduler.schedule_tasks_and_wait get_customer_and_warehouse_tax_rate_tasks
  let row ← scheduler.fetch_back_row get_customer_and_warehouse_tax_rate_tasks
  let result := { result with c_discount := ← get_float (← vector_index row 0) }
  let result := { result with c_last := ← get_string (← vector_index row 1) }
  let result := { result with c_credit := ← get_float (← vector_index row 2) }
  let result := { result with w_tax_rate := ← get_float (← vector_index row 3) }
  -- GET DISTRICT
  let get_district_tasks := get_get_district_tasks t_context params.d_id params.w_id
  scheduler.schedule_tasks_and_wait get_district_tasks
  let row ← scheduler.fetch_back_row get_district_tasks
  let result := { result with d_next_o_id := ← get_int32 (← vector_index row 0) }
  let result := { result with d_tax_rate := ← get_float (← vector_index row 0) }
  -- INCREMENT NEXT ORDER ID
  let increment_next_order_id_tasks := get_increment_next_order_id_tasks t_context params.d_id
    params.w_id result.d_next_o_id
  scheduler.schedule_tasks_and_wait increment_next_order_id_tasks
  let result ← for_loop (order_line_body scheduler t_context params get_district_tasks)
    params.order_lines.length 0 result
  -- Commit transaction.
  scheduler.schedule_tasks_and_wait (commit_task t_context)
  return result

end tpcc

/-- Every task of the vector wraps an operator object that holds the transaction context
`t_context`. -/
def tpcc.TaskVector.context_set (self : tpcc.TaskVector) (t_context : TransactionContext) :
    Prop :=
  ∀ task ∈ self.tasks, ∃ op, self.get_operator task = .ok op ∧
    op.transaction_context = some t_context

/-- A scheduler for the scenarios: every batch runs, the district projection returns
`(D_TAX, D_NEXT_O_ID) = (1/20, 3001)`, the item projection `(I_PRICE, I_NAME, I_DATA) =
(10, "item", "data")`, and every other operator a stock row. -/
def scenario_scheduler : tpcc.Scheduler where
  schedule_tasks_and_wait := fun _ => .ok ()
  fetch_row := fun op =>
    match op.kind with
    | .Projection _ ["D_TAX", "D_NEXT_O_ID"] => .ok [.float (1 / 20), .int32 3001]
    | .Projection _ ["I_PRICE", "I_NAME", "I_DATA"] =>
      .ok [.float 10, .string "item", .string "data"]
    | _ => .ok [.int32 50, .string "s", .int32 1, .int32 2, .int32 3, .string "dist"]

/-- The scheduler `scenario_scheduler`, except that the district projection returns a row
of the shape of an item row, `(7, "D", "E")`. -/
def scenario_scheduler_item_shaped : tpcc.Scheduler where
  schedule_tasks_and_wait := fun _ => .ok ()
  fetch_row := fun op =>
    match op.kind with
    | .Projection _ ["D_TAX", "D_NEXT_O_ID"] => .ok [.float 7, .string "D", .string "E"]
    | .Projection _ ["I_PRICE", "I_NAME", "I_DATA"] =>
      .ok [.float 10, .string "item", .string "data"]
    | _ => .ok [.int32 50, .string "s", .int32 1, .int32 2, .int32 3, .string "dist"]

/-- The parameters of the scenarios: one order line, 3 pieces of item 5. -/
def scenario_params : tpcc.NewOrderParams := ⟨1, 1, 1, 0, [⟨5, 1, 3⟩]⟩

/-! ## Order of the tasks of a task vector -/

/-- Some task of the vector has the task `task` among its predecessors. -/
def tpcc.has_successor (tasks : List tpcc.OperatorTask) (task : tpcc.OperatorTask) : Prop :=
  ∃ successor ∈ tasks, task.name ∈ successor.predecessors

/-- The vector is a topological order of its predecessor edges: the tasks are distinct
and every predecessor of a task stands at a smaller position of the vector. -/
def tpcc.topological_order (tasks : List tpcc.OperatorTask) : Prop :=
  (tasks.map (fun task => task.name)).Nodup ∧
  ∀ i : Fin tasks.length, ∀ predecessor ∈ (tasks.get i).predecessors,
    ∃ j : Fin tasks.length, j.val < i.val ∧ (tasks.get j).name = predecessor

/-- The last task of the vector, `back()`, has no successor, and it is the only such task
of the vector. -/
def tpcc.back_is_only_sink (tasks : List tpcc.OperatorTask) : Prop :=
  ∃ last, tasks.getLast? = some last ∧ ¬ tpcc.has_successor tasks last ∧
    ∀ task ∈ tasks, task.name ≠ last.name → tpcc.has_successor tasks task

/-- The operator is a `Projection` or an `Update`. -/
def tpcc.OperatorKind.is_projection_or_update : tpcc.OperatorKind → Bool
  | .Projection _ _ => true
  | .Update _ _ _ => true
  | _ => false

/-- The task vector is a topological order of its predecessor edges, its last task is
its only task without a successor, and the operator of that task, whose output
`run_transaction` reads through `back()`, is a `Projection` or an `Update`. -/
def tpcc.TaskVector.ordered_with_final_back (self : tpcc.TaskVector) : Prop :=
  tpcc.topological_order self.tasks ∧ tpcc.back_is_only_sink self.tasks ∧
    ∃ op, self.back_operator = .ok op ∧ op.kind.is_projection_or_update = true

/-- A scheduler whose customer and warehouse row has the types that `run_transaction`
reads, `(C_DISCOUNT, C_LAST, C_CREDIT, W_TAX) = (1/10, "LAST", 1, 1/20)`, and whose
district projection returns the row of its column list, `(D_TAX, D_NEXT_O_ID) =
(1/20, 3001)`. -/
def scenario_scheduler_typed : tpcc.Scheduler where
  schedule_tasks_and_wait := fun _ => .ok ()
  fetch_row := fun op =>
    match op.kind with
    | .Projection _ ["C_DISCOUNT", "C_LAST", "C_CREDIT", "W_TAX"] =>
      .ok [.float (1 / 10), .string "LAST", .float 1, .float (1 / 20)]
    | .Projection _ ["D_TAX", "D_NEXT_O_ID"] => .ok [.float (1 / 20), .int32 3001]
    | .Projection _ ["I_PRICE", "I_NAME", "I_DATA"] =>
      .ok [.float 10, .string "item", .string "data"]
    | _ => .ok [.int32 50, .string "s", .int32 1, .int32 2, .int32 3, .string "dist"]

/-! ## Stock quantity of an order line (benchmark-libs/tpcc/new_order.cpp, lines 104-109) -/

/-- The result of an `int32_t` operation: the exact value when it fits 32 bits; signed
overflow is undefined. -/
def tpcc.int32_result (value : Int) : Except Failure Int :=
  if -2147483648 ≤ value ∧ value ≤ 2147483647 then .ok value else .error .undefined

/-- The new stock quantity that `run_transaction` computes for an order line, with every
`int32_t` operation checked: `s_qty = order_line.s_qty`, then `s_qty -= qty` when
`order_line.s_qty >= qty + 10`, else `s_qty += 91 - qty`. -/
def tpcc.new_stock_quantity (order_line_s_qty qty : Int) : Except Failure Int := do
  let s_qty := order_line_s_qty
  if order_line_s_qty ≥ (← tpcc.int32_result (qty + 10)) then
    tpcc.int32_result (s_qty - qty)
  else
    tpcc.int32_result (s_qty + (← tpcc.int32_result (91 - qty)))

/-! ## PredicateNode (logical_query_plan/predicate_node.cpp) -/

/-- Modelled from the spec: `ScanType` (types.hpp) is not part of the sources; the scan
types are those the spec lists, "=, ≠, <, ≤, >, ≥, BETWEEN, LIKE". -/
inductive ScanType where
  | OpEquals
  | OpNotEquals
  | OpLessThan
  | OpLessThanEquals
  | OpGreaterThan
  | OpGreaterThanEquals
  | OpBetween
  | OpLike
  deriving DecidableEq, Repr

/-- Modelled from the spec: `AllParameterVariant` is not part of the sources; it is "a
parameter variant extending" the value variant "with column references and
placeholders". -/
inductive AllParameterVariant where
  | value (value : AllTypeVariant)
  | column_id (column_id : Nat)
  | placeholder (index : Nat)

/-- The members of `PredicateNode`.  The class `ColumnOrigin` is not part of the sources
and stays a type parameter. -/
structure PredicateNode (ColumnOrigin : Type) where
  _column_origin : ColumnOrigin
  _scan_type : ScanType
  _value : AllParameterVariant
  _value2 : Option AllTypeVariant

/-- The functions of other files that `PredicateNode::description` calls; none of them is
part of the sources, so they are parameters: `ColumnOrigin::get_verbose_name`,
`AbstractLQPNode::get_verbose_column_name`, the map `scan_type_to_string.left` (a lookup
with `at`), `boost::lexical_cast<std::string>` on a parameter variant and `operator<<`
on a value variant. -/
structure PredicateNode.Functions (ColumnOrigin : Type) where
  get_verbose_name : ColumnOrigin → String
  get_verbose_column_name : Nat → String
  scan_type_to_string : ScanType → Option String
  lexical_cast : AllParameterVariant → String
  stream_out : AllTypeVariant → String

/-- Embedding of `PredicateNode::description`; the stream `desc` is the string written so
far, and `at` on a scan type that the map does not hold throws `std::out_of_range`. -/
def PredicateNode.description {ColumnOrigin : Type} (functions : PredicateNode.Functions ColumnOrigin)
    (self : PredicateNode ColumnOrigin) : Except Failure String := do
  let left_operand_desc := functions.get_verbose_name self._column_origin
  let middle_operand_desc :=
    match self._value with
    | .column_id column_id => functions.get_verbose_column_name column_id
    | value => functions.lexical_cast value
  let desc := ""
  let scan_type_name ←
    match functions.scan_type_to_string self._scan_type with
    | some name => pure name
    | none => throw Failure.out_of_range
  let desc := desc ++ "[Predicate] " ++ left_operand_desc ++ " " ++ scan_type_name
  let desc := desc ++ " " ++ middle_operand_desc ++ ""
  match self._value2 with
  | some value2 =>
    let desc := desc ++ " AND "
    match value2 with
    | .string _ => return desc ++ "'" ++ functions.stream_out value2 ++ "'"
    | _ => return desc ++ functions.stream_out value2
  | none => return desc

/-- Functions for the scenarios: a column origin is its verbose name, column `n` is
called `col` followed by `n`, the scan types are printed as in SQL, and a value is printed
by its digits or characters (a float by numerator and denominator). -/
def scenario_functions : PredicateNode.Functions String where
  get_verbose_name := fun origin => origin
  get_verbose_column_name := fun column_id => "col" ++ toString column_id
  scan_type_to_string := fun scan_type =>
    match scan_type with
    | .OpEquals => some "="
    | .OpBetween => some "BETWEEN"
    | .OpLessThan => some "<"
    | _ => none
  lexical_cast := fun value =>
    match value with
    | .value (.int32 v) => toString v
    | .value (.int64 v) => toString v
    | .value (.float v) => toString v.num ++ "/" ++ toString v.den
    | .value (.double v) => toString v.num ++ "/" ++ toString v.den
    | .value (.string v) => v
    | .column_id column_id => toString column_id
    | .placeholder index => "?" ++ toString index
  stream_out := fun value =>
    match value with
    | .int32 v => toString v
    | .int64 v => toString v
    | .float v => toString v.num ++ "/" ++ toString v.den
    | .double v => toString v.num ++ "/" ++ toString v.den
    | .string v => v

/-! ## TPC-H tables (benchmarklib/tpch/tpch_db_generator.cpp) -/

namespace tpch

/-- Embedding of `_convert_money`: `DSS_HUGE` is a signed 64 bit integer, whose `/` and
`%` truncate toward zero; the float result is taken in the rationals. -/
def _convert_money (cents : Int) : Rat :=
  let dollars := Int.tdiv cents 100
  let cents := Int.tmod cents 100
  (dollars : Rat) + (cents : Rat) / 100

/-- The data types of the column type tuples. -/
inductive DataType where
  | int32_t
  | string
  | float
  deriving DecidableEq, Repr

/-- An argument of an `append_row` call of `generate`: a `_convert_money` call on a field
of the generated record, or another expression. -/
inductive Argument where
  | convert_money (field : String)
  | other (expression : String)
  deriving DecidableEq, Repr

/-- One `TableBuilder` of `generate`: its column type tuple, its column name tuple and
the arguments of the `append_row` call that fills it. -/
structure Builder where
  column_types : List DataType
  column_names : List String
  append_row : List Argument
  deriving DecidableEq, Repr

/-- The builder `customer_builder` with `customer_column_types`, `customer_column_names`. -/
def customer_builder : Builder where
  column_types := [.int32_t, .string, .string, .int32_t, .string, .float, .string, .string]
  column_names := ["c_custkey", "c_name", "c_address", "c_nationkey", "c_phone", "c_acctbal",
    "c_mktsegment", "c_comment"]
  append_row := [.other "customer.custkey", .other "customer.name", .other "customer.address",
    .other "customer.nation_code", .other "customer.phone", .convert_money "customer.acctbal",
    .other "customer.mktsegment", .other "customer.comment"]

/-- The builder `order_builder` with `order_column_types`, `order_column_names`. -/
def order_builder : Builder where
  column_types := [.int32_t, .int32_t, .string, .float, .string, .string, .string, .int32_t,
    .string]
  column_names := ["o_orderkey", "o_custkey", "o_orderstatus", "o_totalprice", "o_orderdate",
    "o_orderpriority", "o_clerk", "o_shippriority", "o_comment"]
  append_row := [.other "order.okey", .other "order.custkey",
    .other "std::string(1, order.orderstatus)", .convert_money "order.totalprice",
    .other "order.odate", .other "order.opriority", .other "order.clerk",
    .other "order.spriority", .other "order.comment"]

/-- The builder `lineitem_builder` with `lineitem_column_types`, `lineitem_column_names`. -/
def lineitem_builder : Builder where
  column_types := [.int32_t, .int32_t, .int32_t, .int32_t, .float, .float, .float, .float,
    .string, .string, .string, .string, .string, .string, .string, .string]
  column_names := ["l_orderkey", "l_partkey", "l_suppkey", "l_linenumber", "l_quantity",
    "l_extendedprice", "l_discount", "l_tax", "l_returnflag", "l_linestatus", "l_shipdate",
    "l_commitdate", "l_receiptdate", "l_shipinstruct", "l_shipmode", "l_comment"]
  append_row := [.other "lineitem.okey", .other "lineitem.partkey", .other "lineitem.suppkey",
    .other "lineitem.lcnt", .other "lineitem.quantity", .convert_money "lineitem.eprice",
    .convert_money "lineitem.discount", .convert_money "lineitem.tax",
    .other "std::string(1, lineitem.rflag[0])", .other "std::string(1, lineitem.lstatus[0])",
    .other "lineitem.sdate", .other "lineitem.cdate", .other "lineitem.rdate",
    .other "lineitem.shipinstruct", .other "lineitem.shipmode", .other "lineitem.comment"]

/-- The builder `part_builder` with `part_column_types`, `part_column_names`. -/
def part_builder : Builder where
  column_types := [.int32_t, .string, .string, .string, .string, .int32_t, .string, .int32_t,
    .string]
  column_names := ["p_partkey", "p_name", "p_mfgr", "p_brand", "p_type", "p_size",
    "p_container", "p_retailsize", "p_comment"]
  append_row := [.other "part.partkey", .other "part.name", .other "part.mfgr",
    .other "part.brand", .other "part.type", .other "part.size", .other "part.container",
    .convert_money "part.retailprice", .other "part.comment"]

/-- The builder `partsupp_builder` with `partsupp_column_types`, `partsupp_column_names`. -/
def partsupp_builder : Builder where
  column_types := [.int32_t, .int32_t, .int32_t, .float, .string]
  column_names := ["ps_partkey", "ps_suppkey", "ps_availqty", "ps_supplycost", "ps_comment"]
  append_row := [.other "partsupp.partkey", .other "partsupp.suppkey", .other "partsupp.qty",
    .convert_money "partsupp.scost", .other "partsupp.comment"]

/-- The builder `supplier_builder` with `supplier_column_types`, `supplier_column_names`. -/
def supplier_builder : Builder where
  column_types := [.int32_t, .string, .string, .int32_t, .string, .float, .string]
  column_names := ["s_suppkey", "s_name", "s_address", "s_nationkey", "s_phone", "s_acctbal",
    "s_comment"]
  append_row := [.other "supplier.suppkey", .other "supplier.name", .other "supplier.address",
    .other "supplier.nation_code", .other "supplier.phone", .convert_money "supplier.acctbal",
    .other "supplier.comment"]

/-- The builder `nation_builder` with `nation_column_types`, `nation_column_names`. -/
def nation_builder : Builder where
  column_types := [.int32_t, .string, .int32_t, .string]
  column_names := ["n_nationkey", "n_name", "n_regionkey", "n_comment"]
  append_row := [.other "nation.code", .other "nation.text", .other "nation.join",
    .other "nation.comment"]

/-- The builder `region_builder` with `region_column_types`, `region_column_names`. -/
def region_builder : Builder where
  column_types := [.int32_t, .string, .string]
  column_names := ["r_regionkey", "r_name", "r_comment"]
  append_row := [.other "region.code", .other "region.text", .other "region.comment"]

/-- The builders of `generate`, in the order of their declaration. -/
def builders : List Builder :=
  [customer_builder, order_builder, lineitem_builder, part_builder, partsupp_builder,
    supplier_builder, nation_builder, region_builder]

/-- Every `_convert_money` argument of the builder stands at a position whose column
type is `float`. -/
def Builder.money_columns_are_float (self : Builder) : Prop :=
  ∀ (i : Nat) (field : String), self.append_row[i]? = some (.convert_money field) →
    self.column_types[i]? = some .float

/-- What `append_row` stores for a float argument at a parameter of type `type`
(`DataTypes&&`): the float itself for `float`, the float truncated toward zero for
`int32_t` (the implicit conversion; undefined when the result does not fit 32 bits); no
conversion to `std::string` exists. -/
def stored_float (type : DataType) (value : Rat) : Except Failure AllTypeVariant :=
  match type with
  | .float => .ok (.float value)
  | .int32_t =>
    let truncated := Int.tdiv value.num value.den
    if -2147483648 ≤ truncated ∧ truncated ≤ 2147483647 then .ok (.int32 truncated)
    else .error .undefined
  | .string => .error .undefined

/-- The value that the `append_row` call of the builder stores at position `i` when the
field converted there holds `cents`. -/
def Builder.stored_money (self : Builder) (i : Nat) (cents : Int) :
    Except Failure AllTypeVariant := do
  let type ← vector_index self.column_types i
  stored_float type (_convert_money cents)

end tpch

/-! ## The output table of the join (operators/sort_merge_join.cpp, lines 421-433) -/

/-- The part of `on_execute` that follows the concatenation of the position lists: a new
table, to which the columns of the left and then of the right input table are added. -/
def SortMergeJoinImpl._build_output_table (input_table_left input_table_right : storage.Table)
    (_prefix_left _prefix_right : String) (output_left output_right : PosList) :
    Except Failure storage.Table := do
  let output_table := storage.Table.create
  let output_table ← SortMergeJoinImpl._add_output_columns output_table input_table_left
    _prefix_left output_left
  SortMergeJoinImpl._add_output_columns output_table input_table_right _prefix_right output_right

/-- The position list of a reference column. -/
def storage.BaseColumn.pos_list : storage.BaseColumn → Option PosList
  | .ReferenceColumn _ _ pos_list => some pos_list
  | .ValueColumn _ => none

/-- A second value table, with one column `b` and two rows. -/
def scenario_value_table_b : storage.Table :=
  .mk ["b"] ["int"] [.mk [.ValueColumn [.int32 7, .int32 8]]]

/-- A reference table of the shape of a join result: column `a` lists the rows 1, 0 of
`scenario_value_table`, column `b` the rows 0, 1 of `scenario_value_table_b`. -/
def scenario_joined_table : storage.Table :=
  .mk ["a", "b"] ["int", "int"]
    [.mk [.ReferenceColumn scenario_value_table 0 [⟨0, 1⟩, ⟨0, 0⟩],
      .ReferenceColumn scenario_value_table_b 0 [⟨0, 0⟩, ⟨0, 1⟩]]]

/-- A value table with the two columns `a` and `b` and two rows. -/
def scenario_value_table_ab : storage.Table :=
  .mk ["a", "b"] ["int", "int"]
    [.mk [.ValueColumn [.int32 5, .int32 6], .ValueColumn [.int32 7, .int32 8]]]

/-! ## Balance of the output position lists -/

/-- The left and the right output have a list for the same partitions, and for every
partition the two lists have the same length. -/
def SortMergeJoinImpl.balanced {T : Type} (self : SortMergeJoinImpl T) : Prop :=
  self._output_pos_lists_left.length = self._output_pos_lists_right.length ∧
  ∀ (p : Nat) (left right : PosList), self._output_pos_lists_left[p]? = some left →
    self._output_pos_lists_right[p]? = some right → left.length = right.length

/-- The states of the object that a join can reach from the state `self0`: the output
lists change in the emitters only, which `_join_runs` and the merge loop of
`_join_partition` call. -/
inductive SortMergeJoinImpl.reachable {T : Type} [LinearOrder T] (self0 : SortMergeJoinImpl T) :
    SortMergeJoinImpl T → Prop where
  | start : SortMergeJoinImpl.reachable self0 self0
  | emit_combination (s s2 : SortMergeJoinImpl T) (output_partition : Nat) (left right : RowID) :
      SortMergeJoinImpl.reachable self0 s →
      SortMergeJoinImpl._emit_combination s output_partition left right = .ok s2 →
      SortMergeJoinImpl.reachable self0 s2
  | emit_combinations (s s2 : SortMergeJoinImpl T) (output_partition : Nat)
      (left_range right_range : TableRange) :
      SortMergeJoinImpl.reachable self0 s →
      SortMergeJoinImpl._emit_combinations s output_partition left_range right_range = .ok s2 →
      SortMergeJoinImpl.reachable self0 s2
  | emit_right_null_combinations (s s2 : SortMergeJoinImpl T) (output_partition : Nat)
      (left_range : TableRange) :
      SortMergeJoinImpl.reachable self0 s →
      SortMergeJoinImpl._emit_right_null_combinations s output_partition left_range = .ok s2 →
      SortMergeJoinImpl.reachable self0 s2
  | emit_left_null_combinations (s s2 : SortMergeJoinImpl T) (output_partition : Nat)
      (right_range : TableRange) :
      SortMergeJoinImpl.reachable self0 s →
      SortMergeJoinImpl._emit_left_null_combinations s output_partition right_range = .ok s2 →
      SortMergeJoinImpl.reachable self0 s2
  | join_runs (s s2 : SortMergeJoinImpl T) (partition_number : Nat)
      (left_run right_run : TableRange) :
      SortMergeJoinImpl.reachable self0 s →
      SortMergeJoinImpl._join_runs s partition_number left_run right_run = .ok s2 →
      SortMergeJoinImpl.reachable self0 s2
  | join_partition_body (st st2 : SortMergeJoinImpl.MergeState T) (partition_number : Nat)
      (left_partition right_partition : Partition T) :
      SortMergeJoinImpl.reachable self0 st.self →
      SortMergeJoinImpl._join_partition_body partition_number left_partition right_partition st
        = .ok st2 →
      SortMergeJoinImpl.reachable self0 st2.self

/-! ## Lemmas: loops, ranges and emitters -/

section range_lemmas

open SortMergeJoinImpl

variable {T : Type}

theorem vector_at_of_lt {α : Type} (v : List α) (i : Nat) (h : i < v.length) :
    vector_at v i = .ok (v.get ⟨i, h⟩) := by
  simp [vector_at, List.getElem?_eq_getElem h]

theorem vector_at_of_le {α : Type} (v : List α) (i : Nat) (h : v.length ≤ i) :
    vector_at v i = .error .out_of_range := by
  simp [vector_at, List.getElem?_eq_none h]

theorem vector_index_of_lt {α : Type} (v : List α) (i : Nat) (h : i < v.length) :
    vector_index v i = .ok (v.get ⟨i, h⟩) := by
  simp [vector_index, List.getElem?_eq_getElem h]

/-- A `for` loop whose body keeps an invariant and never fails on it returns a state that
satisfies the invariant. -/
theorem for_loop_ok {σ : Type} (P : σ → Prop) (body : Nat → σ → Except Failure σ) :
    ∀ (count index : Nat) (s : σ), P s →
      (∀ i s1, index ≤ i → i < index + count → P s1 → ∃ s2, body i s1 = .ok s2 ∧ P s2) →
      ∃ s2, for_loop body count index s = .ok s2 ∧ P s2 := by
  intro count
  induction count with
  | zero => intro index s hs _; exact ⟨s, rfl, hs⟩
  | succ n ih =>
    intro index s hs hbody
    obtain ⟨s1, h1, hP1⟩ := hbody index s (le_refl _) (by omega) hs
    obtain ⟨s2, h2, hP2⟩ := ih (index + 1) s1 hP1
      (fun i t hi hlt ht => hbody i t (by omega) (by omega) ht)
    exact ⟨s2, by simp [for_loop, h1, h2], hP2⟩

theorem vector_index_of_some {α : Type} (v : List α) (i : Nat) (x : α) (h : v[i]? = some x) :
    vector_index v i = .ok x := by
  simp [vector_index, h]

theorem lt_length_of_some {α : Type} (v : List α) (i : Nat) (x : α) (h : v[i]? = some x) :
    i < v.length := by
  by_contra hcon
  rw [List.getElem?_eq_none (by omega)] at h
  exact Option.noConfusion h

theorem _end_of_table_ok (table : SortedTable T) (h : 0 < table.partitions.length) :
    ∃ position, _end_of_table table = .ok position ∧
      ∀ start : TablePosition, (start.to position).within table := by
  have hlast : table.partitions.length - 1 < table.partitions.length := by omega
  refine ⟨⟨table.partitions.length - 1, (table.partitions.get ⟨_, hlast⟩).length⟩, ?_, ?_⟩
  · simp only [_end_of_table, vector_index_of_lt _ _ hlast, bind, Except.bind, pure, Except.pure]
  · intro start
    exact ⟨table.partitions.get ⟨_, hlast⟩, by simp [TablePosition.to, List.getElem?_eq_getElem hlast],
      le_refl _⟩

theorem for_every_row_id_ok {σ : Type} (P : σ → Prop) (range : TableRange)
    (table : SortedTable T) (action : RowID → σ → Except Failure σ) (s : σ)
    (hw : range.within table) (hs : P s)
    (hact : ∀ r s1, P s1 → ∃ s2, action r s1 = .ok s2 ∧ P s2) :
    ∃ s2, range.for_every_row_id table action s = .ok s2 ∧ P s2 := by
  obtain ⟨last, hlast, hidx⟩ := hw
  have hstop : range.stop.partition < table.partitions.length := by
    by_contra hcon
    rw [List.getElem?_eq_none (by omega)] at hlast
    exact Option.noConfusion hlast
  unfold TableRange.for_every_row_id
  apply for_loop_ok P _ _ _ s hs
  intro partition s1 hle hlt hP1
  have hp : partition < table.partitions.length := by omega
  simp only [vector_index_of_lt table.partitions partition hp, bind, Except.bind]
  apply for_loop_ok P _ _ _ s1 hP1
  intro index s2 hile hilt hP2
  have hend : (if partition = range.stop.partition then range.stop.index
      else (table.partitions.get ⟨partition, hp⟩).length)
        ≤ (table.partitions.get ⟨partition, hp⟩).length := by
    split_ifs with heq
    · rw [← heq, List.getElem?_eq_getElem hp] at hlast
      have : table.partitions.get ⟨partition, hp⟩ = last := by
        simpa using hlast
      rw [this]
      exact hidx
    · exact le_refl _
  have hi : index < (table.partitions.get ⟨partition, hp⟩).length := by omega
  rw [vector_at_of_lt _ index hi]
  exact hact _ s2 hP2

theorem same_frame_refl (a : SortMergeJoinImpl T) : same_frame a a :=
  ⟨rfl, rfl, rfl, rfl, rfl, rfl, rfl⟩

theorem _emit_combination_ok (self0 self : SortMergeJoinImpl T) (output_partition : Nat)
    (left right : RowID) (hf : same_frame self0 self)
    (hl : output_partition < self0._output_pos_lists_left.length)
    (hr : output_partition < self0._output_pos_lists_right.length) :
    ∃ s2, _emit_combination self output_partition left right = .ok s2 ∧ same_frame self0 s2 := by
  obtain ⟨h1, h2, h3, h4, h5, h6, h7⟩ := hf
  have hl2 : output_partition < self._output_pos_lists_left.length := by omega
  have hr2 : output_partition < self._output_pos_lists_right.length := by omega
  simp only [_emit_combination, vector_index_of_lt _ _ hl2, vector_index_of_lt _ _ hr2, bind,
    Except.bind, pure, Except.pure]
  exact ⟨_, rfl, h1, h2, h3, h4, h5, by simpa using h6, by simpa using h7⟩

theorem _emit_combinations_ok (self0 self : SortMergeJoinImpl T) (output_partition : Nat)
    (left_range right_range : TableRange) (hf : same_frame self0 self)
    (hl : output_partition < self0._output_pos_lists_left.length)
    (hr : output_partition < self0._output_pos_lists_right.length)
    (hwl : left_range.within self0._sorted_left_table)
    (hwr : right_range.within self0._sorted_right_table) :
    ∃ s2, _emit_combinations self output_partition left_range right_range = .ok s2 ∧
      same_frame self0 s2 := by
  unfold _emit_combinations
  rw [hf.1, hf.2.1]
  apply for_every_row_id_ok (same_frame self0) _ _ _ _ hwl hf
  intro r s1 hs1
  apply for_every_row_id_ok (same_frame self0) _ _ _ _ hwr hs1
  intro r2 s2 hs2
  exact _emit_combination_ok self0 s2 output_partition r r2 hs2 hl hr

theorem _emit_right_null_combinations_ok (self0 self : SortMergeJoinImpl T)
    (output_partition : Nat) (left_range : TableRange) (hf : same_frame self0 self)
    (hl : output_partition < self0._output_pos_lists_left.length)
    (hr : output_partition < self0._output_pos_lists_right.length)
    (hwl : left_range.within self0._sorted_left_table) :
    ∃ s2, _emit_right_null_combinations self output_partition left_range = .ok s2 ∧
      same_frame self0 s2 := by
  unfold _emit_right_null_combinations
  rw [hf.1]
  apply for_every_row_id_ok (same_frame self0) _ _ _ _ hwl hf
  intro r s1 hs1
  exact _emit_combination_ok self0 s1 output_partition r null_row hs1 hl hr

theorem _emit_left_null_combinations_ok (self0 self : SortMergeJoinImpl T)
    (output_partition : Nat) (right_range : TableRange) (hf : same_frame self0 self)
    (hl : output_partition < self0._output_pos_lists_left.length)
    (hr : output_partition < self0._output_pos_lists_right.length)
    (hwr : right_range.within self0._sorted_right_table) :
    ∃ s2, _emit_left_null_combinations self output_partition right_range = .ok s2 ∧
      same_frame self0 s2 := by
  unfold _emit_left_null_combinations
  rw [hf.2.1]
  apply for_every_row_id_ok (same_frame self0) _ _ _ _ hwr hf
  intro r s1 hs1
  exact _emit_combination_ok self0 s1 output_partition null_row r hs1 hl hr

end range_lemmas

/-! ## Lemmas: the merge loop -/

section merge_lemmas

open SortMergeJoinImpl

variable {T : Type} [LinearOrder T]

/-- The loop of `_run_length` stops with an offset inside the vector. -/
theorem run_length_loop_ok (values : Partition T) (value : T) (start_index : Nat) :
    ∀ (bound offset : Nat), 1 ≤ offset → start_index + offset ≤ values.length →
      values.length - (start_index + offset) ≤ bound →
      ∃ n, while_loop
        (fun offset =>
          decide (start_index + offset < values.length) &&
            (match values[start_index + offset]? with
              | some entry => decide (value = entry.2)
              | none => false))
        (fun offset => .ok (offset + 1)) bound offset = .ok n ∧
        1 ≤ n ∧ start_index + n ≤ values.length := by
  intro bound
  induction bound with
  | zero =>
    intro offset h1 h2 h3
    refine ⟨offset, ?_, h1, h2⟩
    have : ¬ (start_index + offset < values.length) := by omega
    simp [while_loop, this]
  | succ b ih =>
    intro offset h1 h2 h3
    by_cases hc : (decide (start_index + offset < values.length) &&
            (match values[start_index + offset]? with
              | some entry => decide (value = entry.2)
              | none => false)) = true
    · have hlt : start_index + offset < values.length := by
        simp only [Bool.and_eq_true, decide_eq_true_eq] at hc
        exact hc.1
      obtain ⟨n, hn, hn1, hn2⟩ := ih (offset + 1) (by omega) (by omega) (by omega)
      refine ⟨n, ?_, hn1, hn2⟩
      rw [while_loop, if_pos hc]
      exact hn
    · refine ⟨offset, ?_, h1, h2⟩
      rw [while_loop, if_neg hc]

theorem _run_length_ok (start_index : Nat) (values : Partition T)
    (h : start_index < values.length) :
    ∃ n, _run_length start_index values = .ok n ∧ 1 ≤ n ∧ start_index + n ≤ values.length := by
  obtain ⟨n, hn, h1, h2⟩ := run_length_loop_ok values (values.get ⟨start_index, h⟩).2 start_index
    values.length 1 (le_refl _) (by omega) (by omega)
  refine ⟨n, ?_, h1, h2⟩
  simp only [_run_length, vector_at_of_lt values start_index h, bind, Except.bind]
  exact hn

theorem _run_length_out_of_range (start_index : Nat) (values : Partition T)
    (h : values.length ≤ start_index) :
    _run_length start_index values = .error .out_of_range := by
  simp only [_run_length, vector_at_of_le values start_index h, bind, Except.bind]

theorem _join_runs_ok (self0 self : SortMergeJoinImpl T) (partition_number : Nat)
    (left_run right_run : TableRange) (left_partition right_partition : Partition T)
    (hf : same_frame self0 self)
    (hl : partition_number < self0._output_pos_lists_left.length)
    (hr : partition_number < self0._output_pos_lists_right.length)
    (hlp : self0._sorted_left_table.partitions[partition_number]? = some left_partition)
    (hrp : self0._sorted_right_table.partitions[partition_number]? = some right_partition)
    (hls : left_run.start.index < left_partition.length)
    (hrs : right_run.start.index < right_partition.length)
    (hlw : left_run.within self0._sorted_left_table)
    (hrw : right_run.within self0._sorted_right_table) :
    ∃ s2, _join_runs self partition_number left_run right_run = .ok s2 ∧ same_frame self0 s2 := by
  obtain ⟨el, hel, helw⟩ := _end_of_table_ok self0._sorted_left_table
    (by have := lt_length_of_some _ _ _ hlp; omega)
  obtain ⟨er, her, herw⟩ := _end_of_table_ok self0._sorted_right_table
    (by have := lt_length_of_some _ _ _ hrp; omega)
  have hl2 : partition_number < self._output_pos_lists_left.length := by rw [hf.2.2.2.2.2.1]; exact hl
  have hr2 : partition_number < self._output_pos_lists_right.length := by rw [hf.2.2.2.2.2.2]; exact hr
  have key := fun s lr rr (hs : same_frame self0 s) hwl hwr =>
    _emit_combinations_ok self0 s partition_number lr rr hs hl hr hwl hwr
  simp only [_join_runs, hf.1, hf.2.1, vector_index_of_some _ _ _ hlp,
    vector_index_of_some _ _ _ hrp, vector_index_of_lt _ _ hl2, vector_index_of_lt _ _ hr2,
    vector_at_of_lt _ _ hls, vector_at_of_lt _ _ hrs, hel, her, bind, Except.bind, pure,
    Except.pure]
  split_ifs
  all_goals first
    | exact ⟨self, rfl, hf⟩
    | exact key self _ _ hf hlw hrw
    | exact key self _ _ hf (helw _) hrw
    | exact key self _ _ hf hlw (herw _)
    | exact _emit_right_null_combinations_ok self0 self partition_number _ hf hl hr hlw
    | exact _emit_left_null_combinations_ok self0 self partition_number _ hf hl hr hrw
    | (obtain ⟨s1, h1, hs1⟩ := key self (left_run.start.to el) right_run hf (helw _) hrw
       rw [h1]
       first
         | exact ⟨s1, rfl, hs1⟩
         | exact key s1 _ _ hs1 (helw _) hrw)
    | (obtain ⟨s1, h1, hs1⟩ := key self left_run (right_run.start.to er) hf hlw (herw _)
       rw [h1]
       first
         | exact ⟨s1, rfl, hs1⟩
         | exact key s1 _ _ hs1 hlw (herw _))

/-- One iteration of the merge loop either ends with `std::out_of_range` or moves at
least one cursor forward, none backward, and keeps the invariant. -/
theorem _join_partition_body_spec (self0 : SortMergeJoinImpl T) (partition_number : Nat)
    (left_partition right_partition : Partition T) (st : MergeState T)
    (hl : partition_number < self0._output_pos_lists_left.length)
    (hr : partition_number < self0._output_pos_lists_right.length)
    (hlp : self0._sorted_left_table.partitions[partition_number]? = some left_partition)
    (hrp : self0._sorted_right_table.partitions[partition_number]? = some right_partition)
    (hinv : merge_invariant self0 left_partition right_partition st) :
    _join_partition_body partition_number left_partition right_partition st
        = .error .out_of_range ∨
      ∃ st2, _join_partition_body partition_number left_partition right_partition st = .ok st2 ∧
        merge_invariant self0 left_partition right_partition st2 ∧
        st.left_run_start ≤ st2.left_run_start ∧ st.right_run_start ≤ st2.right_run_start ∧
        st.left_run_start + st.right_run_start < st2.left_run_start + st2.right_run_start := by
  obtain ⟨hf, h1, h2, h3, h4⟩ := hinv
  have hls : st.left_run_start < left_partition.length := by omega
  have hrs : st.right_run_start < right_partition.length := by omega
  obtain ⟨self1, hj, hf1⟩ := _join_runs_ok self0 st.self partition_number
    (TableRange.of_partition partition_number st.left_run_start st.left_run_end)
    (TableRange.of_partition partition_number st.right_run_start st.right_run_end)
    left_partition right_partition hf hl hr hlp hrp hls hrs
    ⟨left_partition, hlp, h2⟩ ⟨right_partition, hrp, h4⟩
  have hleft : _run_length st.left_run_end left_partition = .error .out_of_range ∨
      ∃ n, _run_length st.left_run_end left_partition = .ok n ∧ 1 ≤ n ∧
        st.left_run_end + n ≤ left_partition.length := by
    by_cases hc : st.left_run_end < left_partition.length
    · exact Or.inr (_run_length_ok _ _ hc)
    · exact Or.inl (_run_length_out_of_range _ _ (by omega))
  have hright : _run_length st.right_run_end right_partition = .error .out_of_range ∨
      ∃ n, _run_length st.right_run_end right_partition = .ok n ∧ 1 ≤ n ∧
        st.right_run_end + n ≤ right_partition.length := by
    by_cases hc : st.right_run_end < right_partition.length
    · exact Or.inr (_run_length_ok _ _ hc)
    · exact Or.inl (_run_length_out_of_range _ _ (by omega))
  simp only [_join_partition_body, vector_at_of_lt _ _ hls, vector_at_of_lt _ _ hrs, hj, bind,
    Except.bind, pure, Except.pure]
  split_ifs
  · rcases hleft with hle | ⟨n, hn, hn1, hn2⟩
    · left; rw [hle]
    · rw [hn]
      rcases hright with hre | ⟨m, hm, hm1, hm2⟩
      · left; rw [hre]
      · right; rw [hm]
        exact ⟨_, rfl, ⟨hf1, by simp only; omega, by simp only; omega, by simp only; omega,
          by simp only; omega⟩, by simp only; omega, by simp only; omega, by simp only; omega⟩
  · rcases hleft with hle | ⟨n, hn, hn1, hn2⟩
    · left; rw [hle]
    · right; rw [hn]
      exact ⟨_, rfl, ⟨hf1, by simp only; omega, by simp only; omega, by simp only; omega,
        by simp only; omega⟩, by simp only; omega, by simp only; omega, by simp only; omega⟩
  · rcases hright with hre | ⟨m, hm, hm1, hm2⟩
    · left; rw [hre]
    · right; rw [hm]
      exact ⟨_, rfl, ⟨hf1, by simp only; omega, by simp only; omega, by simp only; omega,
        by simp only; omega⟩, by simp only; omega, by simp only; omega, by simp only; omega⟩

/-- The merge loop never leaves through its condition: from every state that satisfies
the invariant it ends with `std::out_of_range`. -/
theorem merge_loop_out_of_range (self0 : SortMergeJoinImpl T) (partition_number : Nat)
    (left_partition right_partition : Partition T)
    (hl : partition_number < self0._output_pos_lists_left.length)
    (hr : partition_number < self0._output_pos_lists_right.length)
    (hlp : self0._sorted_left_table.partitions[partition_number]? = some left_partition)
    (hrp : self0._sorted_right_table.partitions[partition_number]? = some right_partition) :
    ∀ (bound : Nat) (st : MergeState T),
      merge_invariant self0 left_partition right_partition st →
      (left_partition.length - st.left_run_start) +
        (right_partition.length - st.right_run_start) ≤ bound →
      while_loop
        (fun st => decide (st.left_run_start < left_partition.length) &&
          decide (st.right_run_start < right_partition.length))
        (_join_partition_body partition_number left_partition right_partition) bound st
        = .error .out_of_range := by
  intro bound
  induction bound with
  | zero =>
    intro st hinv hb
    obtain ⟨_, h1, h2, h3, h4⟩ := hinv
    omega
  | succ b ih =>
    intro st hinv hb
    have hinv0 := hinv
    obtain ⟨_, h1, h2, h3, h4⟩ := hinv
    have hc : (decide (st.left_run_start < left_partition.length) &&
        decide (st.right_run_start < right_partition.length)) = true := by
      simp only [Bool.and_eq_true, decide_eq_true_eq]
      omega
    rw [while_loop, if_pos hc]
    rcases _join_partition_body_spec self0 partition_number left_partition right_partition st
      hl hr hlp hrp hinv0 with he | ⟨st2, hst2, hinv2, hm1, hm2, hm3⟩
    · rw [he]
    · rw [hst2]
      obtain ⟨_, k1, k2, k3, k4⟩ := hinv2
      exact ih st2 ⟨by assumption, k1, k2, k3, k4⟩ (by omega)

/-- The function `_join_partition` ends with `std::out_of_range` on every partition that exists. -/
theorem _join_partition_out_of_range (self : SortMergeJoinImpl T) (partition_number : Nat)
    (hl : partition_number < self._output_pos_lists_left.length)
    (hr : partition_number < self._output_pos_lists_right.length)
    (hlp : partition_number < self._sorted_left_table.partitions.length)
    (hrp : partition_number < self._sorted_right_table.partitions.length) :
    _join_partition self partition_number = .error .out_of_range := by
  have hlp2 : self._sorted_left_table.partitions[partition_number]?
      = some (self._sorted_left_table.partitions.get ⟨partition_number, hlp⟩) := by
    simp [List.getElem?_eq_getElem hlp]
  have hrp2 : self._sorted_right_table.partitions[partition_number]?
      = some (self._sorted_right_table.partitions.get ⟨partition_number, hrp⟩) := by
    simp [List.getElem?_eq_getElem hrp]
  simp only [_join_partition, vector_index_of_lt _ _ hlp, vector_index_of_lt _ _ hrp, bind,
    Except.bind]
  by_cases hle : 0 < (self._sorted_left_table.partitions.get ⟨partition_number, hlp⟩).length
  · obtain ⟨n, hn, hn1, hn2⟩ := _run_length_ok 0 _ hle
    rw [hn]
    by_cases hre : 0 < (self._sorted_right_table.partitions.get ⟨partition_number, hrp⟩).length
    · obtain ⟨m, hm, hm1, hm2⟩ := _run_length_ok 0 _ hre
      rw [hm]
      simp only
      rw [merge_loop_out_of_range self partition_number _ _ hl hr hlp2 hrp2 _ _
        ⟨same_frame_refl self, by simp only; omega, by simp only; omega, by simp only; omega,
          by simp only; omega⟩ (by simp only; omega)]
    · rw [_run_length_out_of_range 0 _ (by omega)]
  · rw [_run_length_out_of_range 0 _ (by omega)]

/-- Whatever the operator, the mode and the two sorted partitions are, `on_execute` ends
with `std::out_of_range`. -/
theorem on_execute_out_of_range (left right : Partition T) (op : String) (mode : JoinMode) :
    on_execute (create ⟨[left]⟩ ⟨[right]⟩ op mode) = .error .out_of_range := by
  have h := _join_partition_out_of_range (create ⟨[left]⟩ ⟨[right]⟩ op mode) 0
    (by simp [create]) (by simp [create]) (by simp [create]) (by simp [create])
  have hc : (create (⟨[left]⟩ : SortedTable T) ⟨[right]⟩ op mode)._partition_count = 1 := rfl
  simp [on_execute, _perform_join, hc, for_loop, h, DebugAssert, bind, Except.bind, pure,
    Except.pure]

end merge_lemmas

/-! ## Theorems: the sort-merge join -/

section join_theorems

open SortMergeJoinImpl

/-- On the inputs of scenario D the second call of `_join_runs` (runs `[c]` and `[y, z]`)
leaves the four pairs `(a,x), (b,x), (c,y), (c,z)` in the output lists of partition 0; the
failure of `on_execute` comes after it, from `_run_length`. -/
theorem scenario_D_pairs_before_failure :
    (do
      let st ← _join_partition_body 0 [(row_a, 1), (row_b, 1), (row_c, 2)]
        [(row_x, 1), (row_y, 2), (row_z, 2)]
        ⟨create scenario_D_left scenario_D_right "=" .Inner, 0, 0, 2, 1⟩
      let self1 ← _join_runs st.self 0 (TableRange.of_partition 0 st.left_run_start st.left_run_end)
        (TableRange.of_partition 0 st.right_run_start st.right_run_end)
      pure (st.left_run_end, self1._output_pos_lists_left, self1._output_pos_lists_right))
      = .ok (3, [[row_a, row_b, row_c, row_c]], [[row_x, row_x, row_y, row_z]]) ∧
    _run_length 3 [(row_a, (1 : Nat)), (row_b, 1), (row_c, 2)] = .error .out_of_range :=
  ⟨rfl, rfl⟩

/-- C1: on the inputs of scenario D the equi inner join does not return the four pairs
`(a,x), (b,x), (c,y), (c,z)`: after the second pair of runs the left cursor is at the end
of its partition and `_run_length` reads `values->at(3)` of three entries, so `on_execute`
ends with `std::out_of_range` and no position list is produced.  The same happens for
every pair of partitions. -/
theorem inner_equi_join_out_of_range :
    on_execute (create scenario_D_left scenario_D_right "=" .Inner) = .error .out_of_range ∧
    ∀ (T : Type) [LinearOrder T] (left right : Partition T),
      on_execute (create ⟨[left]⟩ ⟨[right]⟩ "=" .Inner) = .error .out_of_range :=
  ⟨rfl, fun _ _ left right => on_execute_out_of_range left right "=" .Inner⟩

/-- C2: on the inputs of scenario E the left outer equi join does not return the four
inner pairs and `(d, null)`: `on_execute` ends with `std::out_of_range`, raised by
`_run_length` when the right cursor reaches the end of its partition.  The same happens
for every pair of partitions. -/
theorem left_equi_join_out_of_range :
    on_execute (create scenario_E_left scenario_D_right "=" .Left) = .error .out_of_range ∧
    ∀ (T : Type) [LinearOrder T] (left right : Partition T),
      on_execute (create ⟨[left]⟩ ⟨[right]⟩ "=" .Left) = .error .out_of_range :=
  ⟨rfl, fun _ _ left right => on_execute_out_of_range left right "=" .Left⟩

/-- C3: the full outer equi join of the left row `(a,1)` with the right row `(x,2)` returns
no position lists, so neither `a` nor `x` is in the output: `on_execute` ends with
`std::out_of_range`.  The same happens for every pair of partitions. -/
theorem outer_equi_join_out_of_range :
    on_execute (create (⟨[[(row_a, 1)]]⟩ : SortedTable Nat) ⟨[[(row_x, 2)]]⟩ "=" .Outer)
      = .error .out_of_range ∧
    ∀ (T : Type) [LinearOrder T] (left right : Partition T),
      on_execute (create ⟨[left]⟩ ⟨[right]⟩ "=" .Outer) = .error .out_of_range :=
  ⟨rfl, fun _ _ left right => on_execute_out_of_range left right "=" .Outer⟩

/-- C4: the right outer equi join of the left row `(a,2)` with the right rows `(x,1)`,
`(y,3)` returns no position lists, so neither `(null, x)` nor `(null, y)` is emitted:
`on_execute` ends with `std::out_of_range`.  The same happens for every pair of
partitions. -/
theorem right_equi_join_out_of_range :
    on_execute (create (⟨[[(row_a, 2)]]⟩ : SortedTable Nat) ⟨[[(row_x, 1), (row_y, 3)]]⟩
      "=" .Right) = .error .out_of_range ∧
    ∀ (T : Type) [LinearOrder T] (left right : Partition T),
      on_execute (create ⟨[left]⟩ ⟨[right]⟩ "=" .Right) = .error .out_of_range :=
  ⟨rfl, fun _ _ left right => on_execute_out_of_range left right "=" .Right⟩

/-- C5: on the inputs of scenario D the inner joins with `<` and with `<=` return no
position lists: `on_execute` ends with `std::out_of_range`.  The same happens for every
pair of partitions. -/
theorem less_join_out_of_range :
    on_execute (create scenario_D_left scenario_D_right "<" .Inner) = .error .out_of_range ∧
    on_execute (create scenario_D_left scenario_D_right "<=" .Inner) = .error .out_of_range ∧
    ∀ (T : Type) [LinearOrder T] (left right : Partition T),
      on_execute (create ⟨[left]⟩ ⟨[right]⟩ "<" .Inner) = .error .out_of_range ∧
      on_execute (create ⟨[left]⟩ ⟨[right]⟩ "<=" .Inner) = .error .out_of_range :=
  ⟨rfl, rfl, fun _ _ left right =>
    ⟨on_execute_out_of_range left right "<" .Inner, on_execute_out_of_range left right "<=" .Inner⟩⟩

/-- C6: on the inputs of scenario D the inner joins with `>` and with `>=` return no
position lists: `on_execute` ends with `std::out_of_range`.  The same happens for every
pair of partitions. -/
theorem greater_join_out_of_range :
    on_execute (create scenario_D_left scenario_D_right ">" .Inner) = .error .out_of_range ∧
    on_execute (create scenario_D_left scenario_D_right ">=" .Inner) = .error .out_of_range ∧
    ∀ (T : Type) [LinearOrder T] (left right : Partition T),
      on_execute (create ⟨[left]⟩ ⟨[right]⟩ ">" .Inner) = .error .out_of_range ∧
      on_execute (create ⟨[left]⟩ ⟨[right]⟩ ">=" .Inner) = .error .out_of_range :=
  ⟨rfl, rfl, fun _ _ left right =>
    ⟨on_execute_out_of_range left right ">" .Inner, on_execute_out_of_range left right ">=" .Inner⟩⟩

end join_theorems

/-! ## Theorems: the constructor -/

section constructor_theorems

theorem DebugAssert_true (message : String) : DebugAssert true message = .ok () := rfl

theorem DebugAssert_false (message : String) :
    DebugAssert false message = .error (.assertion message) := rfl

theorem DebugAssert_ne_assertion (condition : Bool) (message target : String)
    (h : message ≠ target) : DebugAssert condition message ≠ .error (.assertion target) := by
  cases condition with
  | true => intro hc; cases hc
  | false =>
    intro hc
    rw [DebugAssert_false] at hc
    injection hc with hc
    injection hc with hc
    exact h hc

theorem bind_ne_error {α β : Type} (x : Except Failure α) (f : α → Except Failure β)
    (e : Failure) (hx : x ≠ .error e) (hf : ∀ a, f a ≠ .error e) : (x >>= f) ≠ .error e := by
  cases x with
  | error e1 => simpa [bind, Except.bind] using hx
  | ok a => simpa [bind, Except.bind] using hf a

theorem column_id_by_name_ne_assertion (table : Table) (column_name message : String) :
    table.column_id_by_name column_name ≠ .error (.assertion message) := by
  unfold Table.column_id_by_name
  split <;> intro h <;> cases h

theorem column_type_ne_assertion (table : Table) (column_id : Nat) (message : String) :
    table.column_type column_id ≠ .error (.assertion message) := by
  unfold Table.column_type
  split <;> intro h <;> cases h

/-- C7: a non-equi operator together with the mode Left, Right or Outer makes the
constructor fail, whatever the inputs and the column names are; with the operator `=` and
any of the modes Inner, Left, Right, Outer the constructor does not stop at the check
"Outer joins are only implemented for equi joins.". -/
theorem SortMergeJoin_create_outer_needs_equi :
    (∀ (left right : Option AbstractOperator) (column_names : Option (String × String))
        (op : String) (mode : JoinMode),
        op = "<" ∨ op = "<=" ∨ op = ">" ∨ op = ">=" →
        mode = .Left ∨ mode = .Right ∨ mode = .Outer →
        ∃ e, SortMergeJoin.create left right column_names op mode = .error e) ∧
    (∀ (left right : Option AbstractOperator) (column_names : Option (String × String))
        (mode : JoinMode),
        mode = .Inner ∨ mode = .Left ∨ mode = .Right ∨ mode = .Outer →
        SortMergeJoin.create left right column_names "=" mode ≠
          .error (.assertion "Outer joins are only implemented for equi joins.")) := by
  constructor
  · intro left right column_names op mode hop hmode
    have hne : (op == "=") = false := by
      rcases hop with h | h | h | h <;> subst h <;> decide
    have hmi : (mode == JoinMode.Inner) = false := by
      rcases hmode with h | h | h <;> subst h <;> decide
    unfold SortMergeJoin.create
    simp only [hne, hmi, Bool.or_self, DebugAssert_false, bind, Except.bind]
    cases DebugAssert (mode != JoinMode.Cross && column_names.isSome) _ with
    | error e => exact ⟨e, rfl⟩
    | ok _ =>
      cases DebugAssert left.isSome _ with
      | error e => exact ⟨e, rfl⟩
      | ok _ =>
        cases DebugAssert right.isSome _ with
        | error e => exact ⟨e, rfl⟩
        | ok _ =>
          cases DebugAssert (false || op == "<" || op == ">" || op == "<=" || op == ">=") _ with
          | error e => exact ⟨e, rfl⟩
          | ok _ => exact ⟨_, rfl⟩
  · intro left right column_names mode hmode
    unfold SortMergeJoin.create
    refine bind_ne_error _ _ _ (DebugAssert_ne_assertion _ _ _ (by decide)) (fun _ => ?_)
    refine bind_ne_error _ _ _ (DebugAssert_ne_assertion _ _ _ (by decide)) (fun _ => ?_)
    refine bind_ne_error _ _ _ (DebugAssert_ne_assertion _ _ _ (by decide)) (fun _ => ?_)
    refine bind_ne_error _ _ _ (DebugAssert_ne_assertion _ _ _ (by decide)) (fun _ => ?_)
    refine bind_ne_error _ _ _ (by intro h; cases h) (fun _ => ?_)
    refine bind_ne_error _ _ _ (DebugAssert_ne_assertion _ _ _ (by decide)) (fun _ => ?_)
    split
    · refine bind_ne_error _ _ _ (column_id_by_name_ne_assertion _ _ _) (fun _ => ?_)
      refine bind_ne_error _ _ _ (column_id_by_name_ne_assertion _ _ _) (fun _ => ?_)
      refine bind_ne_error _ _ _ (column_type_ne_assertion _ _ _) (fun _ => ?_)
      refine bind_ne_error _ _ _ (column_type_ne_assertion _ _ _) (fun _ => ?_)
      refine bind_ne_error _ _ _ (DebugAssert_ne_assertion _ _ _ (by decide)) (fun _ => ?_)
      intro h; cases h
    · intro h; cases h

/-- Witness of C7: `<` with mode Left is rejected although both inputs and both column
names are given and the column types agree, and `=` with mode Left builds the operator. -/
theorem SortMergeJoin_create_outer_needs_equi_witness :
    (∃ e, SortMergeJoin.create (some ⟨⟨[("a", "int")]⟩⟩) (some ⟨⟨[("b", "int")]⟩⟩)
        (some ("a", "b")) "<" .Left = .error e) ∧
    SortMergeJoin.create (some ⟨⟨[("a", "int")]⟩⟩) (some ⟨⟨[("b", "int")]⟩⟩)
        (some ("a", "b")) "=" .Left ≠
      .error (.assertion "Outer joins are only implemented for equi joins.") :=
  ⟨SortMergeJoin_create_outer_needs_equi.1 _ _ _ "<" .Left (Or.inl rfl) (Or.inl rfl),
    SortMergeJoin_create_outer_needs_equi.2 _ _ _ .Left (Or.inr (Or.inl rfl))⟩

end constructor_theorems

/-! ## Theorems: Validate -/

section validate_theorems

theorem is_row_visible_iff (context : TransactionContext) (row : MvccRow) :
    is_row_visible context row = true ↔
      (row.tid = context.our_tid ∧ ¬ context.our_cid ≥ row.begin_cid ∧
          ¬ context.our_cid ≥ row.end_cid) ∨
      (¬ row.tid = context.our_tid ∧ context.our_cid ≥ row.begin_cid ∧
          ¬ context.our_cid ≥ row.end_cid) := by
  unfold is_row_visible
  by_cases hA : row.tid = context.our_tid <;>
    by_cases hB : context.our_cid ≥ row.begin_cid <;>
    by_cases hC : context.our_cid ≥ row.end_cid <;>
    simp [hA, hB, hC]

/-- C8: with `A = (row_tid == our_tid)`, `B = (our_cid ≥ begin_cid)` and
`C = (our_cid ≥ end_cid)`, Validate keeps a row of its input exactly when
`(A ∧ ¬B ∧ ¬C) ∨ (¬A ∧ B ∧ ¬C)`; the eight tests of the visibility test and the second
half of scenario B give the row counts 1, 1, 0, 0, 0, 0, 0, 0 and 0. -/
theorem Validate_truth_table :
    (∀ (context : TransactionContext) (input : List MvccRow) (row : MvccRow),
      row ∈ Validate context input ↔
        row ∈ input ∧
          ((row.tid = context.our_tid ∧ ¬ context.our_cid ≥ row.begin_cid ∧
              ¬ context.our_cid ≥ row.end_cid) ∨
            (¬ row.tid = context.our_tid ∧ context.our_cid ≥ row.begin_cid ∧
              ¬ context.our_cid ≥ row.end_cid))) ∧
    (Validate ⟨2, 2⟩ (test_table 99 2 3)).length = 1 ∧
    (Validate ⟨2, 2⟩ (test_table 2 3 3)).length = 1 ∧
    (Validate ⟨2, 2⟩ (test_table 2 2 2)).length = 0 ∧
    (Validate ⟨2, 2⟩ (test_table 42 2 2)).length = 0 ∧
    (Validate ⟨2, 2⟩ (test_table 2 4 1)).length = 0 ∧
    (Validate ⟨2, 2⟩ (test_table 2 1 6)).length = 0 ∧
    (Validate ⟨2, 2⟩ (test_table 50 3 1)).length = 0 ∧
    (Validate ⟨2, 2⟩ (test_table 99 3 3)).length = 0 ∧
    (Validate ⟨2, 3⟩ (test_table 99 2 3)).length = 0 := by
  refine ⟨?_, by decide, by decide, by decide, by decide, by decide, by decide, by decide,
    by decide, by decide⟩
  intro context input row
  simp only [Validate, List.mem_filter, is_row_visible_iff]

/-- C9, as stated, fails: for the transaction `(our_tid, s) = (2, 2)` the row with
`tid = 2`, `begin_cid = 1`, `end_cid = 6` (the test OwnDeleteUncommitted) satisfies
`begin_cid ≤ s < end_cid`, and Validate does not keep it. -/
theorem Validate_own_delete_not_kept :
    ¬ (∀ row : MvccRow, row ∈ Validate ⟨2, 2⟩ (test_table 2 1 6) ↔
        row ∈ test_table 2 1 6 ∧
          ((row.begin_cid ≤ 2 ∧ 2 < row.end_cid) ∨ (row.tid = 2 ∧ ¬ tombstoned row))) := by
  intro h
  have h1 := (h ⟨2, 1, 6, [123, 456]⟩).2
    ⟨by simp [test_table], Or.inl ⟨by decide, by decide⟩⟩
  revert h1
  decide

/-- C9, amended: for every transaction `(our_tid, s)` and every table, Validate keeps
exactly the rows with `begin_cid ≤ s < end_cid` that are not written by the transaction
(`row_tid ≠ our_tid`), and the rows written by it (`row_tid = our_tid`) with
`s < begin_cid` and `s < end_cid`. -/
theorem Validate_snapshot_or_own_insert (context : TransactionContext) (input : List MvccRow)
    (row : MvccRow) :
    row ∈ Validate context input ↔
      row ∈ input ∧
        ((row.tid ≠ context.our_tid ∧ row.begin_cid ≤ context.our_cid ∧
            context.our_cid < row.end_cid) ∨
          (row.tid = context.our_tid ∧ context.our_cid < row.begin_cid ∧
            context.our_cid < row.end_cid)) := by
  simp only [Validate, List.mem_filter, is_row_visible_iff, ge_iff_le, not_le, ne_eq]
  constructor
  · rintro ⟨h, h1 | h1⟩
    · exact ⟨h, Or.inr h1⟩
    · exact ⟨h, Or.inl h1⟩
  · rintro ⟨h, h1 | h1⟩
    · exact ⟨h, Or.inr h1⟩
    · exact ⟨h, Or.inl h1⟩

/-- C10: Validate is idempotent: validating the output of Validate with the same
transaction context returns that output unchanged. -/
theorem Validate_idempotent (context : TransactionContext) (input : List MvccRow) :
    Validate context (Validate context input) = Validate context input := by
  simp [Validate, List.filter_filter]

end validate_theorems

/-! ## Theorems: the operator and column type checks of the constructor -/

section constructor_checks

/-- C17: an operator string other than `=`, `<`, `>`, `<=`, `>=` makes the constructor
fail, whatever the other arguments are; with one of these five strings the constructor
never stops at the check "unknown operator". -/
theorem SortMergeJoin_create_operator_check :
    (∀ (left right : Option AbstractOperator) (column_names : Option (String × String))
        (op : String) (mode : JoinMode),
        op ≠ "=" → op ≠ "<" → op ≠ ">" → op ≠ "<=" → op ≠ ">=" →
        ∃ e, SortMergeJoin.create left right column_names op mode = .error e) ∧
    (∀ (left right : Option AbstractOperator) (column_names : Option (String × String))
        (op : String) (mode : JoinMode),
        op = "=" ∨ op = "<" ∨ op = ">" ∨ op = "<=" ∨ op = ">=" →
        SortMergeJoin.create left right column_names op mode ≠
          .error (.assertion ("unknown operator " ++ op))) := by
  constructor
  · intro left right column_names op mode h1 h2 h3 h4 h5
    have hc : (op == "=" || op == "<" || op == ">" || op == "<=" || op == ">=") = false := by
      simp [h1, h2, h3, h4, h5]
    unfold SortMergeJoin.create
    simp only [hc, DebugAssert_false, bind, Except.bind]
    cases DebugAssert (mode != JoinMode.Cross && column_names.isSome) _ with
    | error e => exact ⟨e, rfl⟩
    | ok _ =>
      cases DebugAssert left.isSome _ with
      | error e => exact ⟨e, rfl⟩
      | ok _ =>
        cases DebugAssert right.isSome _ with
        | error e => exact ⟨e, rfl⟩
        | ok _ => exact ⟨_, rfl⟩
  · intro left right column_names op mode hop
    have hc : (op == "=" || op == "<" || op == ">" || op == "<=" || op == ">=") = true := by
      rcases hop with h | h | h | h | h <;> subst h <;> decide
    have hm : ∀ message : String,
        message = "This operator does not support cross joins." ∨
        message = "The left input operator is null." ∨
        message = "The right input operator is null." ∨
        message = "Outer joins are only implemented for equi joins." ∨
        message = "The column names are not optional for the SortMergeJoin." ∨
        message = "Left and right column types do not match. The SortMergeJoin requires matching column types" →
        message ≠ "unknown operator " ++ op := by
      intro message hmsg
      rcases hop with h | h | h | h | h <;> subst h <;>
        rcases hmsg with g | g | g | g | g | g <;> subst g <;> decide
    unfold SortMergeJoin.create
    rw [hc]
    refine bind_ne_error _ _ _ (DebugAssert_ne_assertion _ _ _ (hm _ (by simp))) (fun _ => ?_)
    refine bind_ne_error _ _ _ (DebugAssert_ne_assertion _ _ _ (hm _ (by simp))) (fun _ => ?_)
    refine bind_ne_error _ _ _ (DebugAssert_ne_assertion _ _ _ (hm _ (by simp))) (fun _ => ?_)
    refine bind_ne_error _ _ _ (by intro h; cases h) (fun _ => ?_)
    refine bind_ne_error _ _ _ (DebugAssert_ne_assertion _ _ _ (hm _ (by simp))) (fun _ => ?_)
    refine bind_ne_error _ _ _ (DebugAssert_ne_assertion _ _ _ (hm _ (by simp))) (fun _ => ?_)
    split
    · refine bind_ne_error _ _ _ (column_id_by_name_ne_assertion _ _ _) (fun _ => ?_)
      refine bind_ne_error _ _ _ (column_id_by_name_ne_assertion _ _ _) (fun _ => ?_)
      refine bind_ne_error _ _ _ (column_type_ne_assertion _ _ _) (fun _ => ?_)
      refine bind_ne_error _ _ _ (column_type_ne_assertion _ _ _) (fun _ => ?_)
      refine bind_ne_error _ _ _ (DebugAssert_ne_assertion _ _ _ (hm _ (by simp))) (fun _ => ?_)
      intro h; cases h
    · intro h; cases h

/-- Witness of C17: `!=` and `LIKE` are rejected although the inputs, the column names and
the column types are in order, and `<=` with the same arguments builds the operator. -/
theorem SortMergeJoin_create_operator_check_witness :
    (∃ e, SortMergeJoin.create (some ⟨⟨[("a", "int")]⟩⟩) (some ⟨⟨[("b", "int")]⟩⟩)
        (some ("a", "b")) "!=" .Inner = .error e) ∧
    (∃ e, SortMergeJoin.create (some ⟨⟨[("a", "int")]⟩⟩) (some ⟨⟨[("b", "int")]⟩⟩)
        (some ("a", "b")) "LIKE" .Inner = .error e) ∧
    SortMergeJoin.create (some ⟨⟨[("a", "int")]⟩⟩) (some ⟨⟨[("b", "int")]⟩⟩)
        (some ("a", "b")) "<=" .Inner ≠ .error (.assertion ("unknown operator " ++ "<=")) :=
  ⟨SortMergeJoin_create_operator_check.1 _ _ _ "!=" .Inner (by decide) (by decide) (by decide)
      (by decide) (by decide),
    SortMergeJoin_create_operator_check.1 _ _ _ "LIKE" .Inner (by decide) (by decide) (by decide)
      (by decide) (by decide),
    SortMergeJoin_create_operator_check.2 _ _ _ "<=" .Inner (by simp)⟩

end constructor_checks
section constructor_types

theorem bind_eq_ok {α β : Type} (x : Except Failure α) (f : α → Except Failure β) (b : β) :
    (x >>= f) = .ok b ↔ ∃ a, x = .ok a ∧ f a = .ok b := by
  cases x with
  | error e => simp [bind, Except.bind]
  | ok a => simp [bind, Except.bind]

theorem DebugAssert_eq_ok (condition : Bool) (message : String) (u : Unit) :
    DebugAssert condition message = .ok u ↔ condition = true := by
  cases condition <;> simp [DebugAssert]

/-- C18: when the type of the left join column differs from the type of the right join
column the constructor fails; when it succeeds, both join columns have the same type and
the implementation is the one for that type. -/
theorem SortMergeJoin_create_column_types :
    (∀ (input_left input_right : AbstractOperator) (left_column_name right_column_name : String)
        (op : String) (mode : JoinMode) (left_column_type right_column_type : String),
        (input_left.get_output.column_id_by_name left_column_name >>=
            input_left.get_output.column_type) = .ok left_column_type →
        (input_right.get_output.column_id_by_name right_column_name >>=
            input_right.get_output.column_type) = .ok right_column_type →
        left_column_type ≠ right_column_type →
        ∃ e, SortMergeJoin.create (some input_left) (some input_right)
          (some (left_column_name, right_column_name)) op mode = .error e) ∧
    (∀ (left right : Option AbstractOperator) (column_names : Option (String × String))
        (op : String) (mode : JoinMode) (join : SortMergeJoin),
        SortMergeJoin.create left right column_names op mode = .ok join →
        ∃ input_left input_right left_column_name right_column_name,
          left = some input_left ∧ right = some input_right ∧
          column_names = some (left_column_name, right_column_name) ∧
          (input_left.get_output.column_id_by_name left_column_name >>=
            input_left.get_output.column_type) = .ok join._impl ∧
          (input_right.get_output.column_id_by_name right_column_name >>=
            input_right.get_output.column_type) = .ok join._impl) := by
  constructor
  · intro input_left input_right a b op mode tl tr hl hr hne
    obtain ⟨idl, hidl, htl⟩ := (bind_eq_ok _ _ _).1 hl
    obtain ⟨idr, hidr, htr⟩ := (bind_eq_ok _ _ _).1 hr
    have hbeq : (tl == tr) = false := by simpa using hne
    unfold SortMergeJoin.create
    simp only [bind, Except.bind]
    cases DebugAssert (mode != JoinMode.Cross && (some (a, b)).isSome) _ with
    | error e => exact ⟨e, rfl⟩
    | ok _ =>
      cases DebugAssert (some input_left).isSome _ with
      | error e => exact ⟨e, rfl⟩
      | ok _ =>
        cases DebugAssert (some input_right).isSome _ with
        | error e => exact ⟨e, rfl⟩
        | ok _ =>
          cases DebugAssert (op == "=" || op == "<" || op == ">" || op == "<=" || op == ">=") _ with
          | error e => exact ⟨e, rfl⟩
          | ok _ =>
            cases DebugAssert (op == "=" || mode == JoinMode.Inner) _ with
            | error e => exact ⟨e, rfl⟩
            | ok _ =>
              cases DebugAssert (some (a, b)).isSome _ with
              | error e => exact ⟨e, rfl⟩
              | ok _ =>
                simp only [hidl, hidr, htl, htr, hbeq, DebugAssert_false]
                exact ⟨_, rfl⟩
  · intro left right column_names op mode join h
    unfold SortMergeJoin.create at h
    obtain ⟨_, _, h⟩ := (bind_eq_ok _ _ _).1 h
    obtain ⟨_, _, h⟩ := (bind_eq_ok _ _ _).1 h
    obtain ⟨_, _, h⟩ := (bind_eq_ok _ _ _).1 h
    obtain ⟨_, _, h⟩ := (bind_eq_ok _ _ _).1 h
    obtain ⟨_, _, h⟩ := (bind_eq_ok _ _ _).1 h
    obtain ⟨_, _, h⟩ := (bind_eq_ok _ _ _).1 h
    rcases left with _ | input_left
    · cases h
    rcases right with _ | input_right
    · cases h
    rcases column_names with _ | ⟨a, b⟩
    · cases h
    obtain ⟨idl, hidl, h⟩ := (bind_eq_ok _ _ _).1 h
    obtain ⟨idr, hidr, h⟩ := (bind_eq_ok _ _ _).1 h
    obtain ⟨tl, htl, h⟩ := (bind_eq_ok _ _ _).1 h
    obtain ⟨tr, htr, h⟩ := (bind_eq_ok _ _ _).1 h
    obtain ⟨u, hu, h⟩ := (bind_eq_ok _ _ _).1 h
    have heq : tl = tr := by simpa using (DebugAssert_eq_ok _ _ u).1 hu
    have hj : join._impl = tl := by
      simp only [pure, Except.pure] at h
      injection h with h
      rw [← h]
    refine ⟨input_left, input_right, a, b, rfl, rfl, rfl, ?_, ?_⟩
    · rw [hj]
      exact (bind_eq_ok _ _ _).2 ⟨idl, hidl, htl⟩
    · rw [hj, heq]
      exact (bind_eq_ok _ _ _).2 ⟨idr, hidr, htr⟩

/-- Witness of C18: a join of an `int` column with a `float` column is rejected, and the
join of two `int` columns is built for the type `int`. -/
theorem SortMergeJoin_create_column_types_witness :
    (∃ e, SortMergeJoin.create (some ⟨⟨[("a", "int")]⟩⟩) (some ⟨⟨[("b", "float")]⟩⟩)
        (some ("a", "b")) "=" .Inner = .error e) ∧
    (∃ input_left input_right left_column_name right_column_name,
      some (⟨⟨[("a", "int")]⟩⟩ : AbstractOperator) = some input_left ∧
      some (⟨⟨[("b", "int")]⟩⟩ : AbstractOperator) = some input_right ∧
      some ("a", "b") = some (left_column_name, right_column_name) ∧
      (input_left.get_output.column_id_by_name left_column_name >>=
        input_left.get_output.column_type) = .ok "int" ∧
      (input_right.get_output.column_id_by_name right_column_name >>=
        input_right.get_output.column_type) = .ok "int") :=
  ⟨SortMergeJoin_create_column_types.1 ⟨⟨[("a", "int")]⟩⟩ ⟨⟨[("b", "float")]⟩⟩ "a" "b" "=" .Inner
      "int" "float" rfl rfl (by decide),
    SortMergeJoin_create_column_types.2 (some ⟨⟨[("a", "int")]⟩⟩) (some ⟨⟨[("b", "int")]⟩⟩)
      (some ("a", "b")) "=" .Inner
      ⟨⟨⟨[("a", "int")]⟩⟩, ⟨⟨[("b", "int")]⟩⟩, ("a", "b"), "=", .Inner, "int"⟩ rfl⟩

end constructor_types
/-! ## Theorems: runs and concatenation -/

section run_theorems

open SortMergeJoinImpl

variable {T : Type} [LinearOrder T]

/-- The loop of `_run_length`, started inside a stretch of keys equal to `value`, stops at
the end of that stretch. -/
theorem run_length_loop_maximal (values : Partition T) (value : T) (start_index : Nat) :
    ∀ (bound offset : Nat), 1 ≤ offset → start_index + offset ≤ values.length →
      values.length - (start_index + offset) ≤ bound →
      (∀ i entry, start_index ≤ i → i < start_index + offset → values[i]? = some entry →
        entry.2 = value) →
      ∃ n, while_loop
        (fun offset =>
          decide (start_index + offset < values.length) &&
            (match values[start_index + offset]? with
              | some entry => decide (value = entry.2)
              | none => false))
        (fun offset => .ok (offset + 1)) bound offset = .ok n ∧
        1 ≤ n ∧ start_index + n ≤ values.length ∧
        (∀ i entry, start_index ≤ i → i < start_index + n → values[i]? = some entry →
          entry.2 = value) ∧
        (start_index + n = values.length ∨
          ∃ entry, values[start_index + n]? = some entry ∧ entry.2 ≠ value) := by
  intro bound
  induction bound with
  | zero =>
    intro offset h1 h2 h3 hrun
    refine ⟨offset, ?_, h1, h2, hrun, Or.inl (by omega)⟩
    have : ¬ (start_index + offset < values.length) := by omega
    simp [while_loop, this]
  | succ b ih =>
    intro offset h1 h2 h3 hrun
    by_cases hlt : start_index + offset < values.length
    · have hget := List.getElem?_eq_getElem hlt
      by_cases heq : value = (values[start_index + offset]).2
      · obtain ⟨n, hn, hn1, hn2, hn3, hn4⟩ := ih (offset + 1) (by omega) (by omega) (by omega)
          (by
            intro i entry hi1 hi2 hi3
            by_cases hi : i < start_index + offset
            · exact hrun i entry hi1 hi hi3
            · have : i = start_index + offset := by omega
              subst this
              rw [hget] at hi3
              injection hi3 with hi3
              rw [← hi3]
              exact heq.symm)
        refine ⟨n, ?_, hn1, hn2, hn3, hn4⟩
        rw [while_loop, if_pos (by simp [hlt, hget, heq.symm])]
        exact hn
      · refine ⟨offset, ?_, h1, h2, hrun, Or.inr ⟨_, hget, fun h => heq h.symm⟩⟩
        rw [while_loop, if_neg (by simp [hlt, hget, heq])]
    · refine ⟨offset, ?_, h1, h2, hrun, Or.inl (by omega)⟩
      rw [while_loop, if_neg (by simp [hlt])]

/-- C19: for a start index inside the vector `_run_length` returns the length `n ≥ 1` of
the maximal run that starts there: the keys at `start_index, ..., start_index + n - 1`
equal the key at `start_index`, and the run ends at the end of the vector or before a
different key. -/
theorem _run_length_maximal_run (start_index : Nat) (values : Partition T)
    (h : start_index < values.length) :
    ∃ n, _run_length start_index values = .ok n ∧ 1 ≤ n ∧ start_index + n ≤ values.length ∧
      (∀ i, start_index ≤ i → i < start_index + n →
        (values[i]?).map Prod.snd = (values[start_index]?).map Prod.snd) ∧
      (start_index + n = values.length ∨
        ((values[start_index + n]?).map Prod.snd ≠ (values[start_index]?).map Prod.snd ∧
          start_index + n < values.length)) := by
  have hget := List.getElem?_eq_getElem h
  obtain ⟨n, hn, h1, h2, h3, h4⟩ := run_length_loop_maximal values (values.get ⟨start_index, h⟩).2
    start_index values.length 1 (le_refl _) (by omega) (by omega)
    (by
      intro i entry hi1 hi2 hi3
      have : i = start_index := by omega
      subst this
      rw [hget] at hi3
      injection hi3 with hi3
      rw [← hi3]
      rfl)
  refine ⟨n, ?_, h1, h2, ?_, ?_⟩
  · simp only [_run_length, vector_at_of_lt values start_index h, bind, Except.bind]
    exact hn
  · intro i hi1 hi2
    have hi : i < values.length := by omega
    rw [List.getElem?_eq_getElem hi, hget]
    simp only [Option.map_some']
    congr 1
    exact h3 i _ hi1 hi2 (List.getElem?_eq_getElem hi)
  · rcases h4 with h4 | ⟨entry, he, hne⟩
    · exact Or.inl h4
    · refine Or.inr ⟨?_, lt_length_of_some _ _ _ he⟩
      rw [he, hget]
      simp only [Option.map_some', ne_eq, Option.some.injEq]
      exact hne

/-- Witness of C19: in the keys `1, 1, 2` the run that starts at index 0 has length 2. -/
theorem _run_length_maximal_run_witness :
    ∃ n, _run_length 0 [(row_a, (1 : Nat)), (row_b, 1), (row_c, 2)] = .ok n ∧ 1 ≤ n ∧
      0 + n ≤ [(row_a, (1 : Nat)), (row_b, 1), (row_c, 2)].length ∧
      (∀ i, 0 ≤ i → i < 0 + n →
        ([(row_a, (1 : Nat)), (row_b, 1), (row_c, 2)][i]?).map Prod.snd =
          ([(row_a, (1 : Nat)), (row_b, 1), (row_c, 2)][0]?).map Prod.snd) ∧
      (0 + n = [(row_a, (1 : Nat)), (row_b, 1), (row_c, 2)].length ∨
        (([(row_a, (1 : Nat)), (row_b, 1), (row_c, 2)][0 + n]?).map Prod.snd ≠
            ([(row_a, (1 : Nat)), (row_b, 1), (row_c, 2)][0]?).map Prod.snd ∧
          0 + n < [(row_a, (1 : Nat)), (row_b, 1), (row_c, 2)].length)) :=
  _run_length_maximal_run 0 [(row_a, (1 : Nat)), (row_b, 1), (row_c, 2)] (by decide)

end run_theorems
section concatenate_theorems

open SortMergeJoinImpl

theorem foldl_append_eq (pos_lists : List PosList) :
    ∀ output : PosList,
      pos_lists.foldl (fun output pos_list => output ++ pos_list) output
        = output ++ pos_lists.flatten := by
  induction pos_lists with
  | nil => intro output; simp
  | cons l ls ih => intro output; simp [List.foldl_cons, ih, List.append_assoc]

theorem _concatenate_pos_lists_eq_flatten (pos_lists : List PosList) :
    _concatenate_pos_lists pos_lists = pos_lists.flatten := by
  simp [_concatenate_pos_lists, foldl_append_eq]

theorem zip_flatten_of_lengths (lefts rights : List PosList)
    (h : List.Forall₂ (fun l r => l.length = r.length) lefts rights) :
    List.zip lefts.flatten rights.flatten = (List.zipWith List.zip lefts rights).flatten := by
  induction h with
  | nil => simp
  | cons hlen _ ih =>
    simp only [List.flatten_cons, List.zipWith_cons_cons]
    rw [List.zip_append hlen, ih]

/-- C20: `_concatenate_pos_lists` returns the concatenation of the lists in their order,
so its length is the sum of the lengths; and when the left and the right list of every
partition have the same length, zipping the two concatenations gives the per-partition
pairs, in order. -/
theorem _concatenate_pos_lists_spec :
    (∀ pos_lists : List PosList,
      _concatenate_pos_lists pos_lists = pos_lists.flatten ∧
      (_concatenate_pos_lists pos_lists).length = (pos_lists.map List.length).sum) ∧
    (∀ lefts rights : List PosList,
      List.Forall₂ (fun l r => l.length = r.length) lefts rights →
      List.zip (_concatenate_pos_lists lefts) (_concatenate_pos_lists rights)
        = (List.zipWith List.zip lefts rights).flatten) := by
  constructor
  · intro pos_lists
    refine ⟨_concatenate_pos_lists_eq_flatten pos_lists, ?_⟩
    rw [_concatenate_pos_lists_eq_flatten, List.length_flatten]
  · intro lefts rights h
    rw [_concatenate_pos_lists_eq_flatten, _concatenate_pos_lists_eq_flatten]
    exact zip_flatten_of_lengths lefts rights h

/-- Witness of C20: two partitions with the pairs `(a,x), (b,x)` and `(c,y), (c,z)`. -/
theorem _concatenate_pos_lists_spec_witness :
    (_concatenate_pos_lists [[row_a, row_b], [row_c, row_c]] = [row_a, row_b, row_c, row_c] ∧
      (_concatenate_pos_lists [[row_a, row_b], [row_c, row_c]]).length = 4) ∧
    List.zip (_concatenate_pos_lists [[row_a, row_b], [row_c, row_c]])
        (_concatenate_pos_lists [[row_x, row_x], [row_y, row_z]])
      = [(row_a, row_x), (row_b, row_x), (row_c, row_y), (row_c, row_z)] :=
  ⟨_concatenate_pos_lists_spec.1 [[row_a, row_b], [row_c, row_c]],
    _concatenate_pos_lists_spec.2 [[row_a, row_b], [row_c, row_c]] [[row_x, row_x], [row_y, row_z]]
      (List.Forall₂.cons rfl (List.Forall₂.cons rfl List.Forall₂.nil))⟩

end concatenate_theorems
/-! ## Theorems: TableBuilder -/

section table_builder_theorems

open TableBuilder

variable {V : Type} {k : Nat}

theorem create_data_invariant (chunk_size : Nat) :
    data_invariant (create chunk_size : TableBuilder V k) [] := by
  refine ⟨?_, ?_, ?_⟩
  · intro j; simp [create]
  · intro i j; simp [create]
  · intro chunk h; simp [create] at h

theorem append_row_data_invariant (b : TableBuilder V k) (rows : List (Fin (k + 1) → V))
    (row : Fin (k + 1) → V) (h : data_invariant b rows) :
    data_invariant (b.append_row row) (rows ++ [row]) := by
  obtain ⟨h1, h2, h3⟩ := h
  unfold append_row
  simp only
  split_ifs
  · refine ⟨?_, ?_, ?_⟩
    · intro j
      simp only [_emit_chunk, BuilderTable.emplace_chunk, List.map_append, List.map_cons,
        List.map_nil, List.flatten_append, List.flatten_cons, List.flatten_nil,
        List.append_nil]
      rw [← List.append_assoc, h1 j]
    · intro i j; simp [_emit_chunk]
    · intro chunk hc i j
      simp only [_emit_chunk, BuilderTable.emplace_chunk, List.mem_append,
        List.mem_singleton] at hc
      rcases hc with hc | hc
      · exact h3 chunk hc i j
      · subst hc
        simp only [List.length_append, List.length_singleton]
        rw [h2 i j]
  · refine ⟨?_, ?_, ?_⟩
    · intro j
      simp only [List.map_append, List.map_cons, List.map_nil]
      rw [← List.append_assoc, h1 j]
    · intro i j
      simp only [List.length_append, List.length_singleton]
      rw [h2 i j]
    · exact h3

theorem foldl_append_row_data_invariant (rows : List (Fin (k + 1) → V)) :
    ∀ (b : TableBuilder V k) (before : List (Fin (k + 1) → V)), data_invariant b before →
      data_invariant (rows.foldl append_row b) (before ++ rows) := by
  induction rows with
  | nil => intro b before h; simpa using h
  | cons row rows ih =>
    intro b before h
    have := ih (b.append_row row) (before ++ [row]) (append_row_data_invariant b before row h)
    simpa using this

theorem create_size_invariant (c : Nat) (hc : 1 ≤ c) :
    size_invariant (create c : TableBuilder V k) c 0 := by
  refine ⟨rfl, ?_, ?_, ?_⟩
  · intro chunk h; simp [create] at h
  · simp [create]; omega
  · simp [create]

theorem append_row_size_invariant (b : TableBuilder V k) (c n : Nat)
    (row : Fin (k + 1) → V) (h : size_invariant b c n) :
    size_invariant (b.append_row row) c (n + 1) := by
  obtain ⟨h1, h2, h3, h4⟩ := h
  unfold append_row
  simp only [_current_chunk_row_count, List.length_append, List.length_singleton, h1]
  split_ifs with hfull
  · refine ⟨h1, ?_, ?_, ?_⟩
    · intro chunk hc
      simp only [_emit_chunk, BuilderTable.emplace_chunk, List.mem_append,
        List.mem_singleton] at hc
      rcases hc with hc | hc
      · exact h2 chunk hc
      · subst hc
        simp only [List.length_append, List.length_singleton]
        omega
    · simp only [_emit_chunk, List.length_nil]; omega
    · simp only [_emit_chunk, BuilderTable.emplace_chunk, List.length_append,
        List.length_singleton, List.length_nil, Nat.add_mul]
      omega
  · refine ⟨h1, h2, ?_, ?_⟩
    · simp only [List.length_append, List.length_singleton]; omega
    · simp only [List.length_append, List.length_singleton]; omega

theorem foldl_append_row_size_invariant (c : Nat) (rows : List (Fin (k + 1) → V)) :
    ∀ (b : TableBuilder V k) (n : Nat), size_invariant b c n →
      size_invariant (rows.foldl append_row b) c (n + rows.length) := by
  induction rows with
  | nil => intro b n h; simpa using h
  | cons row rows ih =>
    intro b n h
    have := ih (b.append_row row) (n + 1) (append_row_size_invariant b c n row h)
    simp only [List.foldl_cons, List.length_cons]
    rw [show n + (rows.length + 1) = n + 1 + rows.length by omega]
    exact this

theorem ceil_div_of_multiple (q c : Nat) (hc : 1 ≤ c) : (q * c + c - 1) / c = q := by
  have h : (q + 1) * c = q * c + c := by ring
  exact Nat.div_eq_of_lt_le (by omega) (by omega)

theorem ceil_div_of_remainder (q c m : Nat) (h0 : 0 < m) (hm : m < c) :
    (q * c + m + c - 1) / c = q + 1 := by
  have h : (q + 1 + 1) * c = q * c + c + c := by ring
  have h1 : (q + 1) * c = q * c + c := by ring
  exact Nat.div_eq_of_lt_le (by omega) (by omega)

/-- The chunks of a built table: full chunks, followed by one chunk with the remaining rows
when the number of rows is not a multiple of the chunk size. -/
theorem build_chunks (c : Nat) (hc : 1 ≤ c) (rows : List (Fin (k + 1) → V)) :
    ∃ (full : List (Fin (k + 1) → List V)) (m : Nat),
      (∀ chunk ∈ full, ∀ j, (chunk j).length = c) ∧ m < c ∧
      full.length * c + m = rows.length ∧
      ((m = 0 ∧ (build c rows).chunks = full) ∨
        (0 < m ∧ ∃ last, (build c rows).chunks = full ++ [last] ∧ ∀ j, (last j).length = m)) := by
  have hs := foldl_append_row_size_invariant c rows (create c : TableBuilder V k) 0
    (create_size_invariant c hc)
  have hd := foldl_append_row_data_invariant rows (create c : TableBuilder V k) []
    (create_data_invariant c)
  obtain ⟨_, s2, s3, s4⟩ := hs
  obtain ⟨_, d2, d3⟩ := hd
  refine ⟨(rows.foldl append_row (create c))._table.chunks,
    ((rows.foldl append_row (create c))._column_vectors 0).length, ?_, s3, by omega, ?_⟩
  · intro chunk hchunk j
    rw [d3 chunk hchunk j 0]
    exact s2 chunk hchunk
  · unfold build finish_table
    simp only [_current_chunk_row_count]
    split_ifs with hm
    · right
      refine ⟨hm, _, rfl, fun j => d2 j 0⟩
    · left
      exact ⟨by omega, rfl⟩

/-- C13: for every chunk size `c ≥ 1`, `n` calls of `append_row` followed by
`finish_table` emit `ceil(n / c)` chunks; every chunk but the last holds exactly `c` rows
in each column, the last one between 1 and `c`, and no chunk is empty. -/
theorem TableBuilder_chunk_sizes (c : Nat) (hc : 1 ≤ c) (rows : List (Fin (k + 1) → V)) :
    (build c rows).chunks.length = (rows.length + c - 1) / c ∧
    (∀ chunk ∈ (build c rows).chunks.dropLast, ∀ j, (chunk j).length = c) ∧
    (∀ chunk, (build c rows).chunks.getLast? = some chunk →
      ∀ j, 1 ≤ (chunk j).length ∧ (chunk j).length ≤ c) ∧
    (∀ chunk ∈ (build c rows).chunks, ∀ j, (chunk j).length ≠ 0) := by
  obtain ⟨full, m, hfull, hm, hn, hcase⟩ := build_chunks c hc rows
  rcases hcase with ⟨hm0, hchunks⟩ | ⟨hmpos, last, hchunks, hlast⟩
  · rw [hchunks]
    subst hm0
    refine ⟨?_, ?_, ?_, ?_⟩
    · have hn1 : rows.length = full.length * c := by omega
      rw [hn1]
      exact (ceil_div_of_multiple full.length c hc).symm
    · intro chunk hchunk j
      exact hfull chunk (List.mem_of_mem_dropLast hchunk) j
    · intro chunk hchunk j
      have := hfull chunk (List.mem_of_mem_getLast? hchunk) j
      omega
    · intro chunk hchunk j
      have := hfull chunk hchunk j
      omega
  · rw [hchunks]
    refine ⟨?_, ?_, ?_, ?_⟩
    · rw [← hn, List.length_append, List.length_singleton]
      exact (ceil_div_of_remainder full.length c m hmpos hm).symm
    · intro chunk hchunk j
      rw [List.dropLast_concat] at hchunk
      exact hfull chunk hchunk j
    · intro chunk hchunk j
      rw [List.getLast?_concat] at hchunk
      injection hchunk with hchunk
      subst hchunk
      rw [hlast j]
      omega
    · intro chunk hchunk j
      rcases List.mem_append.1 hchunk with h | h
      · have := hfull chunk h j
        omega
      · rw [List.mem_singleton] at h
        subst h
        rw [hlast j]
        omega

/-- Witness of C13: three rows of one column with chunk size 2 give the chunks `[1, 2]`
and `[3]`. -/
theorem TableBuilder_chunk_sizes_witness :
    ((build 2 [fun _ => 1, fun _ => 2, fun _ => 3] : BuilderTable Nat 0).chunks.map
        (fun chunk => chunk 0) = [[1, 2], [3]]) ∧
    ((build 2 [fun _ => 1, fun _ => 2, fun _ => 3] : BuilderTable Nat 0).chunks.length
        = (3 + 2 - 1) / 2 ∧
      (∀ chunk ∈ (build 2 [fun _ => 1, fun _ => 2, fun _ => 3] : BuilderTable Nat 0).chunks.dropLast,
        ∀ j, (chunk j).length = 2) ∧
      (∀ chunk,
        (build 2 [fun _ => 1, fun _ => 2, fun _ => 3] : BuilderTable Nat 0).chunks.getLast?
          = some chunk → ∀ j, 1 ≤ (chunk j).length ∧ (chunk j).length ≤ 2) ∧
      (∀ chunk ∈ (build 2 [fun _ => 1, fun _ => 2, fun _ => 3] : BuilderTable Nat 0).chunks,
        ∀ j, (chunk j).length ≠ 0)) :=
  ⟨rfl, TableBuilder_chunk_sizes 2 (by decide) [fun _ => 1, fun _ => 2, fun _ => 3]⟩

/-- C14: after any sequence of `append_row` calls followed by `finish_table`, the emitted
chunks concatenated in order are, column by column, the appended values in append order;
all columns of an emitted chunk have the same length; and the pending vectors are empty
after `_emit_chunk`. -/
theorem TableBuilder_preserves_rows (c : Nat) (rows : List (Fin (k + 1) → V)) :
    (∀ j, ((build c rows).chunks.map (fun chunk => chunk j)).flatten
      = rows.map (fun row => row j)) ∧
    (∀ chunk ∈ (build c rows).chunks, ∀ i j, (chunk i).length = (chunk j).length) ∧
    (∀ (b : TableBuilder V k) (j : Fin (k + 1)), b._emit_chunk._column_vectors j = []) := by
  have hd := foldl_append_row_data_invariant rows (create c : TableBuilder V k) []
    (create_data_invariant c)
  obtain ⟨d1, d2, d3⟩ := hd
  simp only [List.nil_append] at d1
  refine ⟨?_, ?_, fun b j => rfl⟩
  · intro j
    unfold build finish_table
    simp only [_current_chunk_row_count]
    split_ifs with hm
    · simp only [_emit_chunk, BuilderTable.emplace_chunk, List.map_append, List.map_cons,
        List.map_nil, List.flatten_append, List.flatten_cons, List.flatten_nil,
        List.append_nil]
      exact d1 j
    · have hj : (rows.foldl append_row (create c))._column_vectors j = [] := by
        apply List.eq_nil_of_length_eq_zero
        rw [d2 j 0]
        omega
      rw [← d1 j, hj, List.append_nil]
  · intro chunk hchunk i j
    unfold build finish_table at hchunk
    simp only [_current_chunk_row_count] at hchunk
    split_ifs at hchunk with hm
    · simp only [_emit_chunk, BuilderTable.emplace_chunk, List.mem_append,
        List.mem_singleton] at hchunk
      rcases hchunk with h | h
      · exact d3 chunk h i j
      · subst h
        exact d2 i j
    · exact d3 chunk hchunk i j

end table_builder_theorems
/-! ## Theorems: output assembly -/

section output_assembly

open SortMergeJoinImpl storage

/-- A counting loop that reads `v[i]` for every index of a vector is the loop over the
elements of the vector. -/
theorem for_loop_vector_index {α σ : Type} (f : α → σ → Except Failure σ) (v : List α) :
    ∀ (count index : Nat) (s : σ), index + count = v.length →
      for_loop (fun i s1 => do
          let x ← vector_index v i
          f x s1) count index s
        = for_each f (v.drop index) s := by
  intro count
  induction count with
  | zero =>
    intro index s h
    rw [List.drop_of_length_le (by omega)]
    rfl
  | succ n ih =>
    intro index s h
    have hlt : index < v.length := by omega
    rw [List.drop_eq_getElem_cons hlt]
    simp only [for_loop, for_each, vector_index_of_lt v index hlt, bind, Except.bind]
    have hget : v.get ⟨index, hlt⟩ = v[index] := rfl
    rw [hget]
    cases f v[index] s with
    | error e => rfl
    | ok s1 => exact ih (index + 1) s1 (by omega)

/-- A `for` loop whose body takes an invariant from an index to the next one ends in a
state that satisfies the invariant at the final index. -/
theorem for_loop_invariant {σ : Type} (P : Nat → σ → Prop) (body : Nat → σ → Except Failure σ) :
    ∀ (count index : Nat) (s : σ), P index s →
      (∀ i s1, index ≤ i → i < index + count → P i s1 → ∃ s2, body i s1 = .ok s2 ∧ P (i + 1) s2) →
      ∃ s2, for_loop body count index s = .ok s2 ∧ P (index + count) s2 := by
  intro count
  induction count with
  | zero => intro index s hs _; exact ⟨s, rfl, hs⟩
  | succ n ih =>
    intro index s hs hbody
    obtain ⟨s1, h1, hP1⟩ := hbody index s (le_refl _) (by omega) hs
    obtain ⟨s2, h2, hP2⟩ := ih (index + 1) s1 hP1
      (fun i t hi hlt ht => hbody i t (by omega) (by omega) ht)
    refine ⟨s2, by simp [for_loop, h1, h2], ?_⟩
    rw [show index + (n + 1) = index + 1 + n by omega]
    exact hP2

theorem for_loop_invariant_imp {σ : Type} (P : Nat → σ → Prop) (R : σ → Prop)
    (body : Nat → σ → Except Failure σ) (count index : Nat) (s : σ) (hinit : P index s)
    (hstep : ∀ i s1, index ≤ i → i < index + count → P i s1 →
      ∃ s2, body i s1 = .ok s2 ∧ P (i + 1) s2)
    (hfinal : ∀ s2, P (index + count) s2 → R s2) :
    ∃ s2, for_loop body count index s = .ok s2 ∧ R s2 := by
  obtain ⟨s2, h1, h2⟩ := for_loop_invariant P body count index s hinit hstep
  exact ⟨s2, h1, hfinal s2 h2⟩

/-- The first loop of `_dereference_pos_list`: a body that appends the position list of a
reference column collects one position list per chunk. -/
theorem collect_pos_lists (column_id : Nat)
    (f : Chunk → List PosList → Except Failure (List PosList))
    (hf : ∀ (chunk : Chunk) (acc : List PosList) rt rc pl,
      chunk.columns[column_id]? = some (BaseColumn.ReferenceColumn rt rc pl) →
      f chunk acc = .ok (acc ++ [pl])) :
    ∀ (chunks : List Chunk) (input_pos_lists : List PosList),
      (∀ chunk ∈ chunks, ∃ column, chunk.columns[column_id]? = some column ∧
        column.is_reference = true) →
      ∃ collected, for_each f chunks input_pos_lists = .ok (input_pos_lists ++ collected) ∧
        collected.length = chunks.length ∧
        ∀ (i : Nat) (chunk : Chunk), chunks[i]? = some chunk → ∃ rt rc pl,
          chunk.columns[column_id]? = some (BaseColumn.ReferenceColumn rt rc pl) ∧
          collected[i]? = some pl := by
  intro chunks
  induction chunks with
  | nil =>
    intro acc _
    exact ⟨[], by simp [for_each], rfl, fun i chunk h => by simp at h⟩
  | cons chunk chunks ih =>
    intro acc h
    obtain ⟨column, hcol, href⟩ := h chunk (List.mem_cons_self _ _)
    cases column with
    | ValueColumn values => simp [BaseColumn.is_reference] at href
    | ReferenceColumn rt rc pl =>
      obtain ⟨collected, hc, hlen, hget⟩ := ih (acc ++ [pl])
        (fun c hc => h c (List.mem_cons_of_mem _ hc))
      refine ⟨pl :: collected, ?_, by simp [hlen], ?_⟩
      · simp only [for_each, hf chunk acc rt rc pl hcol]
        rw [hc]
        simp
      · intro i c hi
        cases i with
        | zero =>
          simp only [List.getElem?_cons_zero, Option.some.injEq] at hi
          subst hi
          exact ⟨rt, rc, pl, hcol, by simp⟩
        | succ i =>
          simp only [List.getElem?_cons_succ] at hi
          obtain ⟨rt2, rc2, pl2, h1, h2⟩ := hget i c hi
          exact ⟨rt2, rc2, pl2, h1, by simpa using h2⟩

/-- The second loop of `_dereference_pos_list`: a body that appends the entry a row points
to maps the position list entry by entry. -/
theorem map_positions (g : RowID → Option RowID)
    (f : RowID → PosList → Except Failure PosList)
    (hf : ∀ (row : RowID) (acc : PosList) entry, g row = some entry →
      f row acc = .ok (acc ++ [entry])) :
    ∀ (pos_list : PosList) (new_pos_list : PosList),
      (∀ row ∈ pos_list, (g row).isSome = true) →
      ∃ mapped, for_each f pos_list new_pos_list = .ok (new_pos_list ++ mapped) ∧
        mapped.map some = pos_list.map g := by
  intro pos_list
  induction pos_list with
  | nil => intro acc _; exact ⟨[], by simp [for_each], rfl⟩
  | cons row rows ih =>
    intro acc h
    have hrow := h row (List.mem_cons_self _ _)
    obtain ⟨entry, hentry⟩ := Option.isSome_iff_exists.1 hrow
    obtain ⟨mapped, hm, hmap⟩ := ih (acc ++ [entry]) (fun r hr => h r (List.mem_cons_of_mem _ hr))
    refine ⟨entry :: mapped, ?_, ?_⟩
    · simp only [for_each, hf row acc entry hentry]
      rw [hm]
      simp
    · simp [hmap, hentry]

/-- The two loops of `_dereference_pos_list` one after the other. -/
theorem dereference_loops (input_table : storage.Table) (column_id : Nat) (pos_list : PosList)
    (f1 : Chunk → List PosList → Except Failure (List PosList))
    (f2 : List PosList → RowID → PosList → Except Failure PosList)
    (hf1 : ∀ (chunk : Chunk) (acc : List PosList) rt rc pl,
      chunk.columns[column_id]? = some (BaseColumn.ReferenceColumn rt rc pl) →
      f1 chunk acc = .ok (acc ++ [pl]))
    (hf2 : ∀ (input_pos_lists : List PosList) (row : RowID) (acc : PosList)
      (input_pos_list : PosList) (entry : RowID),
      input_pos_lists[row.chunk_id]? = some input_pos_list →
      input_pos_list[row.chunk_offset]? = some entry →
      f2 input_pos_lists row acc = .ok (acc ++ [entry]))
    (h1 : input_table.reference_in_every_chunk column_id)
    (h2 : ∀ row ∈ pos_list, (referenced_position input_table column_id row).isSome = true) :
    ∃ new_pos_list,
      (for_each f1 input_table.chunks [] >>= fun input_pos_lists =>
        for_each (f2 input_pos_lists) pos_list []) = .ok new_pos_list ∧
      new_pos_list.length = pos_list.length ∧
      new_pos_list.map some = pos_list.map (referenced_position input_table column_id) := by
  obtain ⟨collected, hc, hlen, hget⟩ :=
    collect_pos_lists column_id f1 hf1 input_table.chunks [] h1
  obtain ⟨mapped, hm, hmap⟩ := map_positions (referenced_position input_table column_id)
    (f2 ([] ++ collected))
    (by
      intro row acc entry hentry
      unfold referenced_position at hentry
      cases hchunk : input_table.chunks[row.chunk_id]? with
      | none => rw [hchunk] at hentry; cases hentry
      | some chunk =>
        rw [hchunk] at hentry
        obtain ⟨rt, rc, pl, hcol, hpl⟩ := hget row.chunk_id chunk hchunk
        simp only [hcol] at hentry
        exact hf2 _ row acc pl entry (by simpa using hpl) hentry)
    pos_list [] h2
  refine ⟨mapped, ?_, ?_, hmap⟩
  · rw [hc]
    simpa [bind, Except.bind] using hm
  · have := congrArg List.length hmap
    simpa using this

/-- The function `_dereference_pos_list` succeeds when the column is a reference column in
every chunk and every row of the position list points to an entry, and then returns these
entries in the order of the rows. -/
theorem _dereference_pos_list_spec (input_table : storage.Table) (column_id : Nat)
    (pos_list : PosList)
    (h1 : input_table.reference_in_every_chunk column_id)
    (h2 : ∀ row ∈ pos_list, (referenced_position input_table column_id row).isSome = true) :
    ∃ new_pos_list, _dereference_pos_list input_table column_id pos_list = .ok new_pos_list ∧
      new_pos_list.length = pos_list.length ∧
      new_pos_list.map some = pos_list.map (referenced_position input_table column_id) := by
  unfold _dereference_pos_list
  simp only [storage.Table.get_chunk, storage.Table.chunk_count]
  rw [for_loop_vector_index _ input_table.chunks input_table.chunks.length 0 [] (by omega),
    List.drop_zero]
  refine dereference_loops input_table column_id pos_list _ _ ?_ ?_ h1 h2
  · intro chunk acc rt rc pl hcol
    simp only [Chunk.get_column, vector_index_of_some _ _ _ hcol, bind, Except.bind, pure,
      Except.pure]
  · intro input_pos_lists row acc input_pos_list entry hl he
    simp only [vector_at, hl, he, bind, Except.bind, pure, Except.pure]

theorem add_column_to_chunk_zero (table : storage.Table) (chunk0 : Chunk) (rest : List Chunk)
    (column : BaseColumn) (h : table.chunks = chunk0 :: rest) :
    table.add_column_to_chunk 0 column
      = .ok (.mk table.column_names table.column_types
          (Chunk.mk (chunk0.columns ++ [column]) :: rest)) := by
  simp [storage.Table.add_column_to_chunk, storage.Table.get_chunk, vector_index, h,
    Chunk.add_column, bind, Except.bind, pure, Except.pure]

/-- The function `_add_output_columns` on an input table whose schema and chunk 0 have the
same number of columns: it succeeds, appends one column per input column to chunk 0 of
the output table and one definition per input column to its schema. -/
theorem _add_output_columns_spec (output_table input_table : storage.Table) (prefix_ : String)
    (pos_list : PosList) (chunk0 out0 : Chunk) (rest : List Chunk)
    (h_names : input_table.column_names.length = input_table.col_count)
    (h_chunk0 : input_table.chunks[0]? = some chunk0)
    (h_cols : chunk0.columns.length = input_table.col_count)
    (h_out : output_table.chunks = out0 :: rest)
    (h_ref : ∀ column_id column, chunk0.columns[column_id]? = some column →
      column.is_reference = true →
      input_table.reference_in_every_chunk column_id ∧
        ∀ row ∈ pos_list, (referenced_position input_table column_id row).isSome = true) :
    ∃ result,
      _add_output_columns output_table input_table prefix_ pos_list = .ok result ∧
      ∃ new_columns,
        result.chunks = Chunk.mk (out0.columns ++ new_columns) :: rest ∧
        new_columns.length = input_table.col_count ∧
        (∀ column_id column, new_columns[column_id]? = some column →
          flattened_column input_table chunk0 pos_list column_id column) ∧
        result.column_names = output_table.column_names ++
          input_table.column_names.map (fun name => prefix_ ++ name) ∧
        result.column_types = output_table.column_types ++ input_table.column_types := by
  unfold _add_output_columns
  refine for_loop_invariant_imp
    (fun i (out : storage.Table) => ∃ new_columns,
      out.chunks = Chunk.mk (out0.columns ++ new_columns) :: rest ∧
      new_columns.length = i ∧
      (∀ column_id column, new_columns[column_id]? = some column →
        flattened_column input_table chunk0 pos_list column_id column) ∧
      out.column_names = output_table.column_names ++
        (input_table.column_names.take i).map (fun name => prefix_ ++ name) ∧
      out.column_types = output_table.column_types ++ input_table.column_types.take i)
    _ _ input_table.col_count 0 output_table ?init ?step ?final
  case final =>
    intro result ⟨new_columns, h1, h2, h3, h4, h5⟩
    refine ⟨new_columns, h1, by simpa using h2, h3, ?_, ?_⟩
    · rw [h4, zero_add, ← h_names, List.take_length]
    · rw [h5, zero_add]
      simp [storage.Table.col_count]
  case init =>
    exact ⟨[], by rw [h_out]; cases out0; simp [Chunk.columns], rfl,
      fun j col h => by simp at h, by simp, by simp⟩
  case step =>
    intro i out _ hi ⟨cols, c1, c2, c3, c4, c5⟩
    have hi1 : i < input_table.column_names.length := by omega
    have hi2 : i < input_table.column_types.length := by
      simp only [storage.Table.col_count] at hi; omega
    have hi3 : i < chunk0.columns.length := by omega
    have hchunks : (out.add_column_definition (prefix_ ++ input_table.column_names[i])
        input_table.column_types[i]).chunks = Chunk.mk (out0.columns ++ cols) :: rest := c1
    have hnames :
        output_table.column_names ++
            List.map (fun name => prefix_ ++ name) (List.take i input_table.column_names) ++
          [prefix_ ++ input_table.column_names[i]]
        = output_table.column_names ++
            List.map (fun name => prefix_ ++ name) (List.take (i + 1) input_table.column_names) := by
      simp only [List.take_succ, List.getElem?_eq_getElem hi1, Option.toList,
        List.map_append, List.map_cons, List.map_nil, List.append_assoc]
    have htypes : output_table.column_types ++ List.take i input_table.column_types ++
          [input_table.column_types[i]]
        = output_table.column_types ++ List.take (i + 1) input_table.column_types := by
      rw [List.take_succ, List.getElem?_eq_getElem hi2]
      simp
    have hflat : ∀ column : BaseColumn,
        flattened_column input_table chunk0 pos_list i column →
        ∀ column_id c, (cols ++ [column])[column_id]? = some c →
          flattened_column input_table chunk0 pos_list column_id c := by
      intro column hcolumn column_id c hc
      by_cases hlt : column_id < cols.length
      · rw [List.getElem?_append_left hlt] at hc
        exact c3 column_id c hc
      · by_cases heq : column_id = cols.length
        · subst heq
          simp only [List.getElem?_concat_length, Option.some.injEq] at hc
          subst hc
          rw [c2]
          exact hcolumn
        · rw [List.getElem?_eq_none (by simp; omega)] at hc
          cases hc
    simp only [storage.Table.column_name, storage.Table.column_type,
      storage.Table.get_chunk, vector_index_of_lt _ _ hi1, vector_index_of_lt _ _ hi2,
      vector_index_of_some _ _ _ h_chunk0, Chunk.get_column, vector_index_of_lt _ _ hi3, bind,
      Except.bind, List.get_eq_getElem]
    cases hcol : chunk0.columns[i] with
    | ValueColumn values =>
      simp only
      rw [add_column_to_chunk_zero _ _ _ _ hchunks]
      refine ⟨_, rfl, cols ++ [BaseColumn.ReferenceColumn input_table i pos_list],
        by simp [storage.Table.chunks, Chunk.columns], by simp [c2], hflat _ ?_, ?_, ?_⟩
      · constructor
        · intro rt rc pl h
          rw [List.getElem?_eq_getElem hi3, hcol] at h
          cases h
        · intro _ _
          rfl
      · show out.column_names ++ [prefix_ ++ input_table.column_names[i]] = _
        rw [c4]
        exact hnames
      · show out.column_types ++ [input_table.column_types[i]] = _
        rw [c5]
        exact htypes
    | ReferenceColumn rt rc pl =>
      simp only
      obtain ⟨hevery, hrows⟩ := h_ref i (BaseColumn.ReferenceColumn rt rc pl)
        (by rw [List.getElem?_eq_getElem hi3, hcol]) rfl
      obtain ⟨new_pos_list, hd, hlen, hmap⟩ :=
        _dereference_pos_list_spec input_table i pos_list hevery hrows
      rw [hd]
      simp only
      rw [add_column_to_chunk_zero _ _ _ _ hchunks]
      refine ⟨_, rfl, cols ++ [BaseColumn.ReferenceColumn rt rc new_pos_list],
        by simp [storage.Table.chunks, Chunk.columns], by simp [c2], hflat _ ?_, ?_, ?_⟩
      · constructor
        · intro rt2 rc2 pl2 h
          rw [List.getElem?_eq_getElem hi3, hcol] at h
          injection h with h
          injection h with ha hb hc
          subst ha hb
          exact ⟨new_pos_list, rfl, hlen, hmap⟩
        · intro values h
          rw [List.getElem?_eq_getElem hi3, hcol] at h
          cases h
      · show out.column_names ++ [prefix_ ++ input_table.column_names[i]] = _
        rw [c4]
        exact hnames
      · show out.column_types ++ [input_table.column_types[i]] = _
        rw [c5]
        exact htypes

/-- C11: for an input table whose schema and chunk 0 agree, whose reference columns are
reference columns in every chunk, and a join position list all of whose rows point to an
entry of those columns, `_add_output_columns` succeeds and adds one column per input
column: for a reference column a reference column on the same referenced table and column
id, whose position list has the length of the join's position list and holds, entry by
entry, `input_pos_list[chunk_id][chunk_offset]`; for a value column a reference column on
the input table and column id with the join's position list.  When the input table
follows the data model, every added column references a table of value columns only. -/
theorem _add_output_columns_flattens (output_table input_table : storage.Table)
    (prefix_ : String) (pos_list : PosList) (chunk0 out0 : Chunk) (rest : List Chunk)
    (h_names : input_table.column_names.length = input_table.col_count)
    (h_chunk0 : input_table.chunks[0]? = some chunk0)
    (h_cols : chunk0.columns.length = input_table.col_count)
    (h_out : output_table.chunks = out0 :: rest)
    (h_ref : ∀ column_id column, chunk0.columns[column_id]? = some column →
      column.is_reference = true →
      input_table.reference_in_every_chunk column_id ∧
        ∀ row ∈ pos_list, (referenced_position input_table column_id row).isSome = true)
    (h_model : input_table.well_formed) :
    ∃ result,
      _add_output_columns output_table input_table prefix_ pos_list = .ok result ∧
      ∃ new_columns,
        result.chunks = Chunk.mk (out0.columns ++ new_columns) :: rest ∧
        new_columns.length = input_table.col_count ∧
        (∀ column_id column, new_columns[column_id]? = some column →
          flattened_column input_table chunk0 pos_list column_id column) ∧
        (∀ column ∈ new_columns, ∃ referenced_table referenced_column_id new_pos_list,
          column = BaseColumn.ReferenceColumn referenced_table referenced_column_id new_pos_list ∧
          referenced_table.value_only) := by
  obtain ⟨result, hres, new_columns, h1, h2, h3, _, _⟩ :=
    _add_output_columns_spec output_table input_table prefix_ pos_list chunk0 out0 rest h_names
      h_chunk0 h_cols h_out h_ref
  refine ⟨result, hres, new_columns, h1, h2, h3, ?_⟩
  intro column hcolumn
  obtain ⟨column_id, hlt, hget⟩ := List.getElem_of_mem hcolumn
  have hsome : new_columns[column_id]? = some column := by
    rw [List.getElem?_eq_getElem hlt, hget]
  obtain ⟨hr, hv⟩ := h3 column_id column hsome
  have hlt0 : column_id < chunk0.columns.length := by omega
  have hbase := List.getElem?_eq_getElem hlt0
  have hmem0 : chunk0 ∈ input_table.chunks := List.getElem?_mem h_chunk0
  have hmemb : chunk0.columns[column_id] ∈ chunk0.columns := List.getElem_mem _
  cases hcol : chunk0.columns[column_id] with
  | ValueColumn values =>
    rw [hcol] at hbase hmemb
    refine ⟨input_table, column_id, pos_list, hv values hbase, ?_⟩
    rcases h_model with hvalue | hreference
    · exact hvalue
    · obtain ⟨rt, rc, pl, heq, _⟩ := hreference chunk0 hmem0 _ hmemb
      cases heq
  | ReferenceColumn rt rc pl =>
    rw [hcol] at hbase hmemb
    obtain ⟨new_pos_list, hnew, _, _⟩ := hr rt rc pl hbase
    refine ⟨rt, rc, new_pos_list, hnew, ?_⟩
    rcases h_model with hvalue | hreference
    · have := hvalue chunk0 hmem0 _ hmemb
      simp [BaseColumn.is_reference] at this
    · obtain ⟨rt2, rc2, pl2, heq, hvalue⟩ := hreference chunk0 hmem0 _ hmemb
      injection heq with ha hb hc
      rw [ha]
      exact hvalue

theorem scenario_value_table_value_only : scenario_value_table.value_only := by
  intro chunk hchunk column hcolumn
  simp only [scenario_value_table, storage.Table.chunks, List.mem_singleton] at hchunk
  subst hchunk
  simp only [Chunk.columns, List.mem_singleton] at hcolumn
  subst hcolumn
  rfl

/-- Witness of C11: the join position list `(0,1), (0,0), (0,1)` over the reference table
whose column lists the rows 1, 0 of the value table becomes `(0,0), (0,1), (0,0)` on the
value table. -/
theorem _add_output_columns_flattens_witness :
    _add_output_columns storage.Table.create scenario_reference_table "left_"
        [⟨0, 1⟩, ⟨0, 0⟩, ⟨0, 1⟩]
      = .ok (.mk ["left_a"] ["int"]
          [.mk [.ReferenceColumn scenario_value_table 0 [⟨0, 0⟩, ⟨0, 1⟩, ⟨0, 0⟩]]]) ∧
    ∃ result,
      _add_output_columns storage.Table.create scenario_reference_table "left_"
        [⟨0, 1⟩, ⟨0, 0⟩, ⟨0, 1⟩] = .ok result ∧
      ∃ new_columns,
        result.chunks = Chunk.mk ((Chunk.mk []).columns ++ new_columns) :: [] ∧
        new_columns.length = scenario_reference_table.col_count ∧
        (∀ column_id column, new_columns[column_id]? = some column →
          flattened_column scenario_reference_table
            (.mk [.ReferenceColumn scenario_value_table 0 [⟨0, 1⟩, ⟨0, 0⟩]])
            [⟨0, 1⟩, ⟨0, 0⟩, ⟨0, 1⟩] column_id column) ∧
        (∀ column ∈ new_columns, ∃ referenced_table referenced_column_id new_pos_list,
          column = BaseColumn.ReferenceColumn referenced_table referenced_column_id new_pos_list ∧
          referenced_table.value_only) :=
  ⟨rfl, _add_output_columns_flattens storage.Table.create scenario_reference_table "left_"
    [⟨0, 1⟩, ⟨0, 0⟩, ⟨0, 1⟩] (.mk [.ReferenceColumn scenario_value_table 0 [⟨0, 1⟩, ⟨0, 0⟩]])
    (.mk []) [] rfl rfl rfl rfl
    (by
      intro column_id column hcolumn _
      cases column_id with
      | succ n => simp [Chunk.columns] at hcolumn
      | zero =>
        constructor
        · intro chunk hchunk
          simp only [scenario_reference_table, storage.Table.chunks, List.mem_singleton] at hchunk
          subst hchunk
          exact ⟨_, rfl, rfl⟩
        · intro row hrow
          simp only [List.mem_cons, List.mem_singleton, List.not_mem_nil, or_false] at hrow
          rcases hrow with h | h | h <;> subst h <;> rfl)
    (Or.inr (by
      intro chunk hchunk column hcolumn
      simp only [scenario_reference_table, storage.Table.chunks, List.mem_singleton] at hchunk
      subst hchunk
      simp only [Chunk.columns, List.mem_singleton] at hcolumn
      subst hcolumn
      exact ⟨_, _, _, rfl, scenario_value_table_value_only⟩))⟩

end output_assembly
section dereference_null

open SortMergeJoinImpl storage

/-- When the first loop of `_dereference_pos_list` succeeds, what it collected are the
position lists of the column, chunk by chunk. -/
theorem collect_pos_lists_of_ok (column_id : Nat)
    (f : Chunk → List PosList → Except Failure (List PosList))
    (hf : ∀ (chunk : Chunk) (acc result : List PosList), f chunk acc = .ok result →
      ∃ rt rc pl, chunk.columns[column_id]? = some (BaseColumn.ReferenceColumn rt rc pl) ∧
        result = acc ++ [pl]) :
    ∀ (chunks : List Chunk) (acc result : List PosList),
      for_each f chunks acc = .ok result →
      ∃ collected, result = acc ++ collected ∧
        ∀ (i : Nat) (pl : PosList), collected[i]? = some pl → ∃ chunk rt rc,
          chunks[i]? = some chunk ∧
          chunk.columns[column_id]? = some (BaseColumn.ReferenceColumn rt rc pl) := by
  intro chunks
  induction chunks with
  | nil =>
    intro acc result h
    simp only [for_each] at h
    injection h with h
    exact ⟨[], by simp [h], fun i pl hi => by simp at hi⟩
  | cons chunk chunks ih =>
    intro acc result h
    simp only [for_each] at h
    cases hstep : f chunk acc with
    | error e => rw [hstep] at h; cases h
    | ok acc1 =>
      rw [hstep] at h
      obtain ⟨rt, rc, pl, hcol, hacc⟩ := hf chunk acc acc1 hstep
      obtain ⟨collected, hres, hget⟩ := ih acc1 result h
      refine ⟨pl :: collected, by rw [hres, hacc]; simp, ?_⟩
      intro i pl2 hi
      cases i with
      | zero =>
        simp only [List.getElem?_cons_zero, Option.some.injEq] at hi
        subst hi
        exact ⟨chunk, rt, rc, by simp, hcol⟩
      | succ i =>
        simp only [List.getElem?_cons_succ] at hi
        obtain ⟨c, rt2, rc2, h1, h2⟩ := hget i pl2 hi
        exact ⟨c, rt2, rc2, by simpa using h1, h2⟩

/-- When a loop over a vector succeeds, its body succeeds on every element, in some
state. -/
theorem for_each_ok_body {α σ : Type} (f : α → σ → Except Failure σ) :
    ∀ (xs : List α) (s result : σ), for_each f xs s = .ok result →
      ∀ x ∈ xs, ∃ s1 s2, f x s1 = .ok s2 := by
  intro xs
  induction xs with
  | nil => intro s result _ x hx; simp at hx
  | cons y ys ih =>
    intro s result h x hx
    simp only [for_each] at h
    cases hstep : f y s with
    | error e => rw [hstep] at h; cases h
    | ok s1 =>
      rw [hstep] at h
      rcases List.mem_cons.1 hx with hxy | hxys
      · subst hxy
        exact ⟨s, s1, hstep⟩
      · exact ih s1 result h x hxys

/-- When the two loops of `_dereference_pos_list` succeed, every row of the position list
points to an entry. -/
theorem dereference_loops_of_ok (input_table : storage.Table) (column_id : Nat)
    (pos_list new_pos_list : PosList)
    (f1 : Chunk → List PosList → Except Failure (List PosList))
    (f2 : List PosList → RowID → PosList → Except Failure PosList)
    (hf1 : ∀ (chunk : Chunk) (acc result : List PosList), f1 chunk acc = .ok result →
      ∃ rt rc pl, chunk.columns[column_id]? = some (BaseColumn.ReferenceColumn rt rc pl) ∧
        result = acc ++ [pl])
    (hf2 : ∀ (input_pos_lists : List PosList) (row : RowID) (acc result : PosList),
      f2 input_pos_lists row acc = .ok result →
      ∃ input_pos_list entry, input_pos_lists[row.chunk_id]? = some input_pos_list ∧
        input_pos_list[row.chunk_offset]? = some entry)
    (h : (for_each f1 input_table.chunks [] >>= fun input_pos_lists =>
        for_each (f2 input_pos_lists) pos_list []) = .ok new_pos_list) :
    ∀ row ∈ pos_list, (referenced_position input_table column_id row).isSome = true := by
  obtain ⟨input_pos_lists, h1, h2⟩ := (bind_eq_ok _ _ _).1 h
  obtain ⟨collected, hres, hget⟩ :=
    collect_pos_lists_of_ok column_id f1 hf1 input_table.chunks [] input_pos_lists h1
  intro row hrow
  obtain ⟨s1, s2, hbody⟩ := for_each_ok_body (f2 input_pos_lists) pos_list [] new_pos_list h2 row hrow
  obtain ⟨pl, entry, hpl, hentry⟩ := hf2 input_pos_lists row s1 s2 hbody
  rw [hres, List.nil_append] at hpl
  obtain ⟨chunk, rt, rc, hchunk, hcol⟩ := hget row.chunk_id pl hpl
  simp [referenced_position, hchunk, hcol, hentry]

/-- The function `_dereference_pos_list` returns a list only when every row of the position
list points to an entry of the input table. -/
theorem _dereference_pos_list_of_ok (input_table : storage.Table) (column_id : Nat)
    (pos_list new_pos_list : PosList)
    (h : _dereference_pos_list input_table column_id pos_list = .ok new_pos_list) :
    ∀ row ∈ pos_list, (referenced_position input_table column_id row).isSome = true := by
  unfold _dereference_pos_list at h
  simp only [storage.Table.get_chunk, storage.Table.chunk_count] at h
  rw [for_loop_vector_index _ input_table.chunks input_table.chunks.length 0 [] (by omega),
    List.drop_zero] at h
  refine dereference_loops_of_ok input_table column_id pos_list new_pos_list _ _ ?_ ?_ h
  · intro chunk acc result hstep
    simp only [Chunk.get_column, vector_index, bind, Except.bind] at hstep
    cases hcol : chunk.columns[column_id]? with
    | none => rw [hcol] at hstep; cases hstep
    | some column =>
      rw [hcol] at hstep
      cases column with
      | ValueColumn values => cases hstep
      | ReferenceColumn rt rc pl =>
        simp only [pure, Except.pure] at hstep
        injection hstep with hstep
        exact ⟨rt, rc, pl, rfl, hstep.symm⟩
  · intro input_pos_lists row acc result hstep
    simp only [vector_at, bind, Except.bind] at hstep
    cases hpl : input_pos_lists[row.chunk_id]? with
    | none => rw [hpl] at hstep; cases hstep
    | some pl =>
      rw [hpl] at hstep
      simp only at hstep
      cases hentry : pl[row.chunk_offset]? with
      | none => rw [hentry] at hstep; cases hstep
      | some entry => exact ⟨pl, entry, rfl, hentry⟩

/-- C12, as the code behaves: a null row in the join's position list makes
`_dereference_pos_list` end with `std::out_of_range` on the scenario reference table, and
so does `_add_output_columns`; with the value table as input the null row is kept.  In
general `_dereference_pos_list` returns no list when the position list holds a null row
and the input has no entry at `(0, INVALID_CHUNK_OFFSET)`. -/
theorem _dereference_pos_list_null_row :
    _dereference_pos_list scenario_reference_table 0 [⟨0, 1⟩, null_row] = .error .out_of_range ∧
    _add_output_columns storage.Table.create scenario_reference_table "left_" [⟨0, 1⟩, null_row]
      = .error .out_of_range ∧
    _add_output_columns storage.Table.create scenario_value_table "left_" [⟨0, 1⟩, null_row]
      = .ok (.mk ["left_a"] ["int"]
          [.mk [.ReferenceColumn scenario_value_table 0 [⟨0, 1⟩, null_row]]]) ∧
    ∀ (input_table : storage.Table) (column_id : Nat) (pos_list : PosList),
      null_row ∈ pos_list → referenced_position input_table column_id null_row = none →
      ∃ e, _dereference_pos_list input_table column_id pos_list = .error e := by
  refine ⟨rfl, rfl, rfl, ?_⟩
  intro input_table column_id pos_list hnull hnone
  cases hd : _dereference_pos_list input_table column_id pos_list with
  | error e => exact ⟨e, rfl⟩
  | ok new_pos_list =>
    have := _dereference_pos_list_of_ok input_table column_id pos_list new_pos_list hd
      null_row hnull
    rw [hnone] at this
    cases this

end dereference_null
/-! ## Theorems: TPC-C new order -/

section new_order_theorems

open tpcc

theorem get_get_customer_and_warehouse_tax_rate_tasks_context_set (t_context : TransactionContext) (w_id d_id c_id : Int) :
    (get_get_customer_and_warehouse_tax_rate_tasks t_context w_id d_id c_id).context_set t_context := by
  intro task htask
  simp [get_get_customer_and_warehouse_tax_rate_tasks, task_vector, set_as_predecessor_of, OperatorTask.create,
    Operator.create] at htask
  rcases htask with h | h | h | h | h | h | h | h <;> subst h <;>
    simp +decide [TaskVector.get_operator, get_get_customer_and_warehouse_tax_rate_tasks,
      set_transaction_context_for_operators, Operator.create, Operator.set_transaction_context]

theorem get_get_district_tasks_context_set (t_context : TransactionContext) (d_id w_id : Int) :
    (get_get_district_tasks t_context d_id w_id).context_set t_context := by
  intro task htask
  simp [get_get_district_tasks, task_vector, set_as_predecessor_of, OperatorTask.create,
    Operator.create] at htask
  rcases htask with h | h | h | h <;> subst h <;>
    simp +decide [TaskVector.get_operator, get_get_district_tasks,
      set_transaction_context_for_operators, Operator.create, Operator.set_transaction_context]

theorem get_increment_next_order_id_tasks_context_set (t_context : TransactionContext) (d_id d_w_id d_next_o_id : Int) :
    (get_increment_next_order_id_tasks t_context d_id d_w_id d_next_o_id).context_set t_context := by
  intro task htask
  simp [get_increment_next_order_id_tasks, task_vector, set_as_predecessor_of, OperatorTask.create,
    Operator.create] at htask
  rcases htask with h | h | h | h | h | h <;> subst h <;>
    simp +decide [TaskVector.get_operator, get_increment_next_order_id_tasks,
      set_transaction_context_for_operators, Operator.create, Operator.set_transaction_context]

theorem get_get_item_info_tasks_context_set (t_context : TransactionContext) (ol_i_id : Int) :
    (get_get_item_info_tasks t_context ol_i_id).context_set t_context := by
  intro task htask
  simp [get_get_item_info_tasks, task_vector, set_as_predecessor_of, OperatorTask.create,
    Operator.create] at htask
  rcases htask with h | h | h <;> subst h <;>
    simp +decide [TaskVector.get_operator, get_get_item_info_tasks,
      set_transaction_context_for_operators, Operator.create, Operator.set_transaction_context]

theorem get_get_stock_info_tasks_context_set (t_context : TransactionContext) (ol_i_id ol_supply_w_id d_id : Int) :
    (get_get_stock_info_tasks t_context ol_i_id ol_supply_w_id d_id).context_set t_context := by
  intro task htask
  simp [get_get_stock_info_tasks, task_vector, set_as_predecessor_of, OperatorTask.create,
    Operator.create] at htask
  rcases htask with h | h | h | h <;> subst h <;>
    simp +decide [TaskVector.get_operator, get_get_stock_info_tasks,
      set_transaction_context_for_operators, Operator.create, Operator.set_transaction_context]

theorem get_update_stock_tasks_context_set (t_context : TransactionContext) (s_quantity ol_i_id ol_supply_w_id : Int) :
    (get_update_stock_tasks t_context s_quantity ol_i_id ol_supply_w_id).context_set t_context := by
  intro task htask
  simp [get_update_stock_tasks, task_vector, set_as_predecessor_of, OperatorTask.create,
    Operator.create] at htask
  rcases htask with h | h | h | h | h | h <;> subst h <;>
    simp +decide [TaskVector.get_operator, get_update_stock_tasks,
      set_transaction_context_for_operators, Operator.create, Operator.set_transaction_context]

/-- C16: in every task vector built by a `get_..._tasks` function of `NewOrderRefImpl`, each
task wraps an operator that was given the transaction context of the caller; the vectors
of the three functions that build nothing are empty; and the `CommitRecords` operator of
`run_transaction` holds the context when its task is created. -/
theorem new_order_tasks_context_set (t_context : TransactionContext) :
    (∀ w_id d_id c_id,
      (get_get_customer_and_warehouse_tax_rate_tasks t_context w_id d_id c_id).context_set
        t_context) ∧
    (∀ d_id w_id, (get_get_district_tasks t_context d_id w_id).context_set t_context) ∧
    (∀ d_id d_w_id d_next_o_id,
      (get_increment_next_order_id_tasks t_context d_id d_w_id d_next_o_id).context_set
        t_context) ∧
    (∀ ol_i_id, (get_get_item_info_tasks t_context ol_i_id).context_set t_context) ∧
    (∀ ol_i_id ol_supply_w_id d_id,
      (get_get_stock_info_tasks t_context ol_i_id ol_supply_w_id d_id).context_set t_context) ∧
    (∀ s_quantity ol_i_id ol_supply_w_id,
      (get_update_stock_tasks t_context s_quantity ol_i_id ol_supply_w_id).context_set
        t_context) ∧
    (∀ a b c d e f g h, (get_create_order_tasks t_context a b c d e f g h).tasks = []) ∧
    (∀ a b c, (get_create_new_order_tasks t_context a b c).tasks = []) ∧
    (∀ a b c d e f g h i j,
      (get_create_order_line_tasks t_context a b c d e f g h i j).tasks = []) ∧
    (commit_task t_context).context_set t_context ∧
    (commit_task t_context).tasks.length = 1 :=
  ⟨get_get_customer_and_warehouse_tax_rate_tasks_context_set t_context,
    get_get_district_tasks_context_set t_context,
    get_increment_next_order_id_tasks_context_set t_context,
    get_get_item_info_tasks_context_set t_context,
    get_get_stock_info_tasks_context_set t_context,
    get_update_stock_tasks_context_set t_context,
    fun _ _ _ _ _ _ _ _ => rfl, fun _ _ _ => rfl, fun _ _ _ _ _ _ _ _ _ _ => rfl,
    by
      intro task htask
      simp [commit_task, OperatorTask.create, Operator.create,
        Operator.set_transaction_context] at htask
      subst htask
      simp +decide [TaskVector.get_operator, commit_task, Operator.create,
        Operator.set_transaction_context],
    rfl⟩

/-- C15: the loop over the order lines does not read the item fields from the task list it
has just scheduled.  With the district row `(1/20, 3001)` and the item row
`(10, "item", "data")` the first order line ends with `boost::bad_get`, because `i_name`
is read from the district row; with a district row of the shape of an item row,
`(7, "D", "E")`, the item fields of the result are `(7, "D", "E")` and not
`(10, "item", "data")`. -/
theorem order_line_reads_district_row :
    order_line_body scenario_scheduler ⟨1, 2⟩ scenario_params
        (get_get_district_tasks ⟨1, 2⟩ 1 1) 0 ⟨0, "", 0, 0, 0, 0, []⟩ = .error .bad_get ∧
    (order_line_body scenario_scheduler_item_shaped ⟨1, 2⟩ scenario_params
        (get_get_district_tasks ⟨1, 2⟩ 1 1) 0 ⟨0, "", 0, 0, 0, 0, []⟩).map
      (fun result => result.order_lines.map (fun line => (line.i_price, line.i_name, line.i_data)))
      = .ok [(7, "D", "E")] ∧
    scenario_scheduler.fetch_back_row (get_get_item_info_tasks ⟨1, 2⟩ 5)
      = .ok [.float 10, .string "item", .string "data"] :=
  ⟨rfl, rfl, rfl⟩

end new_order_theorems

/-! ## Order of the tasks -/

section task_order

open tpcc

theorem customer_tasks_eq (t_context : TransactionContext) (w_id d_id c_id : Int) :
    (get_get_customer_and_warehouse_tax_rate_tasks t_context w_id d_id c_id).tasks =
      [⟨"c_gt_t", "c_gt", []⟩, ⟨"c_ts1_t", "c_ts1", ["c_gt_t"]⟩,
        ⟨"c_ts2_t", "c_ts2", ["c_ts1_t"]⟩, ⟨"c_ts3_t", "c_ts3", ["c_ts2_t"]⟩,
        ⟨"w_gt_t", "w_gt", []⟩, ⟨"w_ts_t", "w_ts", ["w_gt_t"]⟩,
        ⟨"join_t", "join", ["c_ts3_t", "w_ts_t"]⟩, ⟨"proj_t", "proj", ["join_t"]⟩] := by
  rfl

theorem district_tasks_eq (t_context : TransactionContext) (d_id w_id : Int) :
    (get_get_district_tasks t_context d_id w_id).tasks =
      [⟨"gt_t", "gt", []⟩, ⟨"ts1_t", "ts1", ["gt_t"]⟩, ⟨"ts2_t", "ts2", ["ts1_t"]⟩,
        ⟨"proj_t", "proj", ["ts2_t"]⟩] := by
  rfl

theorem increment_tasks_eq (t_context : TransactionContext) (d_id d_w_id d_next_o_id : Int) :
    (get_increment_next_order_id_tasks t_context d_id d_w_id d_next_o_id).tasks =
      [⟨"gt_t", "gt", []⟩, ⟨"ts1_t", "ts1", ["gt_t"]⟩, ⟨"ts2_t", "ts2", ["ts1_t"]⟩,
        ⟨"original_rows_t", "original_rows", ["ts2_t"]⟩,
        ⟨"updated_rows_t", "updated_rows", ["ts2_t"]⟩,
        ⟨"update_t", "update", ["original_rows_t", "updated_rows_t"]⟩] := by
  rfl

theorem item_tasks_eq (t_context : TransactionContext) (ol_i_id : Int) :
    (get_get_item_info_tasks t_context ol_i_id).tasks =
      [⟨"gt_t", "gt", []⟩, ⟨"ts_t", "ts", ["gt_t"]⟩, ⟨"proj_t", "proj", ["ts_t"]⟩] := by
  rfl

theorem stock_tasks_eq (t_context : TransactionContext) (ol_i_id ol_supply_w_id d_id : Int) :
    (get_get_stock_info_tasks t_context ol_i_id ol_supply_w_id d_id).tasks =
      [⟨"gt_t", "gt", []⟩, ⟨"ts1_t", "ts1", ["gt_t"]⟩, ⟨"ts2_t", "ts2", ["ts1_t"]⟩,
        ⟨"proj_t", "proj", ["ts2_t"]⟩] := by
  rfl

theorem update_stock_tasks_eq (t_context : TransactionContext)
    (s_quantity ol_i_id ol_supply_w_id : Int) :
    (get_update_stock_tasks t_context s_quantity ol_i_id ol_supply_w_id).tasks =
      [⟨"gt_t", "gt", []⟩, ⟨"ts1_t", "ts1", ["gt_t"]⟩, ⟨"ts2_t", "ts2", ["ts1_t"]⟩,
        ⟨"original_rows_t", "original_rows", ["ts2_t"]⟩,
        ⟨"updated_rows_t", "updated_rows", ["ts2_t"]⟩,
        ⟨"update_t", "update", ["original_rows_t", "updated_rows_t"]⟩] := by
  rfl

theorem district_back_operator (t_context : TransactionContext) (d_id w_id : Int) :
    (get_get_district_tasks t_context d_id w_id).back_operator =
      .ok ⟨"proj", .Projection "ts2" ["D_TAX", "D_NEXT_O_ID"], some t_context⟩ := by
  rfl

theorem customer_back_operator (t_context : TransactionContext) (w_id d_id c_id : Int) :
    (get_get_customer_and_warehouse_tax_rate_tasks t_context w_id d_id c_id).back_operator =
      .ok ⟨"proj", .Projection "join" ["C_DISCOUNT", "C_LAST", "C_CREDIT", "W_TAX"],
        some t_context⟩ := by
  rfl

theorem increment_back_operator (t_context : TransactionContext) (d_id d_w_id d_next_o_id : Int) :
    (get_increment_next_order_id_tasks t_context d_id d_w_id d_next_o_id).back_operator =
      .ok ⟨"update", .Update "DISTRICT" "original_rows" "updated_rows", some t_context⟩ := by
  rfl

theorem item_back_operator (t_context : TransactionContext) (ol_i_id : Int) :
    (get_get_item_info_tasks t_context ol_i_id).back_operator =
      .ok ⟨"proj", .Projection "ts" ["I_PRICE", "I_NAME", "I_DATA"], some t_context⟩ := by
  rfl

theorem stock_back_operator (t_context : TransactionContext) (ol_i_id ol_supply_w_id d_id : Int) :
    (get_get_stock_info_tasks t_context ol_i_id ol_supply_w_id d_id).back_operator =
      .ok ⟨"proj", .Projection "ts2" ["S_DIST_01", "S_DIST_02", "S_DIST_03", "S_DIST_04",
        "S_DIST_05", "S_DIST_06", "S_DIST_07", "S_DIST_08", "S_DIST_09", "S_DIST_10"],
        some t_context⟩ := by
  rfl

theorem update_stock_back_operator (t_context : TransactionContext)
    (s_quantity ol_i_id ol_supply_w_id : Int) :
    (get_update_stock_tasks t_context s_quantity ol_i_id ol_supply_w_id).back_operator =
      .ok ⟨"update", .Update "STOCK" "original_rows" "updated_rows", some t_context⟩ := by
  rfl

theorem customer_tasks_ordered :
    topological_order
      [⟨"c_gt_t", "c_gt", []⟩, ⟨"c_ts1_t", "c_ts1", ["c_gt_t"]⟩,
        ⟨"c_ts2_t", "c_ts2", ["c_ts1_t"]⟩, ⟨"c_ts3_t", "c_ts3", ["c_ts2_t"]⟩,
        ⟨"w_gt_t", "w_gt", []⟩, ⟨"w_ts_t", "w_ts", ["w_gt_t"]⟩,
        ⟨"join_t", "join", ["c_ts3_t", "w_ts_t"]⟩, ⟨"proj_t", "proj", ["join_t"]⟩] ∧
    back_is_only_sink
      [⟨"c_gt_t", "c_gt", []⟩, ⟨"c_ts1_t", "c_ts1", ["c_gt_t"]⟩,
        ⟨"c_ts2_t", "c_ts2", ["c_ts1_t"]⟩, ⟨"c_ts3_t", "c_ts3", ["c_ts2_t"]⟩,
        ⟨"w_gt_t", "w_gt", []⟩, ⟨"w_ts_t", "w_ts", ["w_gt_t"]⟩,
        ⟨"join_t", "join", ["c_ts3_t", "w_ts_t"]⟩, ⟨"proj_t", "proj", ["join_t"]⟩] := by
  refine ⟨⟨by decide, by decide⟩, ⟨_, rfl, by unfold has_successor; decide, ?_⟩⟩
  unfold has_successor
  decide

theorem scan_chain_tasks_ordered :
    topological_order
      [⟨"gt_t", "gt", []⟩, ⟨"ts1_t", "ts1", ["gt_t"]⟩, ⟨"ts2_t", "ts2", ["ts1_t"]⟩,
        ⟨"proj_t", "proj", ["ts2_t"]⟩] ∧
    back_is_only_sink
      [⟨"gt_t", "gt", []⟩, ⟨"ts1_t", "ts1", ["gt_t"]⟩, ⟨"ts2_t", "ts2", ["ts1_t"]⟩,
        ⟨"proj_t", "proj", ["ts2_t"]⟩] := by
  refine ⟨⟨by decide, by decide⟩, ⟨_, rfl, by unfold has_successor; decide, ?_⟩⟩
  unfold has_successor
  decide

theorem update_tasks_ordered :
    topological_order
      [⟨"gt_t", "gt", []⟩, ⟨"ts1_t", "ts1", ["gt_t"]⟩, ⟨"ts2_t", "ts2", ["ts1_t"]⟩,
        ⟨"original_rows_t", "original_rows", ["ts2_t"]⟩,
        ⟨"updated_rows_t", "updated_rows", ["ts2_t"]⟩,
        ⟨"update_t", "update", ["original_rows_t", "updated_rows_t"]⟩] ∧
    back_is_only_sink
      [⟨"gt_t", "gt", []⟩, ⟨"ts1_t", "ts1", ["gt_t"]⟩, ⟨"ts2_t", "ts2", ["ts1_t"]⟩,
        ⟨"original_rows_t", "original_rows", ["ts2_t"]⟩,
        ⟨"updated_rows_t", "updated_rows", ["ts2_t"]⟩,
        ⟨"update_t", "update", ["original_rows_t", "updated_rows_t"]⟩] := by
  refine ⟨⟨by decide, by decide⟩, ⟨_, rfl, by unfold has_successor; decide, ?_⟩⟩
  unfold has_successor
  decide

theorem item_tasks_ordered :
    topological_order
      [⟨"gt_t", "gt", []⟩, ⟨"ts_t", "ts", ["gt_t"]⟩, ⟨"proj_t", "proj", ["ts_t"]⟩] ∧
    back_is_only_sink
      [⟨"gt_t", "gt", []⟩, ⟨"ts_t", "ts", ["gt_t"]⟩, ⟨"proj_t", "proj", ["ts_t"]⟩] := by
  refine ⟨⟨by decide, by decide⟩, ⟨_, rfl, by unfold has_successor; decide, ?_⟩⟩
  unfold has_successor
  decide

/-- C21: each task vector that a `get_..._tasks` function of `NewOrderRefImpl` builds
(customer and warehouse, district, increment of the next order id, item info, stock info,
stock update) lists distinct tasks with every task behind all of its predecessors, so it
is a topological order of its `set_as_predecessor_of` edges; its last task is the only
one without a successor, and the operator of that task, which `back()` gives to
`run_transaction`, is the final `Projection` or `Update`. -/
theorem new_order_tasks_topological (t_context : TransactionContext)
    (w_id d_id c_id d_next_o_id ol_i_id ol_supply_w_id s_quantity : Int) :
    (get_get_customer_and_warehouse_tax_rate_tasks t_context w_id d_id c_id).ordered_with_final_back ∧
    (get_get_district_tasks t_context d_id w_id).ordered_with_final_back ∧
    (get_increment_next_order_id_tasks t_context d_id w_id d_next_o_id).ordered_with_final_back ∧
    (get_get_item_info_tasks t_context ol_i_id).ordered_with_final_back ∧
    (get_get_stock_info_tasks t_context ol_i_id ol_supply_w_id d_id).ordered_with_final_back ∧
    (get_update_stock_tasks t_context s_quantity ol_i_id ol_supply_w_id).ordered_with_final_back := by
  refine ⟨?_, ?_, ?_, ?_, ?_, ?_⟩
  · unfold TaskVector.ordered_with_final_back
    rw [customer_tasks_eq]
    exact ⟨customer_tasks_ordered.1, customer_tasks_ordered.2, _,
      customer_back_operator t_context w_id d_id c_id, rfl⟩
  · unfold TaskVector.ordered_with_final_back
    rw [district_tasks_eq]
    exact ⟨scan_chain_tasks_ordered.1, scan_chain_tasks_ordered.2, _,
      district_back_operator t_context d_id w_id, rfl⟩
  · unfold TaskVector.ordered_with_final_back
    rw [increment_tasks_eq]
    exact ⟨update_tasks_ordered.1, update_tasks_ordered.2, _,
      increment_back_operator t_context d_id w_id d_next_o_id, rfl⟩
  · unfold TaskVector.ordered_with_final_back
    rw [item_tasks_eq]
    exact ⟨item_tasks_ordered.1, item_tasks_ordered.2, _,
      item_back_operator t_context ol_i_id, rfl⟩
  · unfold TaskVector.ordered_with_final_back
    rw [stock_tasks_eq]
    exact ⟨scan_chain_tasks_ordered.1, scan_chain_tasks_ordered.2, _,
      stock_back_operator t_context ol_i_id ol_supply_w_id d_id, rfl⟩
  · unfold TaskVector.ordered_with_final_back
    rw [update_stock_tasks_eq]
    exact ⟨update_tasks_ordered.1, update_tasks_ordered.2, _,
      update_stock_back_operator t_context s_quantity ol_i_id ol_supply_w_id, rfl⟩

end task_order

/-! ## The district row -/

section district_row

open tpcc

theorem bind_ok_elim {α β : Type} {x : Except Failure α} {f : α → Except Failure β} {b : β}
    (h : (x >>= f) = .ok b) : ∃ a, x = .ok a ∧ f a = .ok b := by
  cases x with
  | error e => simp [bind, Except.bind] at h
  | ok a => exact ⟨a, rfl, by simpa [bind, Except.bind] using h⟩

theorem get_int32_get_float_exclusive (value : AllTypeVariant) (i : Int) (x : Rat)
    (hi : get_int32 value = .ok i) (hx : get_float value = .ok x) : False := by
  cases value <;> simp [get_int32, get_float] at hi hx

theorem run_transaction_never_ok (scheduler : Scheduler) (t_context : TransactionContext)
    (params : NewOrderParams) (result : NewOrderResult) :
    run_transaction scheduler t_context params ≠ .ok result := by
  intro h
  unfold run_transaction at h
  obtain ⟨_, _, h⟩ := bind_ok_elim h
  obtain ⟨_, _, h⟩ := bind_ok_elim h
  obtain ⟨_, _, h⟩ := bind_ok_elim h
  obtain ⟨_, _, h⟩ := bind_ok_elim h
  obtain ⟨_, _, h⟩ := bind_ok_elim h
  obtain ⟨_, _, h⟩ := bind_ok_elim h
  obtain ⟨_, _, h⟩ := bind_ok_elim h
  obtain ⟨_, _, h⟩ := bind_ok_elim h
  obtain ⟨_, _, h⟩ := bind_ok_elim h
  obtain ⟨_, _, h⟩ := bind_ok_elim h
  obtain ⟨_, _, h⟩ := bind_ok_elim h
  obtain ⟨row, _, h⟩ := bind_ok_elim h
  obtain ⟨v1, hv1, h⟩ := bind_ok_elim h
  obtain ⟨i, hi, h⟩ := bind_ok_elim h
  obtain ⟨v2, hv2, h⟩ := bind_ok_elim h
  obtain ⟨x, hx, h⟩ := bind_ok_elim h
  rw [hv1] at hv2
  cases hv2
  exact get_int32_get_float_exclusive _ _ _ hi hx

/-- C22: the projection of `get_get_district_tasks` has the columns `D_TAX`,
`D_NEXT_O_ID` in this order, not the order of the documented query, so column 0 of the
fetched row is D_TAX; `run_transaction` reads both `d_next_o_id` (as `int32_t`) and
`d_tax_rate` (as `float`) from column 0, so with the district row `(1/20, 3001)` it ends
with `boost::bad_get`, and with no scheduler at all does it return a result. -/
theorem district_columns_not_as_documented :
    (∀ (t_context : TransactionContext) (d_id w_id : Int),
      (get_get_district_tasks t_context d_id w_id).back_operator =
        .ok ⟨"proj", .Projection "ts2" ["D_TAX", "D_NEXT_O_ID"], some t_context⟩) ∧
    scenario_scheduler_typed.fetch_back_row (get_get_district_tasks ⟨1, 2⟩ 1 1) =
      .ok [.float (1 / 20), .int32 3001] ∧
    run_transaction scenario_scheduler_typed ⟨1, 2⟩ scenario_params = .error .bad_get ∧
    ∀ (scheduler : Scheduler) (t_context : TransactionContext) (params : NewOrderParams)
      (result : NewOrderResult), run_transaction scheduler t_context params ≠ .ok result :=
  ⟨district_back_operator, rfl, rfl, run_transaction_never_ok⟩

end district_row

/-! ## Description of a predicate node -/

section predicate_description

/-- C23: when the scan type has a name, `description` returns "[Predicate] ", the verbose
name of the left operand, a blank, the scan type name, a blank and the middle operand
(the verbose column name for a column id, the printed value otherwise); a second value
adds " AND " and the printed value, in single quotes exactly when it is a string; without
a second value nothing is added. -/
theorem description_format {ColumnOrigin : Type} (functions : PredicateNode.Functions ColumnOrigin)
    (self : PredicateNode ColumnOrigin) (scan_type_name : String)
    (h : functions.scan_type_to_string self._scan_type = some scan_type_name) :
    self.description functions = .ok
      ("[Predicate] " ++ functions.get_verbose_name self._column_origin ++ " " ++
        scan_type_name ++ " " ++
        (match self._value with
          | .column_id column_id => functions.get_verbose_column_name column_id
          | value => functions.lexical_cast value) ++
        (match self._value2 with
          | none => ""
          | some (.string value2) => " AND " ++ "'" ++ functions.stream_out (.string value2) ++ "'"
          | some value2 => " AND " ++ functions.stream_out value2)) := by
  obtain ⟨origin, scan_type, value, value2⟩ := self
  simp only at h
  simp only [PredicateNode.description, h, bind, Except.bind, pure, Except.pure]
  cases value2 with
  | none => simp [String.append_assoc]
  | some v => cases v <;> simp [String.append_assoc]

/-- Witness of C23: the descriptions of `t.a BETWEEN k AND 'x'`, of `t.a = col3` and of
`t.a BETWEEN 5 AND 7`; a scan type without a name gives `std::out_of_range`. -/
theorem description_format_witness :
    PredicateNode.description scenario_functions ⟨"t.a", .OpBetween, .value (.string "k"), some (.string "x")⟩
      = .ok "[Predicate] t.a BETWEEN k AND 'x'" ∧
    PredicateNode.description scenario_functions ⟨"t.a", .OpEquals, .column_id 3, none⟩
      = .ok "[Predicate] t.a = col3" ∧
    PredicateNode.description scenario_functions ⟨"t.a", .OpBetween, .value (.int32 5), some (.int32 7)⟩
      = .ok "[Predicate] t.a BETWEEN 5 AND 7" ∧
    PredicateNode.description scenario_functions ⟨"t.a", .OpLike, .value (.string "k"), none⟩
      = .error .out_of_range ∧
    PredicateNode.description scenario_functions ⟨"t.a", .OpBetween, .value (.string "k"), some (.string "x")⟩
      = .ok ("[Predicate] " ++ scenario_functions.get_verbose_name "t.a" ++ " " ++
        "BETWEEN" ++ " " ++
        (match AllParameterVariant.value (.string "k") with
          | .column_id column_id => scenario_functions.get_verbose_column_name column_id
          | value => scenario_functions.lexical_cast value) ++
        (match some (AllTypeVariant.string "x") with
          | none => ""
          | some (.string value2) =>
            " AND " ++ "'" ++ scenario_functions.stream_out (.string value2) ++ "'"
          | some value2 => " AND " ++ scenario_functions.stream_out value2)) :=
  ⟨rfl, rfl, rfl, rfl, description_format scenario_functions
    ⟨"t.a", .OpBetween, .value (.string "k"), some (.string "x")⟩ "BETWEEN" rfl⟩

end predicate_description

/-! ## Bounds and termination of the merge loop -/

section merge_loop_theorems

open SortMergeJoinImpl

variable {T : Type} [LinearOrder T]

/-- C24: the calls of `_run_length` made by `_join_partition` are not guarded.  With an
empty left partition the first call has `start_index = 0 = values.size()`; in scenario D
the call made when the left cursor reaches the end has `start_index = 3 = values.size()`;
`values->at` throws in both, and `_join_partition` ends with `std::out_of_range` on every
existing partition, in every join mode. -/
theorem _join_partition_run_length_unguarded :
    _run_length 0 ([] : Partition Nat) = .error .out_of_range ∧
    (∀ mode : JoinMode,
      _join_partition (create ⟨[[]]⟩ scenario_D_right "=" mode) 0 = .error .out_of_range) ∧
    _run_length 3 [(row_a, (1 : Nat)), (row_b, 1), (row_c, 2)] = .error .out_of_range ∧
    (∀ mode : JoinMode,
      _join_partition (create scenario_D_left scenario_D_right "=" mode) 0
        = .error .out_of_range) ∧
    ∀ (self : SortMergeJoinImpl Nat) (partition_number : Nat),
      partition_number < self._output_pos_lists_left.length →
      partition_number < self._output_pos_lists_right.length →
      partition_number < self._sorted_left_table.partitions.length →
      partition_number < self._sorted_right_table.partitions.length →
      _join_partition self partition_number = .error .out_of_range :=
  ⟨rfl,
    fun mode => _join_partition_out_of_range _ 0 (by simp [create]) (by simp [create])
      (by simp [create]) (by simp [create, scenario_D_right]),
    rfl,
    fun mode => _join_partition_out_of_range _ 0 (by simp [create]) (by simp [create])
      (by simp [create, scenario_D_left]) (by simp [create, scenario_D_right]),
    fun self partition_number hl hr hlp hrp =>
      _join_partition_out_of_range self partition_number hl hr hlp hrp⟩

/-- C25: on a state whose cursors delimit a non-empty run on each side, an iteration of
the merge loop of `_join_partition` that completes moves no cursor back and increases
`left_run_start + right_run_start` (an iteration that does not complete ends with
`std::out_of_range`); the loop, started in such a state with the bound
`left_size + right_size`, ends within the bound, and so does `_join_partition`. -/
theorem merge_loop_terminates (self : SortMergeJoinImpl T) (partition_number : Nat)
    (left_partition right_partition : Partition T)
    (hl : partition_number < self._output_pos_lists_left.length)
    (hr : partition_number < self._output_pos_lists_right.length)
    (hlp : self._sorted_left_table.partitions[partition_number]? = some left_partition)
    (hrp : self._sorted_right_table.partitions[partition_number]? = some right_partition) :
    (∀ st : MergeState T, merge_invariant self left_partition right_partition st →
      _join_partition_body partition_number left_partition right_partition st
          = .error .out_of_range ∨
        ∃ st2, _join_partition_body partition_number left_partition right_partition st = .ok st2 ∧
          merge_invariant self left_partition right_partition st2 ∧
          st.left_run_start ≤ st2.left_run_start ∧ st.right_run_start ≤ st2.right_run_start ∧
          st.left_run_start + st.right_run_start < st2.left_run_start + st2.right_run_start) ∧
    (∀ st : MergeState T, merge_invariant self left_partition right_partition st →
      while_loop
        (fun st => decide (st.left_run_start < left_partition.length) &&
          decide (st.right_run_start < right_partition.length))
        (_join_partition_body partition_number left_partition right_partition)
        (left_partition.length + right_partition.length) st ≠ .error .loop_bound) ∧
    _join_partition self partition_number ≠ .error .loop_bound := by
  refine ⟨fun st hinv => _join_partition_body_spec self partition_number left_partition
    right_partition st hl hr hlp hrp hinv, ?_, ?_⟩
  · intro st hinv
    rw [merge_loop_out_of_range self partition_number left_partition right_partition hl hr hlp
      hrp _ st hinv (by omega)]
    intro h
    cases h
  · rw [_join_partition_out_of_range self partition_number hl hr
      (lt_length_of_some _ _ _ hlp) (lt_length_of_some _ _ _ hrp)]
    intro h
    cases h

/-- Witness of C25: partition 0 of scenario D; the first iteration moves the cursors from
`(0, 0)` to `(2, 1)`. -/
theorem merge_loop_terminates_witness :
    (_join_partition_body 0 [(row_a, 1), (row_b, 1), (row_c, 2)]
        [(row_x, 1), (row_y, 2), (row_z, 2)]
        ⟨create scenario_D_left scenario_D_right "=" .Inner, 0, 0, 2, 1⟩).map
      (fun st => (st.left_run_start, st.right_run_start, st.left_run_end, st.right_run_end))
      = .ok (2, 1, 3, 3) ∧
    ((∀ st : MergeState Nat,
      merge_invariant (create scenario_D_left scenario_D_right "=" .Inner)
        [(row_a, 1), (row_b, 1), (row_c, 2)] [(row_x, 1), (row_y, 2), (row_z, 2)] st →
      _join_partition_body 0 [(row_a, 1), (row_b, 1), (row_c, 2)]
          [(row_x, 1), (row_y, 2), (row_z, 2)] st = .error .out_of_range ∨
        ∃ st2, _join_partition_body 0 [(row_a, 1), (row_b, 1), (row_c, 2)]
            [(row_x, 1), (row_y, 2), (row_z, 2)] st = .ok st2 ∧
          merge_invariant (create scenario_D_left scenario_D_right "=" .Inner)
            [(row_a, 1), (row_b, 1), (row_c, 2)] [(row_x, 1), (row_y, 2), (row_z, 2)] st2 ∧
          st.left_run_start ≤ st2.left_run_start ∧ st.right_run_start ≤ st2.right_run_start ∧
          st.left_run_start + st.right_run_start < st2.left_run_start + st2.right_run_start) ∧
    (∀ st : MergeState Nat,
      merge_invariant (create scenario_D_left scenario_D_right "=" .Inner)
        [(row_a, 1), (row_b, 1), (row_c, 2)] [(row_x, 1), (row_y, 2), (row_z, 2)] st →
      while_loop
        (fun st => decide (st.left_run_start < [(row_a, 1), (row_b, 1), (row_c, 2)].length) &&
          decide (st.right_run_start < [(row_x, 1), (row_y, 2), (row_z, 2)].length))
        (_join_partition_body 0 [(row_a, 1), (row_b, 1), (row_c, 2)]
          [(row_x, 1), (row_y, 2), (row_z, 2)])
        ([(row_a, 1), (row_b, 1), (row_c, 2)].length +
          [(row_x, 1), (row_y, 2), (row_z, 2)].length) st ≠ .error .loop_bound) ∧
    _join_partition (create scenario_D_left scenario_D_right "=" .Inner) 0
      ≠ .error .loop_bound) :=
  ⟨rfl, merge_loop_terminates (create scenario_D_left scenario_D_right "=" .Inner) 0
    [(row_a, 1), (row_b, 1), (row_c, 2)] [(row_x, 1), (row_y, 2), (row_z, 2)]
    (by decide) (by decide) rfl rfl⟩

end merge_loop_theorems

/-! ## Money conversion and stock quantity -/

section money

open tpch

theorem neg_tmod_eq (a b : Int) : Int.tmod (-a) b = -Int.tmod a b := by
  rw [Int.tmod_def, Int.tmod_def, Int.neg_tdiv]
  ring

/-- C26: in exact rational arithmetic `_convert_money cents` is `cents / 100` for every
integer `cents`, negative ones included; the truncated quotient `dollars` and the
remainder satisfy `dollars * 100 + remainder = cents` and `|remainder| < 100`, and the
remainder is not negative for `cents ≥ 0` and not positive for `cents ≤ 0`. -/
theorem _convert_money_exact (cents : Int) :
    _convert_money cents = (cents : Rat) / 100 ∧
    Int.tdiv cents 100 * 100 + Int.tmod cents 100 = cents ∧
    |Int.tmod cents 100| < 100 ∧
    (0 ≤ cents → 0 ≤ Int.tmod cents 100) ∧
    (cents ≤ 0 → Int.tmod cents 100 ≤ 0) := by
  have hsum : Int.tdiv cents 100 * 100 + Int.tmod cents 100 = cents :=
    Int.tdiv_add_tmod' cents 100
  have hnonneg : 0 ≤ cents → 0 ≤ Int.tmod cents 100 := fun h => Int.tmod_nonneg 100 h
  have hnonpos : cents ≤ 0 → Int.tmod cents 100 ≤ 0 := by
    intro h
    have h1 : 0 ≤ Int.tmod (-cents) 100 := Int.tmod_nonneg 100 (by omega)
    rw [neg_tmod_eq] at h1
    omega
  have hlt : Int.tmod cents 100 < 100 := Int.tmod_lt_of_pos cents (by decide)
  have hgt : -100 < Int.tmod cents 100 := by
    have h1 : Int.tmod (-cents) 100 < 100 := Int.tmod_lt_of_pos (-cents) (by decide)
    rw [neg_tmod_eq] at h1
    omega
  refine ⟨?_, hsum, abs_lt.mpr ⟨hgt, hlt⟩, hnonneg, hnonpos⟩
  simp only [_convert_money]
  have hcast : ((Int.tdiv cents 100 * 100 + Int.tmod cents 100 : Int) : Rat) = (cents : Rat) := by
    rw [hsum]
  push_cast at hcast
  rw [← hcast]
  ring

end money

section stock_quantity

open tpcc

/-- C27: for an ordered quantity `1 ≤ qty ≤ 10` and a stock quantity `10 ≤ s_qty ≤ 100`
the stock quantity update of `run_transaction` overflows in none of its `int32_t`
operations, its result is `s_qty - qty` when `s_qty ≥ qty + 10` and `s_qty + 91 - qty`
otherwise, and the result lies in `[10, 100]`. -/
theorem new_stock_quantity_in_range (s_qty qty : Int) (hq1 : 1 ≤ qty) (hq2 : qty ≤ 10)
    (hs1 : 10 ≤ s_qty) (hs2 : s_qty ≤ 100) :
    ∃ result, new_stock_quantity s_qty qty = .ok result ∧
      result = (if s_qty ≥ qty + 10 then s_qty - qty else s_qty + 91 - qty) ∧
      10 ≤ result ∧ result ≤ 100 := by
  have h1 : int32_result (qty + 10) = .ok (qty + 10) := by
    simp only [int32_result]; rw [if_pos (by omega)]
  have h2 : int32_result (91 - qty) = .ok (91 - qty) := by
    simp only [int32_result]; rw [if_pos (by omega)]
  have h3 : int32_result (s_qty - qty) = .ok (s_qty - qty) := by
    simp only [int32_result]; rw [if_pos (by omega)]
  have h4 : int32_result (s_qty + (91 - qty)) = .ok (s_qty + (91 - qty)) := by
    simp only [int32_result]; rw [if_pos (by omega)]
  by_cases hc : s_qty ≥ qty + 10
  · refine ⟨s_qty - qty, ?_, by rw [if_pos hc], by omega, by omega⟩
    simp only [new_stock_quantity, h1, bind, Except.bind]
    rw [if_pos hc, h3]
  · refine ⟨s_qty + (91 - qty), ?_, by rw [if_neg hc]; omega, by omega, by omega⟩
    simp only [new_stock_quantity, h1, h2, bind, Except.bind]
    rw [if_neg hc, h4]

/-- Witness of C27: 10 pieces ordered from a stock of 19 leave `19 + 91 - 10 = 100`. -/
theorem new_stock_quantity_in_range_witness :
    new_stock_quantity 19 10 = .ok 100 ∧
    ∃ result, new_stock_quantity 19 10 = .ok result ∧
      result = (if (19 : Int) ≥ 10 + 10 then 19 - 10 else 19 + 91 - 10) ∧
      10 ≤ result ∧ result ≤ 100 :=
  ⟨rfl, new_stock_quantity_in_range 19 10 (by decide) (by decide) (by decide) (by decide)⟩

end stock_quantity

/-! ## Column types of the money columns -/

section money_columns

open tpch

/-- C28: the part retail price is not stored in a float column.  The `append_row` call of
`part_builder` passes `_convert_money(part.retailprice)` at position 7, where the column
type tuple has `int32_t` (column `p_retailsize`), so a retail price of 90149 cents is
stored as the integer 901 and not as 901.49.  The money columns of the other builders
(c_acctbal, o_totalprice, l_extendedprice, l_discount, l_tax, ps_supplycost, s_acctbal)
are declared `float`. -/
theorem part_retailprice_stored_as_int32 :
    part_builder.append_row[7]? = some (.convert_money "part.retailprice") ∧
    part_builder.column_types[7]? = some .int32_t ∧
    part_builder.column_names[7]? = some "p_retailsize" ∧
    ¬ part_builder.money_columns_are_float ∧
    _convert_money 90149 = 90149 / 100 ∧
    part_builder.stored_money 7 90149 = .ok (.int32 901) ∧
    (∀ builder ∈ builders, builder ≠ part_builder → builder.money_columns_are_float) ∧
    ∀ builder ∈ builders, builder.column_types.length = builder.column_names.length ∧
      builder.column_types.length = builder.append_row.length := by
  refine ⟨rfl, rfl, rfl, ?_, ?_, ?_, ?_, ?_⟩
  · intro h
    have h7 := h 7 "part.retailprice" rfl
    simp [part_builder] at h7
  · norm_num [_convert_money, Int.tdiv, Int.tmod]
  · have hm : _convert_money 90149 = 90149 / 100 := by
      norm_num [_convert_money, Int.tdiv, Int.tmod]
    have hcast : (((90149 : Int) : Rat) / ((100 : Int) : Rat)) = (90149 : Rat) / 100 := by
      norm_num
    have hnum : ((90149 : Rat) / 100).num = 90149 := by
      have h : (((90149 : Int) : Rat) / ((100 : Int) : Rat)).num = 90149 :=
        Rat.num_div_eq_of_coprime (by norm_num) (by norm_num)
      rw [hcast] at h
      exact h
    have hden : ((90149 : Rat) / 100).den = 100 := by
      have h : ((((90149 : Int) : Rat) / ((100 : Int) : Rat)).den : Int) = 100 :=
        Rat.den_div_eq_of_coprime (by norm_num) (by norm_num)
      rw [hcast] at h
      omega
    have htype : vector_index part_builder.column_types 7 = .ok .int32_t := rfl
    simp only [Builder.stored_money, hm, htype, bind, Except.bind, stored_float, hnum, hden]
    rfl
  · intro builder hb hne
    simp only [builders, List.mem_cons, List.mem_singleton, List.not_mem_nil, or_false] at hb
    rcases hb with h | h | h | h | h | h | h | h
    all_goals first
      | exact absurd h hne
      | (subst h
         intro i field hi
         simp only [customer_builder, order_builder, lineitem_builder, partsupp_builder,
           supplier_builder, nation_builder, region_builder] at hi ⊢
         rcases i with _ | _ | _ | _ | _ | _ | _ | _ | _ | _ | _ | _ | _ | _ | _ | _ | i <;>
           simp at hi ⊢)
  · intro builder hb
    simp only [builders, List.mem_cons, List.mem_singleton, List.not_mem_nil, or_false] at hb
    rcases hb with h | h | h | h | h | h | h | h <;> subst h <;> exact ⟨rfl, rfl⟩

end money_columns

/-! ## The columns of the output table -/

section output_table

open SortMergeJoinImpl storage

/-- The output columns made from a value-only input table all hold the join's position
list. -/
theorem flattened_of_value_only (input_table : storage.Table) (chunk0 : Chunk)
    (pos_list : PosList) (new_columns : List BaseColumn)
    (h_chunk0 : input_table.chunks[0]? = some chunk0)
    (h_length : new_columns.length = chunk0.columns.length)
    (h_flat : ∀ column_id column, new_columns[column_id]? = some column →
      flattened_column input_table chunk0 pos_list column_id column)
    (h_value : input_table.value_only) :
    ∀ column ∈ new_columns, column.pos_list = some pos_list := by
  intro column hcolumn
  obtain ⟨column_id, hlt, hget⟩ := List.getElem_of_mem hcolumn
  have hsome : new_columns[column_id]? = some column := by
    rw [List.getElem?_eq_getElem hlt, hget]
  have hlt0 : column_id < chunk0.columns.length := by omega
  have hbase := List.getElem?_eq_getElem hlt0
  have hmem0 : chunk0 ∈ input_table.chunks := List.getElem?_mem h_chunk0
  have hmemb : chunk0.columns[column_id] ∈ chunk0.columns := List.getElem_mem _
  have hnot := h_value chunk0 hmem0 _ hmemb
  cases hcol : chunk0.columns[column_id] with
  | ValueColumn values =>
    rw [hcol] at hbase
    rw [(h_flat column_id column hsome).2 values hbase]
    rfl
  | ReferenceColumn rt rc pl =>
    rw [hcol] at hnot
    simp [BaseColumn.is_reference] at hnot

/-- Counterexample to C29 as stated: the left input is a reference table of the shape of
a join result, whose columns `a` and `b` have different position lists; for the join
position list `(0,0)` the two left-derived output columns get the position lists `(0,1)`
and `(0,0)`, so they do not share one position list. -/
theorem output_columns_of_reference_input_differ :
    _build_output_table scenario_joined_table scenario_value_table "l." "r." [⟨0, 0⟩] [⟨0, 1⟩]
      = .ok (.mk ["l.a", "l.b", "r.a"] ["int", "int", "int"]
          [.mk [.ReferenceColumn scenario_value_table 0 [⟨0, 1⟩],
            .ReferenceColumn scenario_value_table_b 0 [⟨0, 0⟩],
            .ReferenceColumn scenario_value_table 0 [⟨0, 1⟩]]]) ∧
    ([⟨0, 1⟩] : PosList) ≠ [⟨0, 0⟩] :=
  ⟨rfl, by decide⟩

/-- C29 (amended): for input tables with a chunk 0 that holds every column, and join
position lists whose rows exist in the reference columns, the output table that
`on_execute` assembles from the two position lists has `col_count(left) +
col_count(right)` columns: first the columns of the left input in their order, named
`prefix_left` + name with their type, then those of the right input with `prefix_right`.
A column made from a value column references the input table with the position list of
its side, so all columns of a value-column input share that list; a column made from a
reference column has a position list of its own, the side's list dereferenced through
that input column. -/
theorem _build_output_table_columns (input_table_left input_table_right : storage.Table)
    (_prefix_left _prefix_right : String) (output_left output_right : PosList)
    (chunk_left chunk_right : Chunk)
    (h_names_left : input_table_left.column_names.length = input_table_left.col_count)
    (h_chunk_left : input_table_left.chunks[0]? = some chunk_left)
    (h_cols_left : chunk_left.columns.length = input_table_left.col_count)
    (h_ref_left : ∀ column_id column, chunk_left.columns[column_id]? = some column →
      column.is_reference = true →
      input_table_left.reference_in_every_chunk column_id ∧
        ∀ row ∈ output_left, (referenced_position input_table_left column_id row).isSome = true)
    (h_names_right : input_table_right.column_names.length = input_table_right.col_count)
    (h_chunk_right : input_table_right.chunks[0]? = some chunk_right)
    (h_cols_right : chunk_right.columns.length = input_table_right.col_count)
    (h_ref_right : ∀ column_id column, chunk_right.columns[column_id]? = some column →
      column.is_reference = true →
      input_table_right.reference_in_every_chunk column_id ∧
        ∀ row ∈ output_right,
          (referenced_position input_table_right column_id row).isSome = true) :
    ∃ result columns_left columns_right,
      _build_output_table input_table_left input_table_right _prefix_left _prefix_right
        output_left output_right = .ok result ∧
      result.chunks = [Chunk.mk (columns_left ++ columns_right)] ∧
      result.col_count = input_table_left.col_count + input_table_right.col_count ∧
      columns_left.length = input_table_left.col_count ∧
      columns_right.length = input_table_right.col_count ∧
      result.column_names =
        input_table_left.column_names.map (fun name => _prefix_left ++ name) ++
          input_table_right.column_names.map (fun name => _prefix_right ++ name) ∧
      result.column_types = input_table_left.column_types ++ input_table_right.column_types ∧
      (∀ column_id column, columns_left[column_id]? = some column →
        flattened_column input_table_left chunk_left output_left column_id column) ∧
      (∀ column_id column, columns_right[column_id]? = some column →
        flattened_column input_table_right chunk_right output_right column_id column) ∧
      (input_table_left.value_only →
        ∀ column ∈ columns_left, column.pos_list = some output_left) ∧
      (input_table_right.value_only →
        ∀ column ∈ columns_right, column.pos_list = some output_right) := by
  obtain ⟨result1, hres1, columns_left, hc1, hlen1, hflat1, hnames1, htypes1⟩ :=
    _add_output_columns_spec storage.Table.create input_table_left _prefix_left output_left
      chunk_left (.mk []) [] h_names_left h_chunk_left h_cols_left rfl h_ref_left
  obtain ⟨result, hres, columns_right, hc2, hlen2, hflat2, hnames2, htypes2⟩ :=
    _add_output_columns_spec result1 input_table_right _prefix_right output_right
      chunk_right _ [] h_names_right h_chunk_right h_cols_right hc1 h_ref_right
  refine ⟨result, columns_left, columns_right, ?_, ?_, ?_, hlen1, hlen2, ?_, ?_, hflat1,
    hflat2, ?_, ?_⟩
  · simp only [_build_output_table, hres1, bind, Except.bind]
    exact hres
  · rw [hc2]
    simp [Chunk.columns]
  · simp only [storage.Table.col_count] at *
    rw [htypes2, htypes1]
    simp [storage.Table.create, storage.Table.column_types]
  · rw [hnames2, hnames1]
    simp [storage.Table.create, storage.Table.column_names]
  · rw [htypes2, htypes1]
    simp [storage.Table.create, storage.Table.column_types]
  · exact flattened_of_value_only input_table_left chunk_left output_left columns_left
      h_chunk_left (by omega) hflat1
  · exact flattened_of_value_only input_table_right chunk_right output_right columns_right
      h_chunk_right (by omega) hflat2

/-- Witness of C29 (amended): a value table with the columns `a`, `b` on the left and a
reference table of the shape of a join result on the right; the right position lists
`(0,1), (0,0)` become `(0,0), (0,1)` on column `a` and `(0,1), (0,0)` on column `b`. -/
theorem _build_output_table_columns_witness :
    _build_output_table scenario_value_table_ab scenario_joined_table "l." "r."
        [⟨0, 1⟩, ⟨0, 0⟩] [⟨0, 1⟩, ⟨0, 0⟩]
      = .ok (.mk ["l.a", "l.b", "r.a", "r.b"] ["int", "int", "int", "int"]
          [.mk [.ReferenceColumn scenario_value_table_ab 0 [⟨0, 1⟩, ⟨0, 0⟩],
            .ReferenceColumn scenario_value_table_ab 1 [⟨0, 1⟩, ⟨0, 0⟩],
            .ReferenceColumn scenario_value_table 0 [⟨0, 0⟩, ⟨0, 1⟩],
            .ReferenceColumn scenario_value_table_b 0 [⟨0, 1⟩, ⟨0, 0⟩]]]) ∧
    ∃ result columns_left columns_right,
      _build_output_table scenario_value_table_ab scenario_joined_table "l." "r."
        [⟨0, 1⟩, ⟨0, 0⟩] [⟨0, 1⟩, ⟨0, 0⟩] = .ok result ∧
      result.chunks = [Chunk.mk (columns_left ++ columns_right)] ∧
      result.col_count = scenario_value_table_ab.col_count + scenario_joined_table.col_count ∧
      columns_left.length = scenario_value_table_ab.col_count ∧
      columns_right.length = scenario_joined_table.col_count ∧
      result.column_names =
        scenario_value_table_ab.column_names.map (fun name => "l." ++ name) ++
          scenario_joined_table.column_names.map (fun name => "r." ++ name) ∧
      result.column_types =
        scenario_value_table_ab.column_types ++ scenario_joined_table.column_types ∧
      (∀ column_id column, columns_left[column_id]? = some column →
        flattened_column scenario_value_table_ab
          (.mk [.ValueColumn [.int32 5, .int32 6], .ValueColumn [.int32 7, .int32 8]])
          [⟨0, 1⟩, ⟨0, 0⟩] column_id column) ∧
      (∀ column_id column, columns_right[column_id]? = some column →
        flattened_column scenario_joined_table
          (.mk [.ReferenceColumn scenario_value_table 0 [⟨0, 1⟩, ⟨0, 0⟩],
            .ReferenceColumn scenario_value_table_b 0 [⟨0, 0⟩, ⟨0, 1⟩]])
          [⟨0, 1⟩, ⟨0, 0⟩] column_id column) ∧
      (scenario_value_table_ab.value_only →
        ∀ column ∈ columns_left, column.pos_list = some [⟨0, 1⟩, ⟨0, 0⟩]) ∧
      (scenario_joined_table.value_only →
        ∀ column ∈ columns_right, column.pos_list = some [⟨0, 1⟩, ⟨0, 0⟩]) :=
  ⟨rfl, _build_output_table_columns scenario_value_table_ab scenario_joined_table "l." "r."
    [⟨0, 1⟩, ⟨0, 0⟩] [⟨0, 1⟩, ⟨0, 0⟩]
    (.mk [.ValueColumn [.int32 5, .int32 6], .ValueColumn [.int32 7, .int32 8]])
    (.mk [.ReferenceColumn scenario_value_table 0 [⟨0, 1⟩, ⟨0, 0⟩],
      .ReferenceColumn scenario_value_table_b 0 [⟨0, 0⟩, ⟨0, 1⟩]])
    rfl rfl rfl
    (by
      intro column_id column hcolumn href
      rcases column_id with _ | _ | n
      · simp [Chunk.columns] at hcolumn
        subst hcolumn
        simp [BaseColumn.is_reference] at href
      · simp [Chunk.columns] at hcolumn
        subst hcolumn
        simp [BaseColumn.is_reference] at href
      · simp [Chunk.columns] at hcolumn)
    rfl rfl rfl
    (by
      intro column_id column hcolumn _
      rcases column_id with _ | _ | n
      · constructor
        · intro chunk hchunk
          simp only [scenario_joined_table, storage.Table.chunks, List.mem_singleton] at hchunk
          subst hchunk
          exact ⟨_, rfl, rfl⟩
        · intro row hrow
          simp only [List.mem_cons, List.mem_singleton, List.not_mem_nil, or_false] at hrow
          rcases hrow with h | h <;> subst h <;> rfl
      · constructor
        · intro chunk hchunk
          simp only [scenario_joined_table, storage.Table.chunks, List.mem_singleton] at hchunk
          subst hchunk
          exact ⟨_, rfl, rfl⟩
        · intro row hrow
          simp only [List.mem_cons, List.mem_singleton, List.not_mem_nil, or_false] at hrow
          rcases hrow with h | h <;> subst h <;> rfl
      · simp [Chunk.columns] at hcolumn)⟩

end output_table

/-! ## Balance of the output position lists -/

section output_balance

open SortMergeJoinImpl

variable {T : Type}

/-- A `for` loop that returns keeps every property that its body keeps. -/
theorem for_loop_preserves {σ : Type} (P : σ → Prop) (body : Nat → σ → Except Failure σ)
    (hbody : ∀ i s1 s2, P s1 → body i s1 = .ok s2 → P s2) :
    ∀ (count index : Nat) (s s2 : σ), P s → for_loop body count index s = .ok s2 → P s2 := by
  intro count
  induction count with
  | zero =>
    intro index s s2 hs h
    simp only [for_loop] at h
    cases h
    exact hs
  | succ n ih =>
    intro index s s2 hs h
    simp only [for_loop] at h
    cases hstep : body index s with
    | error e => rw [hstep] at h; cases h
    | ok s1 =>
      rw [hstep] at h
      exact ih (index + 1) s1 s2 (hbody index s s1 hs hstep) h

/-- A walk over a range that returns keeps every property that its action keeps. -/
theorem for_every_row_id_preserves {σ : Type} (P : σ → Prop) (range : TableRange)
    (table : SortedTable T) (action : RowID → σ → Except Failure σ)
    (hact : ∀ r s1 s2, P s1 → action r s1 = .ok s2 → P s2) (s s2 : σ) (hs : P s)
    (h : range.for_every_row_id table action s = .ok s2) : P s2 := by
  unfold TableRange.for_every_row_id at h
  refine for_loop_preserves P _ ?_ _ _ s s2 hs h
  intro partition s1 s3 hs1 hstep
  obtain ⟨values, _, hstep⟩ := bind_ok_elim hstep
  refine for_loop_preserves P _ ?_ _ _ s1 s3 hs1 hstep
  intro index s4 s5 hs4 hinner
  obtain ⟨entry, _, hinner⟩ := bind_ok_elim hinner
  exact hact _ s4 s5 hs4 hinner

theorem vector_index_ok_getElem {α : Type} (v : List α) (i : Nat) (x : α)
    (h : vector_index v i = .ok x) : v[i]? = some x := by
  unfold vector_index at h
  cases hv : v[i]? with
  | none => rw [hv] at h; cases h
  | some y => rw [hv] at h; cases h; rfl

theorem _emit_combination_balanced (s s2 : SortMergeJoinImpl T) (output_partition : Nat)
    (left right : RowID) (hs : s.balanced)
    (h : _emit_combination s output_partition left right = .ok s2) : s2.balanced := by
  unfold _emit_combination at h
  obtain ⟨out_left, hleft, h⟩ := bind_ok_elim h
  obtain ⟨out_right, hright, h⟩ := bind_ok_elim h
  have hl := vector_index_ok_getElem _ _ _ hleft
  have hr := vector_index_ok_getElem _ _ _ hright
  simp only [pure, Except.pure, Except.ok.injEq] at h
  subst h
  obtain ⟨hlen, hall⟩ := hs
  refine ⟨by simpa using hlen, ?_⟩
  intro p l r hpl hpr
  simp only [List.getElem?_set] at hpl hpr
  by_cases hp : output_partition = p
  · rw [if_pos hp, if_pos (lt_length_of_some _ _ _ hl)] at hpl
    rw [if_pos hp, if_pos (lt_length_of_some _ _ _ hr)] at hpr
    cases hpl
    cases hpr
    simp [hall output_partition out_left out_right hl hr]
  · rw [if_neg hp] at hpl hpr
    exact hall p l r hpl hpr

theorem flatten_length_of_balanced :
    ∀ (lefts rights : List PosList), lefts.length = rights.length →
      (∀ (p : Nat) (left right : PosList), lefts[p]? = some left → rights[p]? = some right →
        left.length = right.length) →
      lefts.flatten.length = rights.flatten.length := by
  intro lefts
  induction lefts with
  | nil =>
    intro rights hlen _
    cases rights with
    | nil => rfl
    | cons r rs => simp at hlen
  | cons l ls ih =>
    intro rights hlen hall
    cases rights with
    | nil => simp at hlen
    | cons r rs =>
      have h0 := hall 0 l r (by simp) (by simp)
      have hrest := ih rs (by simpa using hlen)
        (fun p left right hl hr => hall (p + 1) left right (by simpa using hl) (by simpa using hr))
      simp [List.flatten_cons, h0, hrest]

theorem create_balanced (sorted_left sorted_right : SortedTable T) (op : String)
    (mode : JoinMode) : (create sorted_left sorted_right op mode).balanced := by
  refine ⟨rfl, ?_⟩
  intro p left right hl hr
  simp only [create, List.replicate] at hl hr
  rcases p with _ | p
  · simp at hl hr
    subst hl
    subst hr
    rfl
  · simp at hl

theorem _emit_combinations_balanced (s s2 : SortMergeJoinImpl T) (output_partition : Nat)
    (left_range right_range : TableRange) (hs : s.balanced)
    (h : _emit_combinations s output_partition left_range right_range = .ok s2) :
    s2.balanced := by
  unfold _emit_combinations at h
  refine for_every_row_id_preserves balanced _ _ _ ?_ s s2 hs h
  intro left_row_id s1 s3 hs1 hstep
  refine for_every_row_id_preserves balanced _ _ _ ?_ s1 s3 hs1 hstep
  intro right_row_id s4 s5 hs4 hinner
  exact _emit_combination_balanced s4 s5 output_partition _ _ hs4 hinner

theorem _emit_right_null_combinations_balanced (s s2 : SortMergeJoinImpl T)
    (output_partition : Nat) (left_range : TableRange) (hs : s.balanced)
    (h : _emit_right_null_combinations s output_partition left_range = .ok s2) :
    s2.balanced := by
  unfold _emit_right_null_combinations at h
  refine for_every_row_id_preserves balanced _ _ _ ?_ s s2 hs h
  intro left_row_id s1 s3 hs1 hstep
  exact _emit_combination_balanced s1 s3 output_partition _ _ hs1 hstep

theorem _emit_left_null_combinations_balanced (s s2 : SortMergeJoinImpl T)
    (output_partition : Nat) (right_range : TableRange) (hs : s.balanced)
    (h : _emit_left_null_combinations s output_partition right_range = .ok s2) :
    s2.balanced := by
  unfold _emit_left_null_combinations at h
  refine for_every_row_id_preserves balanced _ _ _ ?_ s s2 hs h
  intro right_row_id s1 s3 hs1 hstep
  exact _emit_combination_balanced s1 s3 output_partition _ _ hs1 hstep

variable [LinearOrder T]

theorem _join_runs_balanced (s s2 : SortMergeJoinImpl T) (partition_number : Nat)
    (left_run right_run : TableRange) (hs : s.balanced)
    (h : _join_runs s partition_number left_run right_run = .ok s2) : s2.balanced := by
  unfold _join_runs at h
  obtain ⟨left_partition, _, h⟩ := bind_ok_elim h
  obtain ⟨right_partition, _, h⟩ := bind_ok_elim h
  obtain ⟨_, _, h⟩ := bind_ok_elim h
  obtain ⟨_, _, h⟩ := bind_ok_elim h
  obtain ⟨left_entry, _, h⟩ := bind_ok_elim h
  obtain ⟨right_entry, _, h⟩ := bind_ok_elim h
  obtain ⟨end_of_left_table, _, h⟩ := bind_ok_elim h
  obtain ⟨end_of_right_table, _, h⟩ := bind_ok_elim h
  have hpure : ∀ t : SortMergeJoinImpl T, (pure s : Except Failure _) = .ok t → t.balanced := by
    intro t ht
    simp only [pure, Except.pure, Except.ok.injEq] at ht
    subst ht
    exact hs
  split_ifs at h
  all_goals first
    | exact _emit_combinations_balanced _ _ _ _ _ hs h
    | exact _emit_right_null_combinations_balanced _ _ _ _ hs h
    | exact _emit_left_null_combinations_balanced _ _ _ _ hs h
    | exact hpure _ h
    | (obtain ⟨s1, h1, h⟩ := bind_ok_elim h
       have hs1 : s1.balanced := by
         exact _emit_combinations_balanced _ _ _ _ _ hs h1
       first
         | exact _emit_combinations_balanced _ _ _ _ _ hs1 h
         | (simp only [pure, Except.pure, Except.ok.injEq] at h
            subst h
            exact hs1))

theorem _join_partition_body_balanced (st st2 : MergeState T) (partition_number : Nat)
    (left_partition right_partition : Partition T) (hs : st.self.balanced)
    (h : _join_partition_body partition_number left_partition right_partition st = .ok st2) :
    st2.self.balanced := by
  unfold _join_partition_body at h
  obtain ⟨left_entry, _, h⟩ := bind_ok_elim h
  obtain ⟨right_entry, _, h⟩ := bind_ok_elim h
  obtain ⟨self1, hruns, h⟩ := bind_ok_elim h
  have hs1 : self1.balanced := _join_runs_balanced _ _ _ _ _ hs hruns
  split_ifs at h
  · obtain ⟨_, _, h⟩ := bind_ok_elim h
    obtain ⟨_, _, h⟩ := bind_ok_elim h
    simp only [pure, Except.pure, Except.ok.injEq] at h
    subst h
    exact hs1
  · obtain ⟨_, _, h⟩ := bind_ok_elim h
    simp only [pure, Except.pure, Except.ok.injEq] at h
    subst h
    exact hs1
  · obtain ⟨_, _, h⟩ := bind_ok_elim h
    simp only [pure, Except.pure, Except.ok.injEq] at h
    subst h
    exact hs1

theorem reachable_balanced (self0 s : SortMergeJoinImpl T) (h0 : self0.balanced)
    (h : reachable self0 s) : s.balanced := by
  induction h with
  | start => exact h0
  | emit_combination s s2 p l r _ hstep ih => exact _emit_combination_balanced s s2 p l r ih hstep
  | emit_combinations s s2 p lr rr _ hstep ih =>
    exact _emit_combinations_balanced s s2 p lr rr ih hstep
  | emit_right_null_combinations s s2 p lr _ hstep ih =>
    exact _emit_right_null_combinations_balanced s s2 p lr ih hstep
  | emit_left_null_combinations s s2 p rr _ hstep ih =>
    exact _emit_left_null_combinations_balanced s s2 p rr ih hstep
  | join_runs s s2 p lr rr _ hstep ih => exact _join_runs_balanced s s2 p lr rr ih hstep
  | join_partition_body st st2 p lp rp _ hstep ih =>
    exact _join_partition_body_balanced st st2 p lp rp ih hstep

/-- C30: in every state that a join reaches from the constructed object (through
`_emit_combination`, `_emit_combinations`, `_emit_right_null_combinations`,
`_emit_left_null_combinations`, `_join_runs` and the iterations of the merge loop) the
left and the right output position list of every partition have the same length, and the
concatenated left and right position lists have the same length. -/
theorem output_pos_lists_balanced (sorted_left sorted_right : SortedTable T) (op : String)
    (mode : JoinMode) (s : SortMergeJoinImpl T)
    (h : reachable (create sorted_left sorted_right op mode) s) :
    s.balanced ∧
    (_concatenate_pos_lists s._output_pos_lists_left).length =
      (_concatenate_pos_lists s._output_pos_lists_right).length := by
  have hb := reachable_balanced _ s (create_balanced sorted_left sorted_right op mode) h
  refine ⟨hb, ?_⟩
  rw [_concatenate_pos_lists_eq_flatten, _concatenate_pos_lists_eq_flatten]
  exact flatten_length_of_balanced _ _ hb.1 hb.2

/-- Witness of C30: the state of scenario D after the first call of `_join_runs`, with
the pairs `(a, x)` and `(b, x)` in the output lists of partition 0. -/
theorem output_pos_lists_balanced_witness :
    reachable (create scenario_D_left scenario_D_right "=" .Inner)
      ⟨scenario_D_left, scenario_D_right, "=", .Inner, 1, [[row_a, row_b]], [[row_x, row_x]]⟩ ∧
    (balanced (⟨scenario_D_left, scenario_D_right, "=", .Inner, 1, [[row_a, row_b]],
        [[row_x, row_x]]⟩ : SortMergeJoinImpl Nat) ∧
      (_concatenate_pos_lists [[row_a, row_b]]).length =
        (_concatenate_pos_lists [[row_x, row_x]]).length) :=
  (fun h => ⟨h, output_pos_lists_balanced scenario_D_left scenario_D_right "=" .Inner _ h⟩)
    (reachable.join_runs (create scenario_D_left scenario_D_right "=" .Inner) _ 0
      (TableRange.of_partition 0 0 2) (TableRange.of_partition 0 0 1) reachable.start rfl)

end output_balance

end opossum
